import Mathlib

/-!
# Verification of the cube-topology and game-state core of `oops-all-cubes`

Shallow embedding of the repository's cube topology engine
(`EDGE_TRANSITIONS`, `movePosition`, `getAllNeighbors`, direction
remapping) and of the four concrete game state machines (Snake,
Minesweeper, Tetris-3D, Nonogram), together with theorems settling the
behavioural claims about them.

Conventions of the embedding:
* JavaScript numbers used as grid coordinates are modelled as `Int`
  (all arithmetic on them in the source is integer arithmetic).
* JavaScript `Map<string, V>` keyed by `posKey(p) = "face-x-y"` is
  modelled as an association list keyed by the position itself
  (`posKey` is injective on positions, so the two are isomorphic);
  `Map.set` replaces the value of an existing key in place and
  appends a fresh key at the end, which the model mirrors.
* `Math.random()` draws are modelled by an explicit stream
  `r : Nat -> Nat` of draw results; the JS expression
  `Math.floor(Math.random() * k)`, always in `[0, k)`, is modelled as
  `r i % k` for a fresh index `i`.  Determinism claims quantify over
  the stream.
* The `THREE.js` vector algebra used by the snake's direction remapping
  acts exclusively on integer vectors (face normals, face up vectors,
  and camera-up vectors obtained from them by quarter-turn rotations),
  so it is modelled exactly over `Int`-vectors.
-/

/-- The six cube faces (`CubeFace` enum). -/
inductive CubeFace where
  | TOP | BOTTOM | FRONT | BACK | LEFT | RIGHT
deriving DecidableEq, Fintype, Repr

/-- The four edges of a face grid (`EdgeDirection`). -/
inductive EdgeDirection where
  | top | bottom | left | right
deriving DecidableEq, Fintype, Repr

/-- A cell on one face of the cube (`CubePosition`). -/
structure CubePosition where
  face : CubeFace
  x : Int
  y : Int
deriving DecidableEq, Repr

/-- A movement delta `{dx, dy}`. -/
structure Delta where
  dx : Int
  dy : Int
deriving DecidableEq, Repr

/-- One entry of the edge transition table (`EdgeTransition`). -/
structure EdgeTransition where
  fromFace : CubeFace
  toFace : CubeFace
  fromEdge : EdgeDirection
  toEdge : EdgeDirection
  flipX : Bool
  flipY : Bool
  rotationOffset : Int
deriving DecidableEq, Repr

open CubeFace EdgeDirection

/-- The complete 24-entry edge transition map (`EDGE_TRANSITIONS`). -/
def EDGE_TRANSITIONS : List EdgeTransition := [
  -- FRONT face edges
  ⟨FRONT, TOP, .top, .bottom, false, false, 0⟩,
  ⟨FRONT, BOTTOM, .bottom, .top, false, false, 0⟩,
  ⟨FRONT, LEFT, .left, .right, false, false, 0⟩,
  ⟨FRONT, RIGHT, .right, .left, false, false, 0⟩,
  -- BACK face edges
  ⟨BACK, TOP, .top, .top, true, false, 180⟩,
  ⟨BACK, BOTTOM, .bottom, .bottom, true, false, 180⟩,
  ⟨BACK, RIGHT, .left, .right, false, false, 0⟩,
  ⟨BACK, LEFT, .right, .left, false, false, 0⟩,
  -- LEFT face edges
  ⟨LEFT, TOP, .top, .left, false, true, -90⟩,
  ⟨LEFT, BOTTOM, .bottom, .left, false, false, 90⟩,
  ⟨LEFT, BACK, .left, .right, false, false, 0⟩,
  ⟨LEFT, FRONT, .right, .left, false, false, 0⟩,
  -- RIGHT face edges
  ⟨RIGHT, TOP, .top, .right, false, false, 90⟩,
  ⟨RIGHT, BOTTOM, .bottom, .right, false, true, -90⟩,
  ⟨RIGHT, FRONT, .left, .right, false, false, 0⟩,
  ⟨RIGHT, BACK, .right, .left, false, false, 0⟩,
  -- TOP face edges
  ⟨TOP, BACK, .top, .top, true, false, 180⟩,
  ⟨TOP, FRONT, .bottom, .top, false, false, 0⟩,
  ⟨TOP, LEFT, .left, .top, false, true, 90⟩,
  ⟨TOP, RIGHT, .right, .top, false, false, -90⟩,
  -- BOTTOM face edges
  ⟨BOTTOM, FRONT, .top, .bottom, false, false, 0⟩,
  ⟨BOTTOM, BACK, .bottom, .bottom, true, false, 180⟩,
  ⟨BOTTOM, LEFT, .left, .bottom, false, false, -90⟩,
  ⟨BOTTOM, RIGHT, .right, .bottom, false, true, 90⟩]

/-- `getEdgeTransition`: find the transition off a given edge of a face. -/
def getEdgeTransition (fromFace : CubeFace) (edge : EdgeDirection) :
    Option EdgeTransition :=
  EDGE_TRANSITIONS.find? fun t =>
    decide (t.fromFace = fromFace) && decide (t.fromEdge = edge)

/-- `getEdgeAtPosition`: classify a cell as sitting on an edge of its face. -/
def getEdgeAtPosition (position : CubePosition) (gridSize : Int) :
    Option EdgeDirection :=
  if position.y = gridSize - 1 then some .top
  else if position.y = 0 then some .bottom
  else if position.x = 0 then some .left
  else if position.x = gridSize - 1 then some .right
  else none

/-- `getEdgeForDirection`: the edge a piece crosses when moving by `d`. -/
def getEdgeForDirection (position : CubePosition) (d : Delta)
    (gridSize : Int) : Option EdgeDirection :=
  let newX := position.x + d.dx
  let newY := position.y + d.dy
  if newY ≥ gridSize then some .top
  else if newY < 0 then some .bottom
  else if newX < 0 then some .left
  else if newX ≥ gridSize then some .right
  else none

/-- The per-edge placement rule: put the coordinate running along the
entered edge onto the destination face (the `switch (toEdge)` block of
`transformPositionAcrossEdge`). -/
def placeOnEdge (toFace : CubeFace) (toEdge : EdgeDirection) (c g : Int) :
    CubePosition :=
  match toEdge with
  | .top => ⟨toFace, c, g - 1⟩
  | .bottom => ⟨toFace, c, 0⟩
  | .left => ⟨toFace, 0, c⟩
  | .right => ⟨toFace, g - 1, c⟩

/-- The coordinate that runs along a given edge (`edgeCoord`). -/
def edgeParallelCoord (edge : EdgeDirection) (p : CubePosition) : Int :=
  match edge with
  | .top | .bottom => p.x
  | .left | .right => p.y

/-- `transformPositionAcrossEdge`: transform a position crossing an edge. -/
def transformPositionAcrossEdge (p : CubePosition) (d : Delta) (g : Int) :
    Option CubePosition :=
  match getEdgeForDirection p d g with
  | none => some ⟨p.face, p.x + d.dx, p.y + d.dy⟩
  | some edge =>
    match getEdgeTransition p.face edge with
    | none => none
    | some t =>
      let edgeCoord := edgeParallelCoord edge p
      let transformedCoord :=
        if t.flipX || t.flipY then g - 1 - edgeCoord else edgeCoord
      some (placeOnEdge t.toFace t.toEdge transformedCoord g)

/-- `movePosition`: move one position by a delta, wrapping across edges. -/
def movePosition (p : CubePosition) (d : Delta) (g : Int) : CubePosition :=
  let newX := p.x + d.dx
  let newY := p.y + d.dy
  if 0 ≤ newX ∧ newX < g ∧ 0 ≤ newY ∧ newY < g then ⟨p.face, newX, newY⟩
  else
    match transformPositionAcrossEdge p d g with
    | some q => q
    | none => p

/-- `positionsEqual`: structural equality of positions. -/
def positionsEqual (a b : CubePosition) : Bool :=
  decide (a.face = b.face) && decide (a.x = b.x) && decide (a.y = b.y)

/-- The 8 neighbor deltas (`NEIGHBOR_DELTAS`), orthogonal then diagonal. -/
def NEIGHBOR_DELTAS : List Delta :=
  [⟨0, 1⟩, ⟨0, -1⟩, ⟨-1, 0⟩, ⟨1, 0⟩, ⟨-1, 1⟩, ⟨1, 1⟩, ⟨-1, -1⟩, ⟨1, -1⟩]

/-- `transformSecondaryDelta`: map the component of a diagonal move that
runs parallel to the crossed edge into the target face's frame. -/
def transformSecondaryDelta (fromFace : CubeFace)
    (crossedEdge : EdgeDirection) (parallelDelta : Delta) : Option Delta :=
  match getEdgeTransition fromFace crossedEdge with
  | none => none
  | some t =>
    let sourceIsVerticalEdge :=
      crossedEdge = EdgeDirection.left ∨ crossedEdge = EdgeDirection.right
    let targetIsVerticalEdge :=
      t.toEdge = EdgeDirection.left ∨ t.toEdge = EdgeDirection.right
    let parallelAmount :=
      if sourceIsVerticalEdge then parallelDelta.dy else parallelDelta.dx
    let flipped := if t.flipX || t.flipY then -parallelAmount else parallelAmount
    if targetIsVerticalEdge then some ⟨0, flipped⟩ else some ⟨flipped, 0⟩

/-- `getDiagonalNeighbor`: diagonal neighbor with edge/corner wrapping. -/
def getDiagonalNeighbor (p : CubePosition) (d : Delta) (g : Int) :
    Option CubePosition :=
  let newX := p.x + d.dx
  let newY := p.y + d.dy
  let crossingLeft := newX < 0
  let crossingRight := newX ≥ g
  let crossingBottom := newY < 0
  let crossingTop := newY ≥ g
  if ¬crossingLeft ∧ ¬crossingRight ∧ ¬crossingBottom ∧ ¬crossingTop then
    some ⟨p.face, newX, newY⟩
  else if (crossingLeft ∨ crossingRight) ∧ ¬crossingBottom ∧ ¬crossingTop then
    let onNewFace := movePosition p ⟨d.dx, 0⟩ g
    let edgeCrossed : EdgeDirection := if crossingLeft then .left else .right
    match transformSecondaryDelta p.face edgeCrossed ⟨0, d.dy⟩ with
    | some sd =>
      let finalX := onNewFace.x + sd.dx
      let finalY := onNewFace.y + sd.dy
      if 0 ≤ finalX ∧ finalX < g ∧ 0 ≤ finalY ∧ finalY < g then
        some ⟨onNewFace.face, finalX, finalY⟩
      else none
    | none => none
  else if (crossingTop ∨ crossingBottom) ∧ ¬crossingLeft ∧ ¬crossingRight then
    let onNewFace := movePosition p ⟨0, d.dy⟩ g
    let edgeCrossed : EdgeDirection := if crossingTop then .top else .bottom
    match transformSecondaryDelta p.face edgeCrossed ⟨d.dx, 0⟩ with
    | some sd =>
      let finalX := onNewFace.x + sd.dx
      let finalY := onNewFace.y + sd.dy
      if 0 ≤ finalX ∧ finalX < g ∧ 0 ≤ finalY ∧ finalY < g then
        some ⟨onNewFace.face, finalX, finalY⟩
      else none
    | none => none
  else
    -- corner: try horizontal-then-vertical and vertical-then-horizontal
    let path1 := movePosition (movePosition p ⟨d.dx, 0⟩ g) ⟨0, d.dy⟩ g
    let _path2 := movePosition (movePosition p ⟨0, d.dy⟩ g) ⟨d.dx, 0⟩ g
    -- the source returns `path1` whether or not the two paths agree
    some path1

/-- One neighbor candidate of `getAllNeighbors` (orthogonal deltas use
`movePosition`, diagonal ones `getDiagonalNeighbor`). -/
def neighborCand (p : CubePosition) (g : Int) (d : Delta) :
    Option CubePosition :=
  if d.dx = 0 ∨ d.dy = 0 then some (movePosition p d g)
  else getDiagonalNeighbor p d g

/-- The accumulation step of `getAllNeighbors`: append the candidate
unless an equal position was already collected (the source's `seen` set
of injective `posKey` strings). -/
def addNeighbor (p : CubePosition) (g : Int) (acc : List CubePosition)
    (d : Delta) : List CubePosition :=
  match neighborCand p g d with
  | none => acc
  | some n => if acc.any fun q => positionsEqual q n then acc
              else acc ++ [n]

/-- `getAllNeighbors`: the up-to-8 neighbors of a cell, deduplicated by
structural equality (the source deduplicates by the injective string key
`posKey`). -/
def getAllNeighbors (p : CubePosition) (g : Int) : List CubePosition :=
  NEIGHBOR_DELTAS.foldl (addNeighbor p g) []

/-! ## C1: the transition table is total over the 24 pairs and
inverse-consistent -/

/-- C1.  The edge transition table has exactly 24 entries, exactly one for
every (face, edge) pair, and it is inverse-consistent: the transition
found for `(t.toFace, t.toEdge)` points back to `(t.fromFace, t.fromEdge)`. -/
theorem edgeTransitions_total_and_inverse_consistent :
    EDGE_TRANSITIONS.length = 24 ∧
    ∀ f e, ∃ t, getEdgeTransition f e = some t ∧
      (EDGE_TRANSITIONS.filter fun u =>
        decide (u.fromFace = f) && decide (u.fromEdge = e)).length = 1 ∧
      ∃ t', getEdgeTransition t.toFace t.toEdge = some t' ∧
        t'.toFace = f ∧ t'.toEdge = e := by
  refine ⟨rfl, ?_⟩
  intro f e
  cases f <;> cases e <;> exact ⟨_, rfl, by decide, _, rfl, rfl, rfl⟩

/-! ## C2: `movePosition` is total on one-step orthogonal moves -/

/-- Every (face, edge) pair has a transition, and it leads to a different
face (all 24 table entries connect two distinct adjacent faces). -/
lemma getEdgeTransition_total (f : CubeFace) (e : EdgeDirection) :
    ∃ t, getEdgeTransition f e = some t ∧ t.toFace ≠ f := by
  cases f <;> cases e <;> exact ⟨_, rfl, by decide⟩

/-- A move that crosses an edge lands outside the `[0, g)` square. -/
lemma getEdgeForDirection_not_inRange {p : CubePosition} {d : Delta}
    {g : Int} {e : EdgeDirection}
    (he : getEdgeForDirection p d g = some e) :
    ¬(0 ≤ p.x + d.dx ∧ p.x + d.dx < g ∧ 0 ≤ p.y + d.dy ∧ p.y + d.dy < g) := by
  simp only [getEdgeForDirection] at he
  split_ifs at he <;> first | exact Option.noConfusion he | omega

/-- Closed form of `movePosition` on an edge-crossing move. -/
lemma movePosition_cross {p : CubePosition} {d : Delta} {g : Int}
    {e : EdgeDirection} {t : EdgeTransition}
    (he : getEdgeForDirection p d g = some e)
    (ht : getEdgeTransition p.face e = some t) :
    movePosition p d g =
      placeOnEdge t.toFace t.toEdge
        (if t.flipX || t.flipY then g - 1 - edgeParallelCoord e p
         else edgeParallelCoord e p) g := by
  simp only [movePosition, transformPositionAcrossEdge, he, ht]
  rw [if_neg (getEdgeForDirection_not_inRange he)]

/-- The placement rule yields in-range coordinates. -/
lemma placeOnEdge_valid {tf : CubeFace} {te : EdgeDirection} {c g : Int}
    (h0 : 0 ≤ c) (h1 : c < g) :
    0 ≤ (placeOnEdge tf te c g).x ∧ (placeOnEdge tf te c g).x < g ∧
    0 ≤ (placeOnEdge tf te c g).y ∧ (placeOnEdge tf te c g).y < g := by
  cases te <;> simp only [placeOnEdge] <;> refine ⟨by omega, by omega, by omega, by omega⟩

/-- C2.  `movePosition` is total on one-step orthogonal moves: from any
in-range position, moving by a unit orthogonal delta yields an in-range
position on some face (it never falls back to a failure case). -/
theorem movePosition_total (g : Int) (p : CubePosition) (d : Delta)
    (hp : 0 ≤ p.x ∧ p.x < g ∧ 0 ≤ p.y ∧ p.y < g)
    (hd : d = ⟨0, 1⟩ ∨ d = ⟨0, -1⟩ ∨ d = ⟨1, 0⟩ ∨ d = ⟨-1, 0⟩) :
    0 ≤ (movePosition p d g).x ∧ (movePosition p d g).x < g ∧
    0 ≤ (movePosition p d g).y ∧ (movePosition p d g).y < g := by
  by_cases hin : 0 ≤ p.x + d.dx ∧ p.x + d.dx < g ∧ 0 ≤ p.y + d.dy ∧ p.y + d.dy < g
  · simp only [movePosition, if_pos hin]
    exact hin
  · rcases hd with rfl | rfl | rfl | rfl <;> dsimp only at hin
    · have he : getEdgeForDirection p ⟨0, 1⟩ g = some .top := by
        simp only [getEdgeForDirection]
        rw [if_pos (by omega)]
      obtain ⟨t, ht, -⟩ := getEdgeTransition_total p.face .top
      rw [movePosition_cross he ht]
      refine placeOnEdge_valid ?_ ?_ <;>
        · simp only [edgeParallelCoord]; split <;> omega
    · have he : getEdgeForDirection p ⟨0, -1⟩ g = some .bottom := by
        simp only [getEdgeForDirection]
        rw [if_neg (by omega), if_pos (by omega)]
      obtain ⟨t, ht, -⟩ := getEdgeTransition_total p.face .bottom
      rw [movePosition_cross he ht]
      refine placeOnEdge_valid ?_ ?_ <;>
        · simp only [edgeParallelCoord]; split <;> omega
    · have he : getEdgeForDirection p ⟨1, 0⟩ g = some .right := by
        simp only [getEdgeForDirection]
        rw [if_neg (by omega), if_neg (by omega),
          if_neg (by omega), if_pos (by omega)]
      obtain ⟨t, ht, -⟩ := getEdgeTransition_total p.face .right
      rw [movePosition_cross he ht]
      refine placeOnEdge_valid ?_ ?_ <;>
        · simp only [edgeParallelCoord]; split <;> omega
    · have he : getEdgeForDirection p ⟨-1, 0⟩ g = some .left := by
        simp only [getEdgeForDirection]
        rw [if_neg (by omega), if_neg (by omega),
          if_pos (by omega)]
      obtain ⟨t, ht, -⟩ := getEdgeTransition_total p.face .left
      rw [movePosition_cross he ht]
      refine placeOnEdge_valid ?_ ?_ <;>
        · simp only [edgeParallelCoord]; split <;> omega

/-- Witness for C2 at a concrete boundary cell of the 8-grid. -/
theorem movePosition_total_witness :
    0 ≤ (movePosition ⟨FRONT, 7, 3⟩ ⟨1, 0⟩ 8).x ∧
    (movePosition ⟨FRONT, 7, 3⟩ ⟨1, 0⟩ 8).x < 8 ∧
    0 ≤ (movePosition ⟨FRONT, 7, 3⟩ ⟨1, 0⟩ 8).y ∧
    (movePosition ⟨FRONT, 7, 3⟩ ⟨1, 0⟩ 8).y < 8 :=
  movePosition_total 8 ⟨FRONT, 7, 3⟩ ⟨1, 0⟩ (by decide) (by decide)

/-! ## C3: one-hop boundary round trips -/

/-- C3.  Moving one cell off a face and one cell back in the opposite
direction returns the original position, for both directions of each of
the FRONT-RIGHT, FRONT-LEFT, FRONT-TOP and FRONT-BOTTOM face pairs, at
every cell of the crossing edge. -/
theorem movePosition_round_trip (g c : Int) (h0 : 0 ≤ c) (h1 : c < g) :
    movePosition (movePosition ⟨FRONT, g-1, c⟩ ⟨1, 0⟩ g) ⟨-1, 0⟩ g =
      ⟨FRONT, g-1, c⟩ ∧
    movePosition (movePosition ⟨FRONT, 0, c⟩ ⟨-1, 0⟩ g) ⟨1, 0⟩ g =
      ⟨FRONT, 0, c⟩ ∧
    movePosition (movePosition ⟨FRONT, c, g-1⟩ ⟨0, 1⟩ g) ⟨0, -1⟩ g =
      ⟨FRONT, c, g-1⟩ ∧
    movePosition (movePosition ⟨FRONT, c, 0⟩ ⟨0, -1⟩ g) ⟨0, 1⟩ g =
      ⟨FRONT, c, 0⟩ ∧
    movePosition (movePosition ⟨RIGHT, 0, c⟩ ⟨-1, 0⟩ g) ⟨1, 0⟩ g =
      ⟨RIGHT, 0, c⟩ ∧
    movePosition (movePosition ⟨LEFT, g-1, c⟩ ⟨1, 0⟩ g) ⟨-1, 0⟩ g =
      ⟨LEFT, g-1, c⟩ ∧
    movePosition (movePosition ⟨TOP, c, 0⟩ ⟨0, -1⟩ g) ⟨0, 1⟩ g =
      ⟨TOP, c, 0⟩ ∧
    movePosition (movePosition ⟨BOTTOM, c, g-1⟩ ⟨0, 1⟩ g) ⟨0, -1⟩ g =
      ⟨BOTTOM, c, g-1⟩ := by
  have hop1 : movePosition ⟨FRONT, g-1, c⟩ ⟨1, 0⟩ g = ⟨RIGHT, 0, c⟩ := by
    have he : getEdgeForDirection ⟨FRONT, g-1, c⟩ ⟨1, 0⟩ g = some .right := by
      simp only [getEdgeForDirection]
      rw [if_neg (by omega), if_neg (by omega), if_neg (by omega),
        if_pos (by omega)]
    rw [movePosition_cross he rfl]
    simp [placeOnEdge, edgeParallelCoord]
  have hop2 : movePosition ⟨RIGHT, 0, c⟩ ⟨-1, 0⟩ g = ⟨FRONT, g-1, c⟩ := by
    have he : getEdgeForDirection ⟨RIGHT, 0, c⟩ ⟨-1, 0⟩ g = some .left := by
      simp only [getEdgeForDirection]
      rw [if_neg (by omega), if_neg (by omega), if_pos (by omega)]
    rw [movePosition_cross he rfl]
    simp [placeOnEdge, edgeParallelCoord]
  have hop3 : movePosition ⟨FRONT, 0, c⟩ ⟨-1, 0⟩ g = ⟨LEFT, g-1, c⟩ := by
    have he : getEdgeForDirection ⟨FRONT, 0, c⟩ ⟨-1, 0⟩ g = some .left := by
      simp only [getEdgeForDirection]
      rw [if_neg (by omega), if_neg (by omega), if_pos (by omega)]
    rw [movePosition_cross he rfl]
    simp [placeOnEdge, edgeParallelCoord]
  have hop4 : movePosition ⟨LEFT, g-1, c⟩ ⟨1, 0⟩ g = ⟨FRONT, 0, c⟩ := by
    have he : getEdgeForDirection ⟨LEFT, g-1, c⟩ ⟨1, 0⟩ g = some .right := by
      simp only [getEdgeForDirection]
      rw [if_neg (by omega), if_neg (by omega), if_neg (by omega),
        if_pos (by omega)]
    rw [movePosition_cross he rfl]
    simp [placeOnEdge, edgeParallelCoord]
  have hop5 : movePosition ⟨FRONT, c, g-1⟩ ⟨0, 1⟩ g = ⟨TOP, c, 0⟩ := by
    have he : getEdgeForDirection ⟨FRONT, c, g-1⟩ ⟨0, 1⟩ g = some .top := by
      simp only [getEdgeForDirection]
      rw [if_pos (by omega)]
    rw [movePosition_cross he rfl]
    simp [placeOnEdge, edgeParallelCoord]
  have hop6 : movePosition ⟨TOP, c, 0⟩ ⟨0, -1⟩ g = ⟨FRONT, c, g-1⟩ := by
    have he : getEdgeForDirection ⟨TOP, c, 0⟩ ⟨0, -1⟩ g = some .bottom := by
      simp only [getEdgeForDirection]
      rw [if_neg (by omega), if_pos (by omega)]
    rw [movePosition_cross he rfl]
    simp [placeOnEdge, edgeParallelCoord]
  have hop7 : movePosition ⟨FRONT, c, 0⟩ ⟨0, -1⟩ g = ⟨BOTTOM, c, g-1⟩ := by
    have he : getEdgeForDirection ⟨FRONT, c, 0⟩ ⟨0, -1⟩ g = some .bottom := by
      simp only [getEdgeForDirection]
      rw [if_neg (by omega), if_pos (by omega)]
    rw [movePosition_cross he rfl]
    simp [placeOnEdge, edgeParallelCoord]
  have hop8 : movePosition ⟨BOTTOM, c, g-1⟩ ⟨0, 1⟩ g = ⟨FRONT, c, 0⟩ := by
    have he : getEdgeForDirection ⟨BOTTOM, c, g-1⟩ ⟨0, 1⟩ g = some .top := by
      simp only [getEdgeForDirection]
      rw [if_pos (by omega)]
    rw [movePosition_cross he rfl]
    simp [placeOnEdge, edgeParallelCoord]
  refine ⟨?_, ?_, ?_, ?_, ?_, ?_, ?_, ?_⟩
  · rw [hop1]; exact hop2
  · rw [hop3]; exact hop4
  · rw [hop5]; exact hop6
  · rw [hop7]; exact hop8
  · rw [hop2]; exact hop1
  · rw [hop4]; exact hop3
  · rw [hop6]; exact hop5
  · rw [hop8]; exact hop7

/-- Witness for C3 on the 8-grid at edge coordinate 3. -/
theorem movePosition_round_trip_witness :
    movePosition (movePosition ⟨FRONT, 7, 3⟩ ⟨1, 0⟩ 8) ⟨-1, 0⟩ 8 =
      ⟨FRONT, 7, 3⟩ :=
  (movePosition_round_trip 8 3 (by decide) (by decide)).1

/-! ## C4: neighbor counts and deduplication -/

/-- `positionsEqual` decides structural equality. -/
lemma positionsEqual_iff {a b : CubePosition} :
    positionsEqual a b = true ↔ a = b := by
  cases a; cases b
  simp [positionsEqual, CubePosition.mk.injEq, and_assoc]

/-- One accumulation step preserves distinctness. -/
lemma addNeighbor_nodup {p : CubePosition} {g : Int}
    {acc : List CubePosition} {d : Delta} (h : acc.Nodup) :
    (addNeighbor p g acc d).Nodup := by
  cases hc : neighborCand p g d with
  | none => simpa only [addNeighbor, hc] using h
  | some n =>
    simp only [addNeighbor, hc]
    by_cases hmem : (acc.any fun q => positionsEqual q n) = true
    · simpa only [hmem, if_true] using h
    · rw [if_neg hmem]
      rw [List.any_eq_true] at hmem
      push_neg at hmem
      refine (List.nodup_append).2 ⟨h, List.nodup_singleton n, ?_⟩
      intro a ha hb
      rw [List.mem_singleton] at hb
      subst hb
      exact hmem a ha (positionsEqual_iff.2 rfl)

/-- C4 (deduplication part): `getAllNeighbors` never returns two
structurally equal positions, for any input position and grid size. -/
lemma getAllNeighbors_nodup (p : CubePosition) (g : Int) :
    (getAllNeighbors p g).Nodup := by
  have main : ∀ (ds : List Delta) (acc : List CubePosition), acc.Nodup →
      (ds.foldl (addNeighbor p g) acc).Nodup := by
    intro ds
    induction ds with
    | nil => exact fun _ h => h
    | cons d ds ih => exact fun acc h => ih _ (addNeighbor_nodup h)
  exact main NEIGHBOR_DELTAS [] List.nodup_nil

/-- If the neighbor candidates of the successive deltas are exactly the
distinct positions of `l`, the fold appends them all. -/
lemma foldl_addNeighbor_eq (p : CubePosition) (g : Int) :
    ∀ (ds : List Delta) (acc l : List CubePosition),
      ds.map (neighborCand p g) = l.map some → (acc ++ l).Nodup →
      ds.foldl (addNeighbor p g) acc = acc ++ l := by
  intro ds
  induction ds with
  | nil =>
    intro acc l hmap _
    cases l with
    | nil => simp
    | cons a l => simp at hmap
  | cons d ds ih =>
    intro acc l hmap hnd
    cases l with
    | nil => simp at hmap
    | cons n l =>
      simp only [List.map, List.cons.injEq] at hmap
      obtain ⟨hn, hrest⟩ := hmap
      have hnotmem : n ∉ acc := by
        intro hmem
        have hd2 := (List.nodup_append).1 hnd
        exact hd2.2.2 hmem (List.mem_cons_self n l)
      have hcond : (acc.any fun q => positionsEqual q n) = false := by
        rw [List.any_eq_false]
        intro q hq
        rw [positionsEqual_iff]
        exact fun hqe => hnotmem (hqe ▸ hq)
      have hstep : addNeighbor p g acc d = acc ++ [n] := by
        simp only [addNeighbor, hn]
        rw [if_neg (by simp [hcond])]
      rw [List.foldl_cons, hstep, ih (acc ++ [n]) l hrest (by
        simpa [List.append_assoc] using hnd)]
      simp [List.append_assoc]

/-- Compute `getAllNeighbors` from a list of 8 pairwise-distinct
candidate values. -/
lemma getAllNeighbors_eq {p : CubePosition} {g : Int}
    {l : List CubePosition}
    (hmap : NEIGHBOR_DELTAS.map (neighborCand p g) = l.map some)
    (hnd : l.Nodup) : getAllNeighbors p g = l := by
  have := foldl_addNeighbor_eq p g NEIGHBOR_DELTAS [] l hmap (by simpa using hnd)
  simpa using this

/-- Closed form of `movePosition` on an in-range move. -/
lemma movePosition_inRange {p : CubePosition} {d : Delta} {g : Int}
    (h : 0 ≤ p.x + d.dx ∧ p.x + d.dx < g ∧ 0 ≤ p.y + d.dy ∧ p.y + d.dy < g) :
    movePosition p d g = ⟨p.face, p.x + d.dx, p.y + d.dy⟩ := by
  simp only [movePosition, if_pos h]

/-- Closed form of `getDiagonalNeighbor` on an in-range move. -/
lemma getDiagonalNeighbor_inRange {p : CubePosition} {d : Delta} {g : Int}
    (h : 0 ≤ p.x + d.dx ∧ p.x + d.dx < g ∧ 0 ≤ p.y + d.dy ∧ p.y + d.dy < g) :
    getDiagonalNeighbor p d g = some ⟨p.face, p.x + d.dx, p.y + d.dy⟩ := by
  unfold getDiagonalNeighbor
  rw [if_pos (by omega)]

/-- Interior cells: the 8 neighbors are the 8 surrounding same-face
cells. -/
lemma getAllNeighbors_interior {g x y : Int} {f : CubeFace}
    (hx1 : 0 < x) (hx2 : x < g - 1) (hy1 : 0 < y) (hy2 : y < g - 1) :
    getAllNeighbors ⟨f, x, y⟩ g =
      [⟨f, x, y+1⟩, ⟨f, x, y-1⟩, ⟨f, x-1, y⟩, ⟨f, x+1, y⟩,
       ⟨f, x-1, y+1⟩, ⟨f, x+1, y+1⟩, ⟨f, x-1, y-1⟩, ⟨f, x+1, y-1⟩] := by
  refine getAllNeighbors_eq ?_ ?_
  · simp only [NEIGHBOR_DELTAS, List.map, List.cons.injEq, and_true]
    refine ⟨?_, ?_, ?_, ?_, ?_, ?_, ?_, ?_⟩ <;>
      · simp only [neighborCand]
        first
        | (rw [if_pos (by decide),
            movePosition_inRange (by dsimp only; omega)]
           all_goals (simp <;> omega))
        | (rw [if_neg (by decide),
            getDiagonalNeighbor_inRange (by dsimp only; omega)]
           all_goals (simp <;> omega))
  · simp [List.nodup_cons, List.mem_cons, CubePosition.mk.injEq] <;> omega

/-- Cells on the interior of a face's right edge have exactly 8
distinct neighbors (5 on the same face, 3 across the right edge). -/
lemma getAllNeighbors_right_edge {g y : Int} {f : CubeFace}
    (hv1 : 0 < y) (hv2 : y < g - 1) (hg : 3 ≤ g) :
    (getAllNeighbors ⟨f, g - 1, y⟩ g).length = 8 := by
  obtain ⟨t, ht, htf⟩ := getEdgeTransition_total f .right
  obtain ⟨ff, tf, fe, te, fx, fy, ro⟩ := t
  dsimp only at htf
  have htf2 : ¬ f = tf := fun hh => htf hh.symm
  have he : getEdgeForDirection ⟨f, g - 1, y⟩ (⟨1, 0⟩ : Delta) g = some .right := by
    simp only [getEdgeForDirection]
    rw [if_neg (by (try dsimp only); omega), if_neg (by (try dsimp only); omega), if_neg (by (try dsimp only); omega), if_pos (by (try dsimp only); omega)]
  by_cases hflip : (fx || fy) = true
  · cases te
    · -- toEdge = top, flip = True
      have hmove : movePosition ⟨f, g - 1, y⟩ (⟨1, 0⟩ : Delta) g = ⟨tf, g - 1 - y, g - 1⟩ := by
        rw [movePosition_cross he ht]
        simp [placeOnEdge, edgeParallelCoord, hflip]
      have hsd5 : transformSecondaryDelta f .right ⟨0, 1⟩ = some ⟨-1, 0⟩ := by
        simp [transformSecondaryDelta, ht, hflip]
      have hdiag5 : getDiagonalNeighbor ⟨f, g - 1, y⟩ (⟨1, 1⟩ : Delta) g = some ⟨tf, g - 1 - y - 1, g - 1⟩ := by
        simp only [getDiagonalNeighbor]
        dsimp only
        rw [if_neg (by omega), if_pos (by omega), if_neg (by omega), hsd5]
        rw [hmove]
        dsimp only
        rw [if_pos (by omega)]
        all_goals (simp; try omega)
      have hsd7 : transformSecondaryDelta f .right ⟨0, -1⟩ = some ⟨1, 0⟩ := by
        simp [transformSecondaryDelta, ht, hflip]
      have hdiag7 : getDiagonalNeighbor ⟨f, g - 1, y⟩ (⟨1, -1⟩ : Delta) g = some ⟨tf, g - 1 - y + 1, g - 1⟩ := by
        simp only [getDiagonalNeighbor]
        dsimp only
        rw [if_neg (by omega), if_pos (by omega), if_neg (by omega), hsd7]
        rw [hmove]
        dsimp only
        rw [if_pos (by omega)]
        all_goals (simp; try omega)
      have hl : getAllNeighbors ⟨f, g - 1, y⟩ g =
          [⟨f, g - 1, y + 1⟩, ⟨f, g - 1, y - 1⟩, ⟨f, g - 2, y⟩, ⟨tf, g - 1 - y, g - 1⟩,
           ⟨f, g - 2, y + 1⟩, ⟨tf, g - 1 - y - 1, g - 1⟩, ⟨f, g - 2, y - 1⟩, ⟨tf, g - 1 - y + 1, g - 1⟩] := by
        refine getAllNeighbors_eq ?_ ?_
        · simp only [NEIGHBOR_DELTAS, List.map, List.cons.injEq, and_true]
          refine ⟨?_, ?_, ?_, ?_, ?_, ?_, ?_, ?_⟩
          · simp only [neighborCand]
            rw [if_pos (by decide), movePosition_inRange (by (try dsimp only); omega)]
            all_goals (simp; try omega)
          · simp only [neighborCand]
            rw [if_pos (by decide), movePosition_inRange (by (try dsimp only); omega)]
            all_goals (simp; try omega)
          · simp only [neighborCand]
            rw [if_pos (by decide), movePosition_inRange (by (try dsimp only); omega)]
            all_goals (simp; try omega)
          · simp only [neighborCand]
            rw [if_pos (by decide), hmove]
          · simp only [neighborCand]
            rw [if_neg (by decide), getDiagonalNeighbor_inRange (by (try dsimp only); omega)]
            all_goals (simp; try omega)
          · simp only [neighborCand]
            rw [if_neg (by decide), hdiag5]
          · simp only [neighborCand]
            rw [if_neg (by decide), getDiagonalNeighbor_inRange (by (try dsimp only); omega)]
            all_goals (simp; try omega)
          · simp only [neighborCand]
            rw [if_neg (by decide), hdiag7]
        · simp [List.nodup_cons, List.mem_cons, CubePosition.mk.injEq, htf2, htf]
          try omega
      rw [hl]
      rfl
    · -- toEdge = bottom, flip = True
      have hmove : movePosition ⟨f, g - 1, y⟩ (⟨1, 0⟩ : Delta) g = ⟨tf, g - 1 - y, 0⟩ := by
        rw [movePosition_cross he ht]
        simp [placeOnEdge, edgeParallelCoord, hflip]
      have hsd5 : transformSecondaryDelta f .right ⟨0, 1⟩ = some ⟨-1, 0⟩ := by
        simp [transformSecondaryDelta, ht, hflip]
      have hdiag5 : getDiagonalNeighbor ⟨f, g - 1, y⟩ (⟨1, 1⟩ : Delta) g = some ⟨tf, g - 1 - y - 1, 0⟩ := by
        simp only [getDiagonalNeighbor]
        dsimp only
        rw [if_neg (by omega), if_pos (by omega), if_neg (by omega), hsd5]
        rw [hmove]
        dsimp only
        rw [if_pos (by omega)]
        all_goals (simp; try omega)
      have hsd7 : transformSecondaryDelta f .right ⟨0, -1⟩ = some ⟨1, 0⟩ := by
        simp [transformSecondaryDelta, ht, hflip]
      have hdiag7 : getDiagonalNeighbor ⟨f, g - 1, y⟩ (⟨1, -1⟩ : Delta) g = some ⟨tf, g - 1 - y + 1, 0⟩ := by
        simp only [getDiagonalNeighbor]
        dsimp only
        rw [if_neg (by omega), if_pos (by omega), if_neg (by omega), hsd7]
        rw [hmove]
        dsimp only
        rw [if_pos (by omega)]
        all_goals (simp; try omega)
      have hl : getAllNeighbors ⟨f, g - 1, y⟩ g =
          [⟨f, g - 1, y + 1⟩, ⟨f, g - 1, y - 1⟩, ⟨f, g - 2, y⟩, ⟨tf, g - 1 - y, 0⟩,
           ⟨f, g - 2, y + 1⟩, ⟨tf, g - 1 - y - 1, 0⟩, ⟨f, g - 2, y - 1⟩, ⟨tf, g - 1 - y + 1, 0⟩] := by
        refine getAllNeighbors_eq ?_ ?_
        · simp only [NEIGHBOR_DELTAS, List.map, List.cons.injEq, and_true]
          refine ⟨?_, ?_, ?_, ?_, ?_, ?_, ?_, ?_⟩
          · simp only [neighborCand]
            rw [if_pos (by decide), movePosition_inRange (by (try dsimp only); omega)]
            all_goals (simp; try omega)
          · simp only [neighborCand]
            rw [if_pos (by decide), movePosition_inRange (by (try dsimp only); omega)]
            all_goals (simp; try omega)
          · simp only [neighborCand]
            rw [if_pos (by decide), movePosition_inRange (by (try dsimp only); omega)]
            all_goals (simp; try omega)
          · simp only [neighborCand]
            rw [if_pos (by decide), hmove]
          · simp only [neighborCand]
            rw [if_neg (by decide), getDiagonalNeighbor_inRange (by (try dsimp only); omega)]
            all_goals (simp; try omega)
          · simp only [neighborCand]
            rw [if_neg (by decide), hdiag5]
          · simp only [neighborCand]
            rw [if_neg (by decide), getDiagonalNeighbor_inRange (by (try dsimp only); omega)]
            all_goals (simp; try omega)
          · simp only [neighborCand]
            rw [if_neg (by decide), hdiag7]
        · simp [List.nodup_cons, List.mem_cons, CubePosition.mk.injEq, htf2, htf]
          try omega
      rw [hl]
      rfl
    · -- toEdge = left, flip = True
      have hmove : movePosition ⟨f, g - 1, y⟩ (⟨1, 0⟩ : Delta) g = ⟨tf, 0, g - 1 - y⟩ := by
        rw [movePosition_cross he ht]
        simp [placeOnEdge, edgeParallelCoord, hflip]
      have hsd5 : transformSecondaryDelta f .right ⟨0, 1⟩ = some ⟨0, -1⟩ := by
        simp [transformSecondaryDelta, ht, hflip]
      have hdiag5 : getDiagonalNeighbor ⟨f, g - 1, y⟩ (⟨1, 1⟩ : Delta) g = some ⟨tf, 0, g - 1 - y - 1⟩ := by
        simp only [getDiagonalNeighbor]
        dsimp only
        rw [if_neg (by omega), if_pos (by omega), if_neg (by omega), hsd5]
        rw [hmove]
        dsimp only
        rw [if_pos (by omega)]
        all_goals (simp; try omega)
      have hsd7 : transformSecondaryDelta f .right ⟨0, -1⟩ = some ⟨0, 1⟩ := by
        simp [transformSecondaryDelta, ht, hflip]
      have hdiag7 : getDiagonalNeighbor ⟨f, g - 1, y⟩ (⟨1, -1⟩ : Delta) g = some ⟨tf, 0, g - 1 - y + 1⟩ := by
        simp only [getDiagonalNeighbor]
        dsimp only
        rw [if_neg (by omega), if_pos (by omega), if_neg (by omega), hsd7]
        rw [hmove]
        dsimp only
        rw [if_pos (by omega)]
        all_goals (simp; try omega)
      have hl : getAllNeighbors ⟨f, g - 1, y⟩ g =
          [⟨f, g - 1, y + 1⟩, ⟨f, g - 1, y - 1⟩, ⟨f, g - 2, y⟩, ⟨tf, 0, g - 1 - y⟩,
           ⟨f, g - 2, y + 1⟩, ⟨tf, 0, g - 1 - y - 1⟩, ⟨f, g - 2, y - 1⟩, ⟨tf, 0, g - 1 - y + 1⟩] := by
        refine getAllNeighbors_eq ?_ ?_
        · simp only [NEIGHBOR_DELTAS, List.map, List.cons.injEq, and_true]
          refine ⟨?_, ?_, ?_, ?_, ?_, ?_, ?_, ?_⟩
          · simp only [neighborCand]
            rw [if_pos (by decide), movePosition_inRange (by (try dsimp only); omega)]
            all_goals (simp; try omega)
          · simp only [neighborCand]
            rw [if_pos (by decide), movePosition_inRange (by (try dsimp only); omega)]
            all_goals (simp; try omega)
          · simp only [neighborCand]
            rw [if_pos (by decide), movePosition_inRange (by (try dsimp only); omega)]
            all_goals (simp; try omega)
          · simp only [neighborCand]
            rw [if_pos (by decide), hmove]
          · simp only [neighborCand]
            rw [if_neg (by decide), getDiagonalNeighbor_inRange (by (try dsimp only); omega)]
            all_goals (simp; try omega)
          · simp only [neighborCand]
            rw [if_neg (by decide), hdiag5]
          · simp only [neighborCand]
            rw [if_neg (by decide), getDiagonalNeighbor_inRange (by (try dsimp only); omega)]
            all_goals (simp; try omega)
          · simp only [neighborCand]
            rw [if_neg (by decide), hdiag7]
        · simp [List.nodup_cons, List.mem_cons, CubePosition.mk.injEq, htf2, htf]
          try omega
      rw [hl]
      rfl
    · -- toEdge = right, flip = True
      have hmove : movePosition ⟨f, g - 1, y⟩ (⟨1, 0⟩ : Delta) g = ⟨tf, g - 1, g - 1 - y⟩ := by
        rw [movePosition_cross he ht]
        simp [placeOnEdge, edgeParallelCoord, hflip]
      have hsd5 : transformSecondaryDelta f .right ⟨0, 1⟩ = some ⟨0, -1⟩ := by
        simp [transformSecondaryDelta, ht, hflip]
      have hdiag5 : getDiagonalNeighbor ⟨f, g - 1, y⟩ (⟨1, 1⟩ : Delta) g = some ⟨tf, g - 1, g - 1 - y - 1⟩ := by
        simp only [getDiagonalNeighbor]
        dsimp only
        rw [if_neg (by omega), if_pos (by omega), if_neg (by omega), hsd5]
        rw [hmove]
        dsimp only
        rw [if_pos (by omega)]
        all_goals (simp; try omega)
      have hsd7 : transformSecondaryDelta f .right ⟨0, -1⟩ = some ⟨0, 1⟩ := by
        simp [transformSecondaryDelta, ht, hflip]
      have hdiag7 : getDiagonalNeighbor ⟨f, g - 1, y⟩ (⟨1, -1⟩ : Delta) g = some ⟨tf, g - 1, g - 1 - y + 1⟩ := by
        simp only [getDiagonalNeighbor]
        dsimp only
        rw [if_neg (by omega), if_pos (by omega), if_neg (by omega), hsd7]
        rw [hmove]
        dsimp only
        rw [if_pos (by omega)]
        all_goals (simp; try omega)
      have hl : getAllNeighbors ⟨f, g - 1, y⟩ g =
          [⟨f, g - 1, y + 1⟩, ⟨f, g - 1, y - 1⟩, ⟨f, g - 2, y⟩, ⟨tf, g - 1, g - 1 - y⟩,
           ⟨f, g - 2, y + 1⟩, ⟨tf, g - 1, g - 1 - y - 1⟩, ⟨f, g - 2, y - 1⟩, ⟨tf, g - 1, g - 1 - y + 1⟩] := by
        refine getAllNeighbors_eq ?_ ?_
        · simp only [NEIGHBOR_DELTAS, List.map, List.cons.injEq, and_true]
          refine ⟨?_, ?_, ?_, ?_, ?_, ?_, ?_, ?_⟩
          · simp only [neighborCand]
            rw [if_pos (by decide), movePosition_inRange (by (try dsimp only); omega)]
            all_goals (simp; try omega)
          · simp only [neighborCand]
            rw [if_pos (by decide), movePosition_inRange (by (try dsimp only); omega)]
            all_goals (simp; try omega)
          · simp only [neighborCand]
            rw [if_pos (by decide), movePosition_inRange (by (try dsimp only); omega)]
            all_goals (simp; try omega)
          · simp only [neighborCand]
            rw [if_pos (by decide), hmove]
          · simp only [neighborCand]
            rw [if_neg (by decide), getDiagonalNeighbor_inRange (by (try dsimp only); omega)]
            all_goals (simp; try omega)
          · simp only [neighborCand]
            rw [if_neg (by decide), hdiag5]
          · simp only [neighborCand]
            rw [if_neg (by decide), getDiagonalNeighbor_inRange (by (try dsimp only); omega)]
            all_goals (simp; try omega)
          · simp only [neighborCand]
            rw [if_neg (by decide), hdiag7]
        · simp [List.nodup_cons, List.mem_cons, CubePosition.mk.injEq, htf2, htf]
          try omega
      rw [hl]
      rfl
  · cases te
    · -- toEdge = top, flip = False
      have hmove : movePosition ⟨f, g - 1, y⟩ (⟨1, 0⟩ : Delta) g = ⟨tf, y, g - 1⟩ := by
        rw [movePosition_cross he ht]
        simp [placeOnEdge, edgeParallelCoord, hflip]
      have hsd5 : transformSecondaryDelta f .right ⟨0, 1⟩ = some ⟨1, 0⟩ := by
        simp [transformSecondaryDelta, ht, hflip]
      have hdiag5 : getDiagonalNeighbor ⟨f, g - 1, y⟩ (⟨1, 1⟩ : Delta) g = some ⟨tf, y + 1, g - 1⟩ := by
        simp only [getDiagonalNeighbor]
        dsimp only
        rw [if_neg (by omega), if_pos (by omega), if_neg (by omega), hsd5]
        rw [hmove]
        dsimp only
        rw [if_pos (by omega)]
        all_goals (simp; try omega)
      have hsd7 : transformSecondaryDelta f .right ⟨0, -1⟩ = some ⟨-1, 0⟩ := by
        simp [transformSecondaryDelta, ht, hflip]
      have hdiag7 : getDiagonalNeighbor ⟨f, g - 1, y⟩ (⟨1, -1⟩ : Delta) g = some ⟨tf, y - 1, g - 1⟩ := by
        simp only [getDiagonalNeighbor]
        dsimp only
        rw [if_neg (by omega), if_pos (by omega), if_neg (by omega), hsd7]
        rw [hmove]
        dsimp only
        rw [if_pos (by omega)]
        all_goals (simp; try omega)
      have hl : getAllNeighbors ⟨f, g - 1, y⟩ g =
          [⟨f, g - 1, y + 1⟩, ⟨f, g - 1, y - 1⟩, ⟨f, g - 2, y⟩, ⟨tf, y, g - 1⟩,
           ⟨f, g - 2, y + 1⟩, ⟨tf, y + 1, g - 1⟩, ⟨f, g - 2, y - 1⟩, ⟨tf, y - 1, g - 1⟩] := by
        refine getAllNeighbors_eq ?_ ?_
        · simp only [NEIGHBOR_DELTAS, List.map, List.cons.injEq, and_true]
          refine ⟨?_, ?_, ?_, ?_, ?_, ?_, ?_, ?_⟩
          · simp only [neighborCand]
            rw [if_pos (by decide), movePosition_inRange (by (try dsimp only); omega)]
            all_goals (simp; try omega)
          · simp only [neighborCand]
            rw [if_pos (by decide), movePosition_inRange (by (try dsimp only); omega)]
            all_goals (simp; try omega)
          · simp only [neighborCand]
            rw [if_pos (by decide), movePosition_inRange (by (try dsimp only); omega)]
            all_goals (simp; try omega)
          · simp only [neighborCand]
            rw [if_pos (by decide), hmove]
          · simp only [neighborCand]
            rw [if_neg (by decide), getDiagonalNeighbor_inRange (by (try dsimp only); omega)]
            all_goals (simp; try omega)
          · simp only [neighborCand]
            rw [if_neg (by decide), hdiag5]
          · simp only [neighborCand]
            rw [if_neg (by decide), getDiagonalNeighbor_inRange (by (try dsimp only); omega)]
            all_goals (simp; try omega)
          · simp only [neighborCand]
            rw [if_neg (by decide), hdiag7]
        · simp [List.nodup_cons, List.mem_cons, CubePosition.mk.injEq, htf2, htf]
          try omega
      rw [hl]
      rfl
    · -- toEdge = bottom, flip = False
      have hmove : movePosition ⟨f, g - 1, y⟩ (⟨1, 0⟩ : Delta) g = ⟨tf, y, 0⟩ := by
        rw [movePosition_cross he ht]
        simp [placeOnEdge, edgeParallelCoord, hflip]
      have hsd5 : transformSecondaryDelta f .right ⟨0, 1⟩ = some ⟨1, 0⟩ := by
        simp [transformSecondaryDelta, ht, hflip]
      have hdiag5 : getDiagonalNeighbor ⟨f, g - 1, y⟩ (⟨1, 1⟩ : Delta) g = some ⟨tf, y + 1, 0⟩ := by
        simp only [getDiagonalNeighbor]
        dsimp only
        rw [if_neg (by omega), if_pos (by omega), if_neg (by omega), hsd5]
        rw [hmove]
        dsimp only
        rw [if_pos (by omega)]
        all_goals (simp; try omega)
      have hsd7 : transformSecondaryDelta f .right ⟨0, -1⟩ = some ⟨-1, 0⟩ := by
        simp [transformSecondaryDelta, ht, hflip]
      have hdiag7 : getDiagonalNeighbor ⟨f, g - 1, y⟩ (⟨1, -1⟩ : Delta) g = some ⟨tf, y - 1, 0⟩ := by
        simp only [getDiagonalNeighbor]
        dsimp only
        rw [if_neg (by omega), if_pos (by omega), if_neg (by omega), hsd7]
        rw [hmove]
        dsimp only
        rw [if_pos (by omega)]
        all_goals (simp; try omega)
      have hl : getAllNeighbors ⟨f, g - 1, y⟩ g =
          [⟨f, g - 1, y + 1⟩, ⟨f, g - 1, y - 1⟩, ⟨f, g - 2, y⟩, ⟨tf, y, 0⟩,
           ⟨f, g - 2, y + 1⟩, ⟨tf, y + 1, 0⟩, ⟨f, g - 2, y - 1⟩, ⟨tf, y - 1, 0⟩] := by
        refine getAllNeighbors_eq ?_ ?_
        · simp only [NEIGHBOR_DELTAS, List.map, List.cons.injEq, and_true]
          refine ⟨?_, ?_, ?_, ?_, ?_, ?_, ?_, ?_⟩
          · simp only [neighborCand]
            rw [if_pos (by decide), movePosition_inRange (by (try dsimp only); omega)]
            all_goals (simp; try omega)
          · simp only [neighborCand]
            rw [if_pos (by decide), movePosition_inRange (by (try dsimp only); omega)]
            all_goals (simp; try omega)
          · simp only [neighborCand]
            rw [if_pos (by decide), movePosition_inRange (by (try dsimp only); omega)]
            all_goals (simp; try omega)
          · simp only [neighborCand]
            rw [if_pos (by decide), hmove]
          · simp only [neighborCand]
            rw [if_neg (by decide), getDiagonalNeighbor_inRange (by (try dsimp only); omega)]
            all_goals (simp; try omega)
          · simp only [neighborCand]
            rw [if_neg (by decide), hdiag5]
          · simp only [neighborCand]
            rw [if_neg (by decide), getDiagonalNeighbor_inRange (by (try dsimp only); omega)]
            all_goals (simp; try omega)
          · simp only [neighborCand]
            rw [if_neg (by decide), hdiag7]
        · simp [List.nodup_cons, List.mem_cons, CubePosition.mk.injEq, htf2, htf]
          try omega
      rw [hl]
      rfl
    · -- toEdge = left, flip = False
      have hmove : movePosition ⟨f, g - 1, y⟩ (⟨1, 0⟩ : Delta) g = ⟨tf, 0, y⟩ := by
        rw [movePosition_cross he ht]
        simp [placeOnEdge, edgeParallelCoord, hflip]
      have hsd5 : transformSecondaryDelta f .right ⟨0, 1⟩ = some ⟨0, 1⟩ := by
        simp [transformSecondaryDelta, ht, hflip]
      have hdiag5 : getDiagonalNeighbor ⟨f, g - 1, y⟩ (⟨1, 1⟩ : Delta) g = some ⟨tf, 0, y + 1⟩ := by
        simp only [getDiagonalNeighbor]
        dsimp only
        rw [if_neg (by omega), if_pos (by omega), if_neg (by omega), hsd5]
        rw [hmove]
        dsimp only
        rw [if_pos (by omega)]
        all_goals (simp; try omega)
      have hsd7 : transformSecondaryDelta f .right ⟨0, -1⟩ = some ⟨0, -1⟩ := by
        simp [transformSecondaryDelta, ht, hflip]
      have hdiag7 : getDiagonalNeighbor ⟨f, g - 1, y⟩ (⟨1, -1⟩ : Delta) g = some ⟨tf, 0, y - 1⟩ := by
        simp only [getDiagonalNeighbor]
        dsimp only
        rw [if_neg (by omega), if_pos (by omega), if_neg (by omega), hsd7]
        rw [hmove]
        dsimp only
        rw [if_pos (by omega)]
        all_goals (simp; try omega)
      have hl : getAllNeighbors ⟨f, g - 1, y⟩ g =
          [⟨f, g - 1, y + 1⟩, ⟨f, g - 1, y - 1⟩, ⟨f, g - 2, y⟩, ⟨tf, 0, y⟩,
           ⟨f, g - 2, y + 1⟩, ⟨tf, 0, y + 1⟩, ⟨f, g - 2, y - 1⟩, ⟨tf, 0, y - 1⟩] := by
        refine getAllNeighbors_eq ?_ ?_
        · simp only [NEIGHBOR_DELTAS, List.map, List.cons.injEq, and_true]
          refine ⟨?_, ?_, ?_, ?_, ?_, ?_, ?_, ?_⟩
          · simp only [neighborCand]
            rw [if_pos (by decide), movePosition_inRange (by (try dsimp only); omega)]
            all_goals (simp; try omega)
          · simp only [neighborCand]
            rw [if_pos (by decide), movePosition_inRange (by (try dsimp only); omega)]
            all_goals (simp; try omega)
          · simp only [neighborCand]
            rw [if_pos (by decide), movePosition_inRange (by (try dsimp only); omega)]
            all_goals (simp; try omega)
          · simp only [neighborCand]
            rw [if_pos (by decide), hmove]
          · simp only [neighborCand]
            rw [if_neg (by decide), getDiagonalNeighbor_inRange (by (try dsimp only); omega)]
            all_goals (simp; try omega)
          · simp only [neighborCand]
            rw [if_neg (by decide), hdiag5]
          · simp only [neighborCand]
            rw [if_neg (by decide), getDiagonalNeighbor_inRange (by (try dsimp only); omega)]
            all_goals (simp; try omega)
          · simp only [neighborCand]
            rw [if_neg (by decide), hdiag7]
        · simp [List.nodup_cons, List.mem_cons, CubePosition.mk.injEq, htf2, htf]
          try omega
      rw [hl]
      rfl
    · -- toEdge = right, flip = False
      have hmove : movePosition ⟨f, g - 1, y⟩ (⟨1, 0⟩ : Delta) g = ⟨tf, g - 1, y⟩ := by
        rw [movePosition_cross he ht]
        simp [placeOnEdge, edgeParallelCoord, hflip]
      have hsd5 : transformSecondaryDelta f .right ⟨0, 1⟩ = some ⟨0, 1⟩ := by
        simp [transformSecondaryDelta, ht, hflip]
      have hdiag5 : getDiagonalNeighbor ⟨f, g - 1, y⟩ (⟨1, 1⟩ : Delta) g = some ⟨tf, g - 1, y + 1⟩ := by
        simp only [getDiagonalNeighbor]
        dsimp only
        rw [if_neg (by omega), if_pos (by omega), if_neg (by omega), hsd5]
        rw [hmove]
        dsimp only
        rw [if_pos (by omega)]
        all_goals (simp; try omega)
      have hsd7 : transformSecondaryDelta f .right ⟨0, -1⟩ = some ⟨0, -1⟩ := by
        simp [transformSecondaryDelta, ht, hflip]
      have hdiag7 : getDiagonalNeighbor ⟨f, g - 1, y⟩ (⟨1, -1⟩ : Delta) g = some ⟨tf, g - 1, y - 1⟩ := by
        simp only [getDiagonalNeighbor]
        dsimp only
        rw [if_neg (by omega), if_pos (by omega), if_neg (by omega), hsd7]
        rw [hmove]
        dsimp only
        rw [if_pos (by omega)]
        all_goals (simp; try omega)
      have hl : getAllNeighbors ⟨f, g - 1, y⟩ g =
          [⟨f, g - 1, y + 1⟩, ⟨f, g - 1, y - 1⟩, ⟨f, g - 2, y⟩, ⟨tf, g - 1, y⟩,
           ⟨f, g - 2, y + 1⟩, ⟨tf, g - 1, y + 1⟩, ⟨f, g - 2, y - 1⟩, ⟨tf, g - 1, y - 1⟩] := by
        refine getAllNeighbors_eq ?_ ?_
        · simp only [NEIGHBOR_DELTAS, List.map, List.cons.injEq, and_true]
          refine ⟨?_, ?_, ?_, ?_, ?_, ?_, ?_, ?_⟩
          · simp only [neighborCand]
            rw [if_pos (by decide), movePosition_inRange (by (try dsimp only); omega)]
            all_goals (simp; try omega)
          · simp only [neighborCand]
            rw [if_pos (by decide), movePosition_inRange (by (try dsimp only); omega)]
            all_goals (simp; try omega)
          · simp only [neighborCand]
            rw [if_pos (by decide), movePosition_inRange (by (try dsimp only); omega)]
            all_goals (simp; try omega)
          · simp only [neighborCand]
            rw [if_pos (by decide), hmove]
          · simp only [neighborCand]
            rw [if_neg (by decide), getDiagonalNeighbor_inRange (by (try dsimp only); omega)]
            all_goals (simp; try omega)
          · simp only [neighborCand]
            rw [if_neg (by decide), hdiag5]
          · simp only [neighborCand]
            rw [if_neg (by decide), getDiagonalNeighbor_inRange (by (try dsimp only); omega)]
            all_goals (simp; try omega)
          · simp only [neighborCand]
            rw [if_neg (by decide), hdiag7]
        · simp [List.nodup_cons, List.mem_cons, CubePosition.mk.injEq, htf2, htf]
          try omega
      rw [hl]
      rfl

/-- Cells on the interior of a face's left edge have exactly 8
distinct neighbors (5 on the same face, 3 across the left edge). -/
lemma getAllNeighbors_left_edge {g y : Int} {f : CubeFace}
    (hv1 : 0 < y) (hv2 : y < g - 1) (hg : 3 ≤ g) :
    (getAllNeighbors ⟨f, 0, y⟩ g).length = 8 := by
  obtain ⟨t, ht, htf⟩ := getEdgeTransition_total f .left
  obtain ⟨ff, tf, fe, te, fx, fy, ro⟩ := t
  dsimp only at htf
  have htf2 : ¬ f = tf := fun hh => htf hh.symm
  have he : getEdgeForDirection ⟨f, 0, y⟩ (⟨-1, 0⟩ : Delta) g = some .left := by
    simp only [getEdgeForDirection]
    rw [if_neg (by (try dsimp only); omega), if_neg (by (try dsimp only); omega), if_pos (by (try dsimp only); omega)]
  by_cases hflip : (fx || fy) = true
  · cases te
    · -- toEdge = top, flip = True
      have hmove : movePosition ⟨f, 0, y⟩ (⟨-1, 0⟩ : Delta) g = ⟨tf, g - 1 - y, g - 1⟩ := by
        rw [movePosition_cross he ht]
        simp [placeOnEdge, edgeParallelCoord, hflip]
      have hsd4 : transformSecondaryDelta f .left ⟨0, 1⟩ = some ⟨-1, 0⟩ := by
        simp [transformSecondaryDelta, ht, hflip]
      have hdiag4 : getDiagonalNeighbor ⟨f, 0, y⟩ (⟨-1, 1⟩ : Delta) g = some ⟨tf, g - 1 - y - 1, g - 1⟩ := by
        simp only [getDiagonalNeighbor]
        dsimp only
        rw [if_neg (by omega), if_pos (by omega), if_pos (by omega), hsd4]
        rw [hmove]
        dsimp only
        rw [if_pos (by omega)]
        all_goals (simp; try omega)
      have hsd6 : transformSecondaryDelta f .left ⟨0, -1⟩ = some ⟨1, 0⟩ := by
        simp [transformSecondaryDelta, ht, hflip]
      have hdiag6 : getDiagonalNeighbor ⟨f, 0, y⟩ (⟨-1, -1⟩ : Delta) g = some ⟨tf, g - 1 - y + 1, g - 1⟩ := by
        simp only [getDiagonalNeighbor]
        dsimp only
        rw [if_neg (by omega), if_pos (by omega), if_pos (by omega), hsd6]
        rw [hmove]
        dsimp only
        rw [if_pos (by omega)]
        all_goals (simp; try omega)
      have hl : getAllNeighbors ⟨f, 0, y⟩ g =
          [⟨f, 0, y + 1⟩, ⟨f, 0, y - 1⟩, ⟨tf, g - 1 - y, g - 1⟩, ⟨f, 1, y⟩,
           ⟨tf, g - 1 - y - 1, g - 1⟩, ⟨f, 1, y + 1⟩, ⟨tf, g - 1 - y + 1, g - 1⟩, ⟨f, 1, y - 1⟩] := by
        refine getAllNeighbors_eq ?_ ?_
        · simp only [NEIGHBOR_DELTAS, List.map, List.cons.injEq, and_true]
          refine ⟨?_, ?_, ?_, ?_, ?_, ?_, ?_, ?_⟩
          · simp only [neighborCand]
            rw [if_pos (by decide), movePosition_inRange (by (try dsimp only); omega)]
            all_goals (simp; try omega)
          · simp only [neighborCand]
            rw [if_pos (by decide), movePosition_inRange (by (try dsimp only); omega)]
            all_goals (simp; try omega)
          · simp only [neighborCand]
            rw [if_pos (by decide), hmove]
          · simp only [neighborCand]
            rw [if_pos (by decide), movePosition_inRange (by (try dsimp only); omega)]
            all_goals (simp; try omega)
          · simp only [neighborCand]
            rw [if_neg (by decide), hdiag4]
          · simp only [neighborCand]
            rw [if_neg (by decide), getDiagonalNeighbor_inRange (by (try dsimp only); omega)]
            all_goals (simp; try omega)
          · simp only [neighborCand]
            rw [if_neg (by decide), hdiag6]
          · simp only [neighborCand]
            rw [if_neg (by decide), getDiagonalNeighbor_inRange (by (try dsimp only); omega)]
            all_goals (simp; try omega)
        · simp [List.nodup_cons, List.mem_cons, CubePosition.mk.injEq, htf2, htf]
          try omega
      rw [hl]
      rfl
    · -- toEdge = bottom, flip = True
      have hmove : movePosition ⟨f, 0, y⟩ (⟨-1, 0⟩ : Delta) g = ⟨tf, g - 1 - y, 0⟩ := by
        rw [movePosition_cross he ht]
        simp [placeOnEdge, edgeParallelCoord, hflip]
      have hsd4 : transformSecondaryDelta f .left ⟨0, 1⟩ = some ⟨-1, 0⟩ := by
        simp [transformSecondaryDelta, ht, hflip]
      have hdiag4 : getDiagonalNeighbor ⟨f, 0, y⟩ (⟨-1, 1⟩ : Delta) g = some ⟨tf, g - 1 - y - 1, 0⟩ := by
        simp only [getDiagonalNeighbor]
        dsimp only
        rw [if_neg (by omega), if_pos (by omega), if_pos (by omega), hsd4]
        rw [hmove]
        dsimp only
        rw [if_pos (by omega)]
        all_goals (simp; try omega)
      have hsd6 : transformSecondaryDelta f .left ⟨0, -1⟩ = some ⟨1, 0⟩ := by
        simp [transformSecondaryDelta, ht, hflip]
      have hdiag6 : getDiagonalNeighbor ⟨f, 0, y⟩ (⟨-1, -1⟩ : Delta) g = some ⟨tf, g - 1 - y + 1, 0⟩ := by
        simp only [getDiagonalNeighbor]
        dsimp only
        rw [if_neg (by omega), if_pos (by omega), if_pos (by omega), hsd6]
        rw [hmove]
        dsimp only
        rw [if_pos (by omega)]
        all_goals (simp; try omega)
      have hl : getAllNeighbors ⟨f, 0, y⟩ g =
          [⟨f, 0, y + 1⟩, ⟨f, 0, y - 1⟩, ⟨tf, g - 1 - y, 0⟩, ⟨f, 1, y⟩,
           ⟨tf, g - 1 - y - 1, 0⟩, ⟨f, 1, y + 1⟩, ⟨tf, g - 1 - y + 1, 0⟩, ⟨f, 1, y - 1⟩] := by
        refine getAllNeighbors_eq ?_ ?_
        · simp only [NEIGHBOR_DELTAS, List.map, List.cons.injEq, and_true]
          refine ⟨?_, ?_, ?_, ?_, ?_, ?_, ?_, ?_⟩
          · simp only [neighborCand]
            rw [if_pos (by decide), movePosition_inRange (by (try dsimp only); omega)]
            all_goals (simp; try omega)
          · simp only [neighborCand]
            rw [if_pos (by decide), movePosition_inRange (by (try dsimp only); omega)]
            all_goals (simp; try omega)
          · simp only [neighborCand]
            rw [if_pos (by decide), hmove]
          · simp only [neighborCand]
            rw [if_pos (by decide), movePosition_inRange (by (try dsimp only); omega)]
            all_goals (simp; try omega)
          · simp only [neighborCand]
            rw [if_neg (by decide), hdiag4]
          · simp only [neighborCand]
            rw [if_neg (by decide), getDiagonalNeighbor_inRange (by (try dsimp only); omega)]
            all_goals (simp; try omega)
          · simp only [neighborCand]
            rw [if_neg (by decide), hdiag6]
          · simp only [neighborCand]
            rw [if_neg (by decide), getDiagonalNeighbor_inRange (by (try dsimp only); omega)]
            all_goals (simp; try omega)
        · simp [List.nodup_cons, List.mem_cons, CubePosition.mk.injEq, htf2, htf]
          try omega
      rw [hl]
      rfl
    · -- toEdge = left, flip = True
      have hmove : movePosition ⟨f, 0, y⟩ (⟨-1, 0⟩ : Delta) g = ⟨tf, 0, g - 1 - y⟩ := by
        rw [movePosition_cross he ht]
        simp [placeOnEdge, edgeParallelCoord, hflip]
      have hsd4 : transformSecondaryDelta f .left ⟨0, 1⟩ = some ⟨0, -1⟩ := by
        simp [transformSecondaryDelta, ht, hflip]
      have hdiag4 : getDiagonalNeighbor ⟨f, 0, y⟩ (⟨-1, 1⟩ : Delta) g = some ⟨tf, 0, g - 1 - y - 1⟩ := by
        simp only [getDiagonalNeighbor]
        dsimp only
        rw [if_neg (by omega), if_pos (by omega), if_pos (by omega), hsd4]
        rw [hmove]
        dsimp only
        rw [if_pos (by omega)]
        all_goals (simp; try omega)
      have hsd6 : transformSecondaryDelta f .left ⟨0, -1⟩ = some ⟨0, 1⟩ := by
        simp [transformSecondaryDelta, ht, hflip]
      have hdiag6 : getDiagonalNeighbor ⟨f, 0, y⟩ (⟨-1, -1⟩ : Delta) g = some ⟨tf, 0, g - 1 - y + 1⟩ := by
        simp only [getDiagonalNeighbor]
        dsimp only
        rw [if_neg (by omega), if_pos (by omega), if_pos (by omega), hsd6]
        rw [hmove]
        dsimp only
        rw [if_pos (by omega)]
        all_goals (simp; try omega)
      have hl : getAllNeighbors ⟨f, 0, y⟩ g =
          [⟨f, 0, y + 1⟩, ⟨f, 0, y - 1⟩, ⟨tf, 0, g - 1 - y⟩, ⟨f, 1, y⟩,
           ⟨tf, 0, g - 1 - y - 1⟩, ⟨f, 1, y + 1⟩, ⟨tf, 0, g - 1 - y + 1⟩, ⟨f, 1, y - 1⟩] := by
        refine getAllNeighbors_eq ?_ ?_
        · simp only [NEIGHBOR_DELTAS, List.map, List.cons.injEq, and_true]
          refine ⟨?_, ?_, ?_, ?_, ?_, ?_, ?_, ?_⟩
          · simp only [neighborCand]
            rw [if_pos (by decide), movePosition_inRange (by (try dsimp only); omega)]
            all_goals (simp; try omega)
          · simp only [neighborCand]
            rw [if_pos (by decide), movePosition_inRange (by (try dsimp only); omega)]
            all_goals (simp; try omega)
          · simp only [neighborCand]
            rw [if_pos (by decide), hmove]
          · simp only [neighborCand]
            rw [if_pos (by decide), movePosition_inRange (by (try dsimp only); omega)]
            all_goals (simp; try omega)
          · simp only [neighborCand]
            rw [if_neg (by decide), hdiag4]
          · simp only [neighborCand]
            rw [if_neg (by decide), getDiagonalNeighbor_inRange (by (try dsimp only); omega)]
            all_goals (simp; try omega)
          · simp only [neighborCand]
            rw [if_neg (by decide), hdiag6]
          · simp only [neighborCand]
            rw [if_neg (by decide), getDiagonalNeighbor_inRange (by (try dsimp only); omega)]
            all_goals (simp; try omega)
        · simp [List.nodup_cons, List.mem_cons, CubePosition.mk.injEq, htf2, htf]
          try omega
      rw [hl]
      rfl
    · -- toEdge = right, flip = True
      have hmove : movePosition ⟨f, 0, y⟩ (⟨-1, 0⟩ : Delta) g = ⟨tf, g - 1, g - 1 - y⟩ := by
        rw [movePosition_cross he ht]
        simp [placeOnEdge, edgeParallelCoord, hflip]
      have hsd4 : transformSecondaryDelta f .left ⟨0, 1⟩ = some ⟨0, -1⟩ := by
        simp [transformSecondaryDelta, ht, hflip]
      have hdiag4 : getDiagonalNeighbor ⟨f, 0, y⟩ (⟨-1, 1⟩ : Delta) g = some ⟨tf, g - 1, g - 1 - y - 1⟩ := by
        simp only [getDiagonalNeighbor]
        dsimp only
        rw [if_neg (by omega), if_pos (by omega), if_pos (by omega), hsd4]
        rw [hmove]
        dsimp only
        rw [if_pos (by omega)]
        all_goals (simp; try omega)
      have hsd6 : transformSecondaryDelta f .left ⟨0, -1⟩ = some ⟨0, 1⟩ := by
        simp [transformSecondaryDelta, ht, hflip]
      have hdiag6 : getDiagonalNeighbor ⟨f, 0, y⟩ (⟨-1, -1⟩ : Delta) g = some ⟨tf, g - 1, g - 1 - y + 1⟩ := by
        simp only [getDiagonalNeighbor]
        dsimp only
        rw [if_neg (by omega), if_pos (by omega), if_pos (by omega), hsd6]
        rw [hmove]
        dsimp only
        rw [if_pos (by omega)]
        all_goals (simp; try omega)
      have hl : getAllNeighbors ⟨f, 0, y⟩ g =
          [⟨f, 0, y + 1⟩, ⟨f, 0, y - 1⟩, ⟨tf, g - 1, g - 1 - y⟩, ⟨f, 1, y⟩,
           ⟨tf, g - 1, g - 1 - y - 1⟩, ⟨f, 1, y + 1⟩, ⟨tf, g - 1, g - 1 - y + 1⟩, ⟨f, 1, y - 1⟩] := by
        refine getAllNeighbors_eq ?_ ?_
        · simp only [NEIGHBOR_DELTAS, List.map, List.cons.injEq, and_true]
          refine ⟨?_, ?_, ?_, ?_, ?_, ?_, ?_, ?_⟩
          · simp only [neighborCand]
            rw [if_pos (by decide), movePosition_inRange (by (try dsimp only); omega)]
            all_goals (simp; try omega)
          · simp only [neighborCand]
            rw [if_pos (by decide), movePosition_inRange (by (try dsimp only); omega)]
            all_goals (simp; try omega)
          · simp only [neighborCand]
            rw [if_pos (by decide), hmove]
          · simp only [neighborCand]
            rw [if_pos (by decide), movePosition_inRange (by (try dsimp only); omega)]
            all_goals (simp; try omega)
          · simp only [neighborCand]
            rw [if_neg (by decide), hdiag4]
          · simp only [neighborCand]
            rw [if_neg (by decide), getDiagonalNeighbor_inRange (by (try dsimp only); omega)]
            all_goals (simp; try omega)
          · simp only [neighborCand]
            rw [if_neg (by decide), hdiag6]
          · simp only [neighborCand]
            rw [if_neg (by decide), getDiagonalNeighbor_inRange (by (try dsimp only); omega)]
            all_goals (simp; try omega)
        · simp [List.nodup_cons, List.mem_cons, CubePosition.mk.injEq, htf2, htf]
          try omega
      rw [hl]
      rfl
  · cases te
    · -- toEdge = top, flip = False
      have hmove : movePosition ⟨f, 0, y⟩ (⟨-1, 0⟩ : Delta) g = ⟨tf, y, g - 1⟩ := by
        rw [movePosition_cross he ht]
        simp [placeOnEdge, edgeParallelCoord, hflip]
      have hsd4 : transformSecondaryDelta f .left ⟨0, 1⟩ = some ⟨1, 0⟩ := by
        simp [transformSecondaryDelta, ht, hflip]
      have hdiag4 : getDiagonalNeighbor ⟨f, 0, y⟩ (⟨-1, 1⟩ : Delta) g = some ⟨tf, y + 1, g - 1⟩ := by
        simp only [getDiagonalNeighbor]
        dsimp only
        rw [if_neg (by omega), if_pos (by omega), if_pos (by omega), hsd4]
        rw [hmove]
        dsimp only
        rw [if_pos (by omega)]
        all_goals (simp; try omega)
      have hsd6 : transformSecondaryDelta f .left ⟨0, -1⟩ = some ⟨-1, 0⟩ := by
        simp [transformSecondaryDelta, ht, hflip]
      have hdiag6 : getDiagonalNeighbor ⟨f, 0, y⟩ (⟨-1, -1⟩ : Delta) g = some ⟨tf, y - 1, g - 1⟩ := by
        simp only [getDiagonalNeighbor]
        dsimp only
        rw [if_neg (by omega), if_pos (by omega), if_pos (by omega), hsd6]
        rw [hmove]
        dsimp only
        rw [if_pos (by omega)]
        all_goals (simp; try omega)
      have hl : getAllNeighbors ⟨f, 0, y⟩ g =
          [⟨f, 0, y + 1⟩, ⟨f, 0, y - 1⟩, ⟨tf, y, g - 1⟩, ⟨f, 1, y⟩,
           ⟨tf, y + 1, g - 1⟩, ⟨f, 1, y + 1⟩, ⟨tf, y - 1, g - 1⟩, ⟨f, 1, y - 1⟩] := by
        refine getAllNeighbors_eq ?_ ?_
        · simp only [NEIGHBOR_DELTAS, List.map, List.cons.injEq, and_true]
          refine ⟨?_, ?_, ?_, ?_, ?_, ?_, ?_, ?_⟩
          · simp only [neighborCand]
            rw [if_pos (by decide), movePosition_inRange (by (try dsimp only); omega)]
            all_goals (simp; try omega)
          · simp only [neighborCand]
            rw [if_pos (by decide), movePosition_inRange (by (try dsimp only); omega)]
            all_goals (simp; try omega)
          · simp only [neighborCand]
            rw [if_pos (by decide), hmove]
          · simp only [neighborCand]
            rw [if_pos (by decide), movePosition_inRange (by (try dsimp only); omega)]
            all_goals (simp; try omega)
          · simp only [neighborCand]
            rw [if_neg (by decide), hdiag4]
          · simp only [neighborCand]
            rw [if_neg (by decide), getDiagonalNeighbor_inRange (by (try dsimp only); omega)]
            all_goals (simp; try omega)
          · simp only [neighborCand]
            rw [if_neg (by decide), hdiag6]
          · simp only [neighborCand]
            rw [if_neg (by decide), getDiagonalNeighbor_inRange (by (try dsimp only); omega)]
            all_goals (simp; try omega)
        · simp [List.nodup_cons, List.mem_cons, CubePosition.mk.injEq, htf2, htf]
          try omega
      rw [hl]
      rfl
    · -- toEdge = bottom, flip = False
      have hmove : movePosition ⟨f, 0, y⟩ (⟨-1, 0⟩ : Delta) g = ⟨tf, y, 0⟩ := by
        rw [movePosition_cross he ht]
        simp [placeOnEdge, edgeParallelCoord, hflip]
      have hsd4 : transformSecondaryDelta f .left ⟨0, 1⟩ = some ⟨1, 0⟩ := by
        simp [transformSecondaryDelta, ht, hflip]
      have hdiag4 : getDiagonalNeighbor ⟨f, 0, y⟩ (⟨-1, 1⟩ : Delta) g = some ⟨tf, y + 1, 0⟩ := by
        simp only [getDiagonalNeighbor]
        dsimp only
        rw [if_neg (by omega), if_pos (by omega), if_pos (by omega), hsd4]
        rw [hmove]
        dsimp only
        rw [if_pos (by omega)]
        all_goals (simp; try omega)
      have hsd6 : transformSecondaryDelta f .left ⟨0, -1⟩ = some ⟨-1, 0⟩ := by
        simp [transformSecondaryDelta, ht, hflip]
      have hdiag6 : getDiagonalNeighbor ⟨f, 0, y⟩ (⟨-1, -1⟩ : Delta) g = some ⟨tf, y - 1, 0⟩ := by
        simp only [getDiagonalNeighbor]
        dsimp only
        rw [if_neg (by omega), if_pos (by omega), if_pos (by omega), hsd6]
        rw [hmove]
        dsimp only
        rw [if_pos (by omega)]
        all_goals (simp; try omega)
      have hl : getAllNeighbors ⟨f, 0, y⟩ g =
          [⟨f, 0, y + 1⟩, ⟨f, 0, y - 1⟩, ⟨tf, y, 0⟩, ⟨f, 1, y⟩,
           ⟨tf, y + 1, 0⟩, ⟨f, 1, y + 1⟩, ⟨tf, y - 1, 0⟩, ⟨f, 1, y - 1⟩] := by
        refine getAllNeighbors_eq ?_ ?_
        · simp only [NEIGHBOR_DELTAS, List.map, List.cons.injEq, and_true]
          refine ⟨?_, ?_, ?_, ?_, ?_, ?_, ?_, ?_⟩
          · simp only [neighborCand]
            rw [if_pos (by decide), movePosition_inRange (by (try dsimp only); omega)]
            all_goals (simp; try omega)
          · simp only [neighborCand]
            rw [if_pos (by decide), movePosition_inRange (by (try dsimp only); omega)]
            all_goals (simp; try omega)
          · simp only [neighborCand]
            rw [if_pos (by decide), hmove]
          · simp only [neighborCand]
            rw [if_pos (by decide), movePosition_inRange (by (try dsimp only); omega)]
            all_goals (simp; try omega)
          · simp only [neighborCand]
            rw [if_neg (by decide), hdiag4]
          · simp only [neighborCand]
            rw [if_neg (by decide), getDiagonalNeighbor_inRange (by (try dsimp only); omega)]
            all_goals (simp; try omega)
          · simp only [neighborCand]
            rw [if_neg (by decide), hdiag6]
          · simp only [neighborCand]
            rw [if_neg (by decide), getDiagonalNeighbor_inRange (by (try dsimp only); omega)]
            all_goals (simp; try omega)
        · simp [List.nodup_cons, List.mem_cons, CubePosition.mk.injEq, htf2, htf]
          try omega
      rw [hl]
      rfl
    · -- toEdge = left, flip = False
      have hmove : movePosition ⟨f, 0, y⟩ (⟨-1, 0⟩ : Delta) g = ⟨tf, 0, y⟩ := by
        rw [movePosition_cross he ht]
        simp [placeOnEdge, edgeParallelCoord, hflip]
      have hsd4 : transformSecondaryDelta f .left ⟨0, 1⟩ = some ⟨0, 1⟩ := by
        simp [transformSecondaryDelta, ht, hflip]
      have hdiag4 : getDiagonalNeighbor ⟨f, 0, y⟩ (⟨-1, 1⟩ : Delta) g = some ⟨tf, 0, y + 1⟩ := by
        simp only [getDiagonalNeighbor]
        dsimp only
        rw [if_neg (by omega), if_pos (by omega), if_pos (by omega), hsd4]
        rw [hmove]
        dsimp only
        rw [if_pos (by omega)]
        all_goals (simp; try omega)
      have hsd6 : transformSecondaryDelta f .left ⟨0, -1⟩ = some ⟨0, -1⟩ := by
        simp [transformSecondaryDelta, ht, hflip]
      have hdiag6 : getDiagonalNeighbor ⟨f, 0, y⟩ (⟨-1, -1⟩ : Delta) g = some ⟨tf, 0, y - 1⟩ := by
        simp only [getDiagonalNeighbor]
        dsimp only
        rw [if_neg (by omega), if_pos (by omega), if_pos (by omega), hsd6]
        rw [hmove]
        dsimp only
        rw [if_pos (by omega)]
        all_goals (simp; try omega)
      have hl : getAllNeighbors ⟨f, 0, y⟩ g =
          [⟨f, 0, y + 1⟩, ⟨f, 0, y - 1⟩, ⟨tf, 0, y⟩, ⟨f, 1, y⟩,
           ⟨tf, 0, y + 1⟩, ⟨f, 1, y + 1⟩, ⟨tf, 0, y - 1⟩, ⟨f, 1, y - 1⟩] := by
        refine getAllNeighbors_eq ?_ ?_
        · simp only [NEIGHBOR_DELTAS, List.map, List.cons.injEq, and_true]
          refine ⟨?_, ?_, ?_, ?_, ?_, ?_, ?_, ?_⟩
          · simp only [neighborCand]
            rw [if_pos (by decide), movePosition_inRange (by (try dsimp only); omega)]
            all_goals (simp; try omega)
          · simp only [neighborCand]
            rw [if_pos (by decide), movePosition_inRange (by (try dsimp only); omega)]
            all_goals (simp; try omega)
          · simp only [neighborCand]
            rw [if_pos (by decide), hmove]
          · simp only [neighborCand]
            rw [if_pos (by decide), movePosition_inRange (by (try dsimp only); omega)]
            all_goals (simp; try omega)
          · simp only [neighborCand]
            rw [if_neg (by decide), hdiag4]
          · simp only [neighborCand]
            rw [if_neg (by decide), getDiagonalNeighbor_inRange (by (try dsimp only); omega)]
            all_goals (simp; try omega)
          · simp only [neighborCand]
            rw [if_neg (by decide), hdiag6]
          · simp only [neighborCand]
            rw [if_neg (by decide), getDiagonalNeighbor_inRange (by (try dsimp only); omega)]
            all_goals (simp; try omega)
        · simp [List.nodup_cons, List.mem_cons, CubePosition.mk.injEq, htf2, htf]
          try omega
      rw [hl]
      rfl
    · -- toEdge = right, flip = False
      have hmove : movePosition ⟨f, 0, y⟩ (⟨-1, 0⟩ : Delta) g = ⟨tf, g - 1, y⟩ := by
        rw [movePosition_cross he ht]
        simp [placeOnEdge, edgeParallelCoord, hflip]
      have hsd4 : transformSecondaryDelta f .left ⟨0, 1⟩ = some ⟨0, 1⟩ := by
        simp [transformSecondaryDelta, ht, hflip]
      have hdiag4 : getDiagonalNeighbor ⟨f, 0, y⟩ (⟨-1, 1⟩ : Delta) g = some ⟨tf, g - 1, y + 1⟩ := by
        simp only [getDiagonalNeighbor]
        dsimp only
        rw [if_neg (by omega), if_pos (by omega), if_pos (by omega), hsd4]
        rw [hmove]
        dsimp only
        rw [if_pos (by omega)]
        all_goals (simp; try omega)
      have hsd6 : transformSecondaryDelta f .left ⟨0, -1⟩ = some ⟨0, -1⟩ := by
        simp [transformSecondaryDelta, ht, hflip]
      have hdiag6 : getDiagonalNeighbor ⟨f, 0, y⟩ (⟨-1, -1⟩ : Delta) g = some ⟨tf, g - 1, y - 1⟩ := by
        simp only [getDiagonalNeighbor]
        dsimp only
        rw [if_neg (by omega), if_pos (by omega), if_pos (by omega), hsd6]
        rw [hmove]
        dsimp only
        rw [if_pos (by omega)]
        all_goals (simp; try omega)
      have hl : getAllNeighbors ⟨f, 0, y⟩ g =
          [⟨f, 0, y + 1⟩, ⟨f, 0, y - 1⟩, ⟨tf, g - 1, y⟩, ⟨f, 1, y⟩,
           ⟨tf, g - 1, y + 1⟩, ⟨f, 1, y + 1⟩, ⟨tf, g - 1, y - 1⟩, ⟨f, 1, y - 1⟩] := by
        refine getAllNeighbors_eq ?_ ?_
        · simp only [NEIGHBOR_DELTAS, List.map, List.cons.injEq, and_true]
          refine ⟨?_, ?_, ?_, ?_, ?_, ?_, ?_, ?_⟩
          · simp only [neighborCand]
            rw [if_pos (by decide), movePosition_inRange (by (try dsimp only); omega)]
            all_goals (simp; try omega)
          · simp only [neighborCand]
            rw [if_pos (by decide), movePosition_inRange (by (try dsimp only); omega)]
            all_goals (simp; try omega)
          · simp only [neighborCand]
            rw [if_pos (by decide), hmove]
          · simp only [neighborCand]
            rw [if_pos (by decide), movePosition_inRange (by (try dsimp only); omega)]
            all_goals (simp; try omega)
          · simp only [neighborCand]
            rw [if_neg (by decide), hdiag4]
          · simp only [neighborCand]
            rw [if_neg (by decide), getDiagonalNeighbor_inRange (by (try dsimp only); omega)]
            all_goals (simp; try omega)
          · simp only [neighborCand]
            rw [if_neg (by decide), hdiag6]
          · simp only [neighborCand]
            rw [if_neg (by decide), getDiagonalNeighbor_inRange (by (try dsimp only); omega)]
            all_goals (simp; try omega)
        · simp [List.nodup_cons, List.mem_cons, CubePosition.mk.injEq, htf2, htf]
          try omega
      rw [hl]
      rfl

/-- Cells on the interior of a face's top edge have exactly 8
distinct neighbors (5 on the same face, 3 across the top edge). -/
lemma getAllNeighbors_top_edge {g x : Int} {f : CubeFace}
    (hv1 : 0 < x) (hv2 : x < g - 1) (hg : 3 ≤ g) :
    (getAllNeighbors ⟨f, x, g - 1⟩ g).length = 8 := by
  obtain ⟨t, ht, htf⟩ := getEdgeTransition_total f .top
  obtain ⟨ff, tf, fe, te, fx, fy, ro⟩ := t
  dsimp only at htf
  have htf2 : ¬ f = tf := fun hh => htf hh.symm
  have he : getEdgeForDirection ⟨f, x, g - 1⟩ (⟨0, 1⟩ : Delta) g = some .top := by
    simp only [getEdgeForDirection]
    rw [if_pos (by (try dsimp only); omega)]
  by_cases hflip : (fx || fy) = true
  · cases te
    · -- toEdge = top, flip = True
      have hmove : movePosition ⟨f, x, g - 1⟩ (⟨0, 1⟩ : Delta) g = ⟨tf, g - 1 - x, g - 1⟩ := by
        rw [movePosition_cross he ht]
        simp [placeOnEdge, edgeParallelCoord, hflip]
      have hsd4 : transformSecondaryDelta f .top ⟨-1, 0⟩ = some ⟨1, 0⟩ := by
        simp [transformSecondaryDelta, ht, hflip]
      have hdiag4 : getDiagonalNeighbor ⟨f, x, g - 1⟩ (⟨-1, 1⟩ : Delta) g = some ⟨tf, g - 1 - x + 1, g - 1⟩ := by
        simp only [getDiagonalNeighbor]
        dsimp only
        rw [if_neg (by omega), if_neg (by omega), if_pos (by omega), if_pos (by omega), hsd4]
        rw [hmove]
        dsimp only
        rw [if_pos (by omega)]
        all_goals (simp; try omega)
      have hsd5 : transformSecondaryDelta f .top ⟨1, 0⟩ = some ⟨-1, 0⟩ := by
        simp [transformSecondaryDelta, ht, hflip]
      have hdiag5 : getDiagonalNeighbor ⟨f, x, g - 1⟩ (⟨1, 1⟩ : Delta) g = some ⟨tf, g - 1 - x - 1, g - 1⟩ := by
        simp only [getDiagonalNeighbor]
        dsimp only
        rw [if_neg (by omega), if_neg (by omega), if_pos (by omega), if_pos (by omega), hsd5]
        rw [hmove]
        dsimp only
        rw [if_pos (by omega)]
        all_goals (simp; try omega)
      have hl : getAllNeighbors ⟨f, x, g - 1⟩ g =
          [⟨tf, g - 1 - x, g - 1⟩, ⟨f, x, g - 2⟩, ⟨f, x - 1, g - 1⟩, ⟨f, x + 1, g - 1⟩,
           ⟨tf, g - 1 - x + 1, g - 1⟩, ⟨tf, g - 1 - x - 1, g - 1⟩, ⟨f, x - 1, g - 2⟩, ⟨f, x + 1, g - 2⟩] := by
        refine getAllNeighbors_eq ?_ ?_
        · simp only [NEIGHBOR_DELTAS, List.map, List.cons.injEq, and_true]
          refine ⟨?_, ?_, ?_, ?_, ?_, ?_, ?_, ?_⟩
          · simp only [neighborCand]
            rw [if_pos (by decide), hmove]
          · simp only [neighborCand]
            rw [if_pos (by decide), movePosition_inRange (by (try dsimp only); omega)]
            all_goals (simp; try omega)
          · simp only [neighborCand]
            rw [if_pos (by decide), movePosition_inRange (by (try dsimp only); omega)]
            all_goals (simp; try omega)
          · simp only [neighborCand]
            rw [if_pos (by decide), movePosition_inRange (by (try dsimp only); omega)]
            all_goals (simp; try omega)
          · simp only [neighborCand]
            rw [if_neg (by decide), hdiag4]
          · simp only [neighborCand]
            rw [if_neg (by decide), hdiag5]
          · simp only [neighborCand]
            rw [if_neg (by decide), getDiagonalNeighbor_inRange (by (try dsimp only); omega)]
            all_goals (simp; try omega)
          · simp only [neighborCand]
            rw [if_neg (by decide), getDiagonalNeighbor_inRange (by (try dsimp only); omega)]
            all_goals (simp; try omega)
        · simp [List.nodup_cons, List.mem_cons, CubePosition.mk.injEq, htf2, htf]
          try omega
      rw [hl]
      rfl
    · -- toEdge = bottom, flip = True
      have hmove : movePosition ⟨f, x, g - 1⟩ (⟨0, 1⟩ : Delta) g = ⟨tf, g - 1 - x, 0⟩ := by
        rw [movePosition_cross he ht]
        simp [placeOnEdge, edgeParallelCoord, hflip]
      have hsd4 : transformSecondaryDelta f .top ⟨-1, 0⟩ = some ⟨1, 0⟩ := by
        simp [transformSecondaryDelta, ht, hflip]
      have hdiag4 : getDiagonalNeighbor ⟨f, x, g - 1⟩ (⟨-1, 1⟩ : Delta) g = some ⟨tf, g - 1 - x + 1, 0⟩ := by
        simp only [getDiagonalNeighbor]
        dsimp only
        rw [if_neg (by omega), if_neg (by omega), if_pos (by omega), if_pos (by omega), hsd4]
        rw [hmove]
        dsimp only
        rw [if_pos (by omega)]
        all_goals (simp; try omega)
      have hsd5 : transformSecondaryDelta f .top ⟨1, 0⟩ = some ⟨-1, 0⟩ := by
        simp [transformSecondaryDelta, ht, hflip]
      have hdiag5 : getDiagonalNeighbor ⟨f, x, g - 1⟩ (⟨1, 1⟩ : Delta) g = some ⟨tf, g - 1 - x - 1, 0⟩ := by
        simp only [getDiagonalNeighbor]
        dsimp only
        rw [if_neg (by omega), if_neg (by omega), if_pos (by omega), if_pos (by omega), hsd5]
        rw [hmove]
        dsimp only
        rw [if_pos (by omega)]
        all_goals (simp; try omega)
      have hl : getAllNeighbors ⟨f, x, g - 1⟩ g =
          [⟨tf, g - 1 - x, 0⟩, ⟨f, x, g - 2⟩, ⟨f, x - 1, g - 1⟩, ⟨f, x + 1, g - 1⟩,
           ⟨tf, g - 1 - x + 1, 0⟩, ⟨tf, g - 1 - x - 1, 0⟩, ⟨f, x - 1, g - 2⟩, ⟨f, x + 1, g - 2⟩] := by
        refine getAllNeighbors_eq ?_ ?_
        · simp only [NEIGHBOR_DELTAS, List.map, List.cons.injEq, and_true]
          refine ⟨?_, ?_, ?_, ?_, ?_, ?_, ?_, ?_⟩
          · simp only [neighborCand]
            rw [if_pos (by decide), hmove]
          · simp only [neighborCand]
            rw [if_pos (by decide), movePosition_inRange (by (try dsimp only); omega)]
            all_goals (simp; try omega)
          · simp only [neighborCand]
            rw [if_pos (by decide), movePosition_inRange (by (try dsimp only); omega)]
            all_goals (simp; try omega)
          · simp only [neighborCand]
            rw [if_pos (by decide), movePosition_inRange (by (try dsimp only); omega)]
            all_goals (simp; try omega)
          · simp only [neighborCand]
            rw [if_neg (by decide), hdiag4]
          · simp only [neighborCand]
            rw [if_neg (by decide), hdiag5]
          · simp only [neighborCand]
            rw [if_neg (by decide), getDiagonalNeighbor_inRange (by (try dsimp only); omega)]
            all_goals (simp; try omega)
          · simp only [neighborCand]
            rw [if_neg (by decide), getDiagonalNeighbor_inRange (by (try dsimp only); omega)]
            all_goals (simp; try omega)
        · simp [List.nodup_cons, List.mem_cons, CubePosition.mk.injEq, htf2, htf]
          try omega
      rw [hl]
      rfl
    · -- toEdge = left, flip = True
      have hmove : movePosition ⟨f, x, g - 1⟩ (⟨0, 1⟩ : Delta) g = ⟨tf, 0, g - 1 - x⟩ := by
        rw [movePosition_cross he ht]
        simp [placeOnEdge, edgeParallelCoord, hflip]
      have hsd4 : transformSecondaryDelta f .top ⟨-1, 0⟩ = some ⟨0, 1⟩ := by
        simp [transformSecondaryDelta, ht, hflip]
      have hdiag4 : getDiagonalNeighbor ⟨f, x, g - 1⟩ (⟨-1, 1⟩ : Delta) g = some ⟨tf, 0, g - 1 - x + 1⟩ := by
        simp only [getDiagonalNeighbor]
        dsimp only
        rw [if_neg (by omega), if_neg (by omega), if_pos (by omega), if_pos (by omega), hsd4]
        rw [hmove]
        dsimp only
        rw [if_pos (by omega)]
        all_goals (simp; try omega)
      have hsd5 : transformSecondaryDelta f .top ⟨1, 0⟩ = some ⟨0, -1⟩ := by
        simp [transformSecondaryDelta, ht, hflip]
      have hdiag5 : getDiagonalNeighbor ⟨f, x, g - 1⟩ (⟨1, 1⟩ : Delta) g = some ⟨tf, 0, g - 1 - x - 1⟩ := by
        simp only [getDiagonalNeighbor]
        dsimp only
        rw [if_neg (by omega), if_neg (by omega), if_pos (by omega), if_pos (by omega), hsd5]
        rw [hmove]
        dsimp only
        rw [if_pos (by omega)]
        all_goals (simp; try omega)
      have hl : getAllNeighbors ⟨f, x, g - 1⟩ g =
          [⟨tf, 0, g - 1 - x⟩, ⟨f, x, g - 2⟩, ⟨f, x - 1, g - 1⟩, ⟨f, x + 1, g - 1⟩,
           ⟨tf, 0, g - 1 - x + 1⟩, ⟨tf, 0, g - 1 - x - 1⟩, ⟨f, x - 1, g - 2⟩, ⟨f, x + 1, g - 2⟩] := by
        refine getAllNeighbors_eq ?_ ?_
        · simp only [NEIGHBOR_DELTAS, List.map, List.cons.injEq, and_true]
          refine ⟨?_, ?_, ?_, ?_, ?_, ?_, ?_, ?_⟩
          · simp only [neighborCand]
            rw [if_pos (by decide), hmove]
          · simp only [neighborCand]
            rw [if_pos (by decide), movePosition_inRange (by (try dsimp only); omega)]
            all_goals (simp; try omega)
          · simp only [neighborCand]
            rw [if_pos (by decide), movePosition_inRange (by (try dsimp only); omega)]
            all_goals (simp; try omega)
          · simp only [neighborCand]
            rw [if_pos (by decide), movePosition_inRange (by (try dsimp only); omega)]
            all_goals (simp; try omega)
          · simp only [neighborCand]
            rw [if_neg (by decide), hdiag4]
          · simp only [neighborCand]
            rw [if_neg (by decide), hdiag5]
          · simp only [neighborCand]
            rw [if_neg (by decide), getDiagonalNeighbor_inRange (by (try dsimp only); omega)]
            all_goals (simp; try omega)
          · simp only [neighborCand]
            rw [if_neg (by decide), getDiagonalNeighbor_inRange (by (try dsimp only); omega)]
            all_goals (simp; try omega)
        · simp [List.nodup_cons, List.mem_cons, CubePosition.mk.injEq, htf2, htf]
          try omega
      rw [hl]
      rfl
    · -- toEdge = right, flip = True
      have hmove : movePosition ⟨f, x, g - 1⟩ (⟨0, 1⟩ : Delta) g = ⟨tf, g - 1, g - 1 - x⟩ := by
        rw [movePosition_cross he ht]
        simp [placeOnEdge, edgeParallelCoord, hflip]
      have hsd4 : transformSecondaryDelta f .top ⟨-1, 0⟩ = some ⟨0, 1⟩ := by
        simp [transformSecondaryDelta, ht, hflip]
      have hdiag4 : getDiagonalNeighbor ⟨f, x, g - 1⟩ (⟨-1, 1⟩ : Delta) g = some ⟨tf, g - 1, g - 1 - x + 1⟩ := by
        simp only [getDiagonalNeighbor]
        dsimp only
        rw [if_neg (by omega), if_neg (by omega), if_pos (by omega), if_pos (by omega), hsd4]
        rw [hmove]
        dsimp only
        rw [if_pos (by omega)]
        all_goals (simp; try omega)
      have hsd5 : transformSecondaryDelta f .top ⟨1, 0⟩ = some ⟨0, -1⟩ := by
        simp [transformSecondaryDelta, ht, hflip]
      have hdiag5 : getDiagonalNeighbor ⟨f, x, g - 1⟩ (⟨1, 1⟩ : Delta) g = some ⟨tf, g - 1, g - 1 - x - 1⟩ := by
        simp only [getDiagonalNeighbor]
        dsimp only
        rw [if_neg (by omega), if_neg (by omega), if_pos (by omega), if_pos (by omega), hsd5]
        rw [hmove]
        dsimp only
        rw [if_pos (by omega)]
        all_goals (simp; try omega)
      have hl : getAllNeighbors ⟨f, x, g - 1⟩ g =
          [⟨tf, g - 1, g - 1 - x⟩, ⟨f, x, g - 2⟩, ⟨f, x - 1, g - 1⟩, ⟨f, x + 1, g - 1⟩,
           ⟨tf, g - 1, g - 1 - x + 1⟩, ⟨tf, g - 1, g - 1 - x - 1⟩, ⟨f, x - 1, g - 2⟩, ⟨f, x + 1, g - 2⟩] := by
        refine getAllNeighbors_eq ?_ ?_
        · simp only [NEIGHBOR_DELTAS, List.map, List.cons.injEq, and_true]
          refine ⟨?_, ?_, ?_, ?_, ?_, ?_, ?_, ?_⟩
          · simp only [neighborCand]
            rw [if_pos (by decide), hmove]
          · simp only [neighborCand]
            rw [if_pos (by decide), movePosition_inRange (by (try dsimp only); omega)]
            all_goals (simp; try omega)
          · simp only [neighborCand]
            rw [if_pos (by decide), movePosition_inRange (by (try dsimp only); omega)]
            all_goals (simp; try omega)
          · simp only [neighborCand]
            rw [if_pos (by decide), movePosition_inRange (by (try dsimp only); omega)]
            all_goals (simp; try omega)
          · simp only [neighborCand]
            rw [if_neg (by decide), hdiag4]
          · simp only [neighborCand]
            rw [if_neg (by decide), hdiag5]
          · simp only [neighborCand]
            rw [if_neg (by decide), getDiagonalNeighbor_inRange (by (try dsimp only); omega)]
            all_goals (simp; try omega)
          · simp only [neighborCand]
            rw [if_neg (by decide), getDiagonalNeighbor_inRange (by (try dsimp only); omega)]
            all_goals (simp; try omega)
        · simp [List.nodup_cons, List.mem_cons, CubePosition.mk.injEq, htf2, htf]
          try omega
      rw [hl]
      rfl
  · cases te
    · -- toEdge = top, flip = False
      have hmove : movePosition ⟨f, x, g - 1⟩ (⟨0, 1⟩ : Delta) g = ⟨tf, x, g - 1⟩ := by
        rw [movePosition_cross he ht]
        simp [placeOnEdge, edgeParallelCoord, hflip]
      have hsd4 : transformSecondaryDelta f .top ⟨-1, 0⟩ = some ⟨-1, 0⟩ := by
        simp [transformSecondaryDelta, ht, hflip]
      have hdiag4 : getDiagonalNeighbor ⟨f, x, g - 1⟩ (⟨-1, 1⟩ : Delta) g = some ⟨tf, x - 1, g - 1⟩ := by
        simp only [getDiagonalNeighbor]
        dsimp only
        rw [if_neg (by omega), if_neg (by omega), if_pos (by omega), if_pos (by omega), hsd4]
        rw [hmove]
        dsimp only
        rw [if_pos (by omega)]
        all_goals (simp; try omega)
      have hsd5 : transformSecondaryDelta f .top ⟨1, 0⟩ = some ⟨1, 0⟩ := by
        simp [transformSecondaryDelta, ht, hflip]
      have hdiag5 : getDiagonalNeighbor ⟨f, x, g - 1⟩ (⟨1, 1⟩ : Delta) g = some ⟨tf, x + 1, g - 1⟩ := by
        simp only [getDiagonalNeighbor]
        dsimp only
        rw [if_neg (by omega), if_neg (by omega), if_pos (by omega), if_pos (by omega), hsd5]
        rw [hmove]
        dsimp only
        rw [if_pos (by omega)]
        all_goals (simp; try omega)
      have hl : getAllNeighbors ⟨f, x, g - 1⟩ g =
          [⟨tf, x, g - 1⟩, ⟨f, x, g - 2⟩, ⟨f, x - 1, g - 1⟩, ⟨f, x + 1, g - 1⟩,
           ⟨tf, x - 1, g - 1⟩, ⟨tf, x + 1, g - 1⟩, ⟨f, x - 1, g - 2⟩, ⟨f, x + 1, g - 2⟩] := by
        refine getAllNeighbors_eq ?_ ?_
        · simp only [NEIGHBOR_DELTAS, List.map, List.cons.injEq, and_true]
          refine ⟨?_, ?_, ?_, ?_, ?_, ?_, ?_, ?_⟩
          · simp only [neighborCand]
            rw [if_pos (by decide), hmove]
          · simp only [neighborCand]
            rw [if_pos (by decide), movePosition_inRange (by (try dsimp only); omega)]
            all_goals (simp; try omega)
          · simp only [neighborCand]
            rw [if_pos (by decide), movePosition_inRange (by (try dsimp only); omega)]
            all_goals (simp; try omega)
          · simp only [neighborCand]
            rw [if_pos (by decide), movePosition_inRange (by (try dsimp only); omega)]
            all_goals (simp; try omega)
          · simp only [neighborCand]
            rw [if_neg (by decide), hdiag4]
          · simp only [neighborCand]
            rw [if_neg (by decide), hdiag5]
          · simp only [neighborCand]
            rw [if_neg (by decide), getDiagonalNeighbor_inRange (by (try dsimp only); omega)]
            all_goals (simp; try omega)
          · simp only [neighborCand]
            rw [if_neg (by decide), getDiagonalNeighbor_inRange (by (try dsimp only); omega)]
            all_goals (simp; try omega)
        · simp [List.nodup_cons, List.mem_cons, CubePosition.mk.injEq, htf2, htf]
          try omega
      rw [hl]
      rfl
    · -- toEdge = bottom, flip = False
      have hmove : movePosition ⟨f, x, g - 1⟩ (⟨0, 1⟩ : Delta) g = ⟨tf, x, 0⟩ := by
        rw [movePosition_cross he ht]
        simp [placeOnEdge, edgeParallelCoord, hflip]
      have hsd4 : transformSecondaryDelta f .top ⟨-1, 0⟩ = some ⟨-1, 0⟩ := by
        simp [transformSecondaryDelta, ht, hflip]
      have hdiag4 : getDiagonalNeighbor ⟨f, x, g - 1⟩ (⟨-1, 1⟩ : Delta) g = some ⟨tf, x - 1, 0⟩ := by
        simp only [getDiagonalNeighbor]
        dsimp only
        rw [if_neg (by omega), if_neg (by omega), if_pos (by omega), if_pos (by omega), hsd4]
        rw [hmove]
        dsimp only
        rw [if_pos (by omega)]
        all_goals (simp; try omega)
      have hsd5 : transformSecondaryDelta f .top ⟨1, 0⟩ = some ⟨1, 0⟩ := by
        simp [transformSecondaryDelta, ht, hflip]
      have hdiag5 : getDiagonalNeighbor ⟨f, x, g - 1⟩ (⟨1, 1⟩ : Delta) g = some ⟨tf, x + 1, 0⟩ := by
        simp only [getDiagonalNeighbor]
        dsimp only
        rw [if_neg (by omega), if_neg (by omega), if_pos (by omega), if_pos (by omega), hsd5]
        rw [hmove]
        dsimp only
        rw [if_pos (by omega)]
        all_goals (simp; try omega)
      have hl : getAllNeighbors ⟨f, x, g - 1⟩ g =
          [⟨tf, x, 0⟩, ⟨f, x, g - 2⟩, ⟨f, x - 1, g - 1⟩, ⟨f, x + 1, g - 1⟩,
           ⟨tf, x - 1, 0⟩, ⟨tf, x + 1, 0⟩, ⟨f, x - 1, g - 2⟩, ⟨f, x + 1, g - 2⟩] := by
        refine getAllNeighbors_eq ?_ ?_
        · simp only [NEIGHBOR_DELTAS, List.map, List.cons.injEq, and_true]
          refine ⟨?_, ?_, ?_, ?_, ?_, ?_, ?_, ?_⟩
          · simp only [neighborCand]
            rw [if_pos (by decide), hmove]
          · simp only [neighborCand]
            rw [if_pos (by decide), movePosition_inRange (by (try dsimp only); omega)]
            all_goals (simp; try omega)
          · simp only [neighborCand]
            rw [if_pos (by decide), movePosition_inRange (by (try dsimp only); omega)]
            all_goals (simp; try omega)
          · simp only [neighborCand]
            rw [if_pos (by decide), movePosition_inRange (by (try dsimp only); omega)]
            all_goals (simp; try omega)
          · simp only [neighborCand]
            rw [if_neg (by decide), hdiag4]
          · simp only [neighborCand]
            rw [if_neg (by decide), hdiag5]
          · simp only [neighborCand]
            rw [if_neg (by decide), getDiagonalNeighbor_inRange (by (try dsimp only); omega)]
            all_goals (simp; try omega)
          · simp only [neighborCand]
            rw [if_neg (by decide), getDiagonalNeighbor_inRange (by (try dsimp only); omega)]
            all_goals (simp; try omega)
        · simp [List.nodup_cons, List.mem_cons, CubePosition.mk.injEq, htf2, htf]
          try omega
      rw [hl]
      rfl
    · -- toEdge = left, flip = False
      have hmove : movePosition ⟨f, x, g - 1⟩ (⟨0, 1⟩ : Delta) g = ⟨tf, 0, x⟩ := by
        rw [movePosition_cross he ht]
        simp [placeOnEdge, edgeParallelCoord, hflip]
      have hsd4 : transformSecondaryDelta f .top ⟨-1, 0⟩ = some ⟨0, -1⟩ := by
        simp [transformSecondaryDelta, ht, hflip]
      have hdiag4 : getDiagonalNeighbor ⟨f, x, g - 1⟩ (⟨-1, 1⟩ : Delta) g = some ⟨tf, 0, x - 1⟩ := by
        simp only [getDiagonalNeighbor]
        dsimp only
        rw [if_neg (by omega), if_neg (by omega), if_pos (by omega), if_pos (by omega), hsd4]
        rw [hmove]
        dsimp only
        rw [if_pos (by omega)]
        all_goals (simp; try omega)
      have hsd5 : transformSecondaryDelta f .top ⟨1, 0⟩ = some ⟨0, 1⟩ := by
        simp [transformSecondaryDelta, ht, hflip]
      have hdiag5 : getDiagonalNeighbor ⟨f, x, g - 1⟩ (⟨1, 1⟩ : Delta) g = some ⟨tf, 0, x + 1⟩ := by
        simp only [getDiagonalNeighbor]
        dsimp only
        rw [if_neg (by omega), if_neg (by omega), if_pos (by omega), if_pos (by omega), hsd5]
        rw [hmove]
        dsimp only
        rw [if_pos (by omega)]
        all_goals (simp; try omega)
      have hl : getAllNeighbors ⟨f, x, g - 1⟩ g =
          [⟨tf, 0, x⟩, ⟨f, x, g - 2⟩, ⟨f, x - 1, g - 1⟩, ⟨f, x + 1, g - 1⟩,
           ⟨tf, 0, x - 1⟩, ⟨tf, 0, x + 1⟩, ⟨f, x - 1, g - 2⟩, ⟨f, x + 1, g - 2⟩] := by
        refine getAllNeighbors_eq ?_ ?_
        · simp only [NEIGHBOR_DELTAS, List.map, List.cons.injEq, and_true]
          refine ⟨?_, ?_, ?_, ?_, ?_, ?_, ?_, ?_⟩
          · simp only [neighborCand]
            rw [if_pos (by decide), hmove]
          · simp only [neighborCand]
            rw [if_pos (by decide), movePosition_inRange (by (try dsimp only); omega)]
            all_goals (simp; try omega)
          · simp only [neighborCand]
            rw [if_pos (by decide), movePosition_inRange (by (try dsimp only); omega)]
            all_goals (simp; try omega)
          · simp only [neighborCand]
            rw [if_pos (by decide), movePosition_inRange (by (try dsimp only); omega)]
            all_goals (simp; try omega)
          · simp only [neighborCand]
            rw [if_neg (by decide), hdiag4]
          · simp only [neighborCand]
            rw [if_neg (by decide), hdiag5]
          · simp only [neighborCand]
            rw [if_neg (by decide), getDiagonalNeighbor_inRange (by (try dsimp only); omega)]
            all_goals (simp; try omega)
          · simp only [neighborCand]
            rw [if_neg (by decide), getDiagonalNeighbor_inRange (by (try dsimp only); omega)]
            all_goals (simp; try omega)
        · simp [List.nodup_cons, List.mem_cons, CubePosition.mk.injEq, htf2, htf]
          try omega
      rw [hl]
      rfl
    · -- toEdge = right, flip = False
      have hmove : movePosition ⟨f, x, g - 1⟩ (⟨0, 1⟩ : Delta) g = ⟨tf, g - 1, x⟩ := by
        rw [movePosition_cross he ht]
        simp [placeOnEdge, edgeParallelCoord, hflip]
      have hsd4 : transformSecondaryDelta f .top ⟨-1, 0⟩ = some ⟨0, -1⟩ := by
        simp [transformSecondaryDelta, ht, hflip]
      have hdiag4 : getDiagonalNeighbor ⟨f, x, g - 1⟩ (⟨-1, 1⟩ : Delta) g = some ⟨tf, g - 1, x - 1⟩ := by
        simp only [getDiagonalNeighbor]
        dsimp only
        rw [if_neg (by omega), if_neg (by omega), if_pos (by omega), if_pos (by omega), hsd4]
        rw [hmove]
        dsimp only
        rw [if_pos (by omega)]
        all_goals (simp; try omega)
      have hsd5 : transformSecondaryDelta f .top ⟨1, 0⟩ = some ⟨0, 1⟩ := by
        simp [transformSecondaryDelta, ht, hflip]
      have hdiag5 : getDiagonalNeighbor ⟨f, x, g - 1⟩ (⟨1, 1⟩ : Delta) g = some ⟨tf, g - 1, x + 1⟩ := by
        simp only [getDiagonalNeighbor]
        dsimp only
        rw [if_neg (by omega), if_neg (by omega), if_pos (by omega), if_pos (by omega), hsd5]
        rw [hmove]
        dsimp only
        rw [if_pos (by omega)]
        all_goals (simp; try omega)
      have hl : getAllNeighbors ⟨f, x, g - 1⟩ g =
          [⟨tf, g - 1, x⟩, ⟨f, x, g - 2⟩, ⟨f, x - 1, g - 1⟩, ⟨f, x + 1, g - 1⟩,
           ⟨tf, g - 1, x - 1⟩, ⟨tf, g - 1, x + 1⟩, ⟨f, x - 1, g - 2⟩, ⟨f, x + 1, g - 2⟩] := by
        refine getAllNeighbors_eq ?_ ?_
        · simp only [NEIGHBOR_DELTAS, List.map, List.cons.injEq, and_true]
          refine ⟨?_, ?_, ?_, ?_, ?_, ?_, ?_, ?_⟩
          · simp only [neighborCand]
            rw [if_pos (by decide), hmove]
          · simp only [neighborCand]
            rw [if_pos (by decide), movePosition_inRange (by (try dsimp only); omega)]
            all_goals (simp; try omega)
          · simp only [neighborCand]
            rw [if_pos (by decide), movePosition_inRange (by (try dsimp only); omega)]
            all_goals (simp; try omega)
          · simp only [neighborCand]
            rw [if_pos (by decide), movePosition_inRange (by (try dsimp only); omega)]
            all_goals (simp; try omega)
          · simp only [neighborCand]
            rw [if_neg (by decide), hdiag4]
          · simp only [neighborCand]
            rw [if_neg (by decide), hdiag5]
          · simp only [neighborCand]
            rw [if_neg (by decide), getDiagonalNeighbor_inRange (by (try dsimp only); omega)]
            all_goals (simp; try omega)
          · simp only [neighborCand]
            rw [if_neg (by decide), getDiagonalNeighbor_inRange (by (try dsimp only); omega)]
            all_goals (simp; try omega)
        · simp [List.nodup_cons, List.mem_cons, CubePosition.mk.injEq, htf2, htf]
          try omega
      rw [hl]
      rfl

/-- Cells on the interior of a face's bottom edge have exactly 8
distinct neighbors (5 on the same face, 3 across the bottom edge). -/
lemma getAllNeighbors_bottom_edge {g x : Int} {f : CubeFace}
    (hv1 : 0 < x) (hv2 : x < g - 1) (hg : 3 ≤ g) :
    (getAllNeighbors ⟨f, x, 0⟩ g).length = 8 := by
  obtain ⟨t, ht, htf⟩ := getEdgeTransition_total f .bottom
  obtain ⟨ff, tf, fe, te, fx, fy, ro⟩ := t
  dsimp only at htf
  have htf2 : ¬ f = tf := fun hh => htf hh.symm
  have he : getEdgeForDirection ⟨f, x, 0⟩ (⟨0, -1⟩ : Delta) g = some .bottom := by
    simp only [getEdgeForDirection]
    rw [if_neg (by (try dsimp only); omega), if_pos (by (try dsimp only); omega)]
  by_cases hflip : (fx || fy) = true
  · cases te
    · -- toEdge = top, flip = True
      have hmove : movePosition ⟨f, x, 0⟩ (⟨0, -1⟩ : Delta) g = ⟨tf, g - 1 - x, g - 1⟩ := by
        rw [movePosition_cross he ht]
        simp [placeOnEdge, edgeParallelCoord, hflip]
      have hsd6 : transformSecondaryDelta f .bottom ⟨-1, 0⟩ = some ⟨1, 0⟩ := by
        simp [transformSecondaryDelta, ht, hflip]
      have hdiag6 : getDiagonalNeighbor ⟨f, x, 0⟩ (⟨-1, -1⟩ : Delta) g = some ⟨tf, g - 1 - x + 1, g - 1⟩ := by
        simp only [getDiagonalNeighbor]
        dsimp only
        rw [if_neg (by omega), if_neg (by omega), if_pos (by omega), if_neg (by omega), hsd6]
        rw [hmove]
        dsimp only
        rw [if_pos (by omega)]
        all_goals (simp; try omega)
      have hsd7 : transformSecondaryDelta f .bottom ⟨1, 0⟩ = some ⟨-1, 0⟩ := by
        simp [transformSecondaryDelta, ht, hflip]
      have hdiag7 : getDiagonalNeighbor ⟨f, x, 0⟩ (⟨1, -1⟩ : Delta) g = some ⟨tf, g - 1 - x - 1, g - 1⟩ := by
        simp only [getDiagonalNeighbor]
        dsimp only
        rw [if_neg (by omega), if_neg (by omega), if_pos (by omega), if_neg (by omega), hsd7]
        rw [hmove]
        dsimp only
        rw [if_pos (by omega)]
        all_goals (simp; try omega)
      have hl : getAllNeighbors ⟨f, x, 0⟩ g =
          [⟨f, x, 1⟩, ⟨tf, g - 1 - x, g - 1⟩, ⟨f, x - 1, 0⟩, ⟨f, x + 1, 0⟩,
           ⟨f, x - 1, 1⟩, ⟨f, x + 1, 1⟩, ⟨tf, g - 1 - x + 1, g - 1⟩, ⟨tf, g - 1 - x - 1, g - 1⟩] := by
        refine getAllNeighbors_eq ?_ ?_
        · simp only [NEIGHBOR_DELTAS, List.map, List.cons.injEq, and_true]
          refine ⟨?_, ?_, ?_, ?_, ?_, ?_, ?_, ?_⟩
          · simp only [neighborCand]
            rw [if_pos (by decide), movePosition_inRange (by (try dsimp only); omega)]
            all_goals (simp; try omega)
          · simp only [neighborCand]
            rw [if_pos (by decide), hmove]
          · simp only [neighborCand]
            rw [if_pos (by decide), movePosition_inRange (by (try dsimp only); omega)]
            all_goals (simp; try omega)
          · simp only [neighborCand]
            rw [if_pos (by decide), movePosition_inRange (by (try dsimp only); omega)]
            all_goals (simp; try omega)
          · simp only [neighborCand]
            rw [if_neg (by decide), getDiagonalNeighbor_inRange (by (try dsimp only); omega)]
            all_goals (simp; try omega)
          · simp only [neighborCand]
            rw [if_neg (by decide), getDiagonalNeighbor_inRange (by (try dsimp only); omega)]
            all_goals (simp; try omega)
          · simp only [neighborCand]
            rw [if_neg (by decide), hdiag6]
          · simp only [neighborCand]
            rw [if_neg (by decide), hdiag7]
        · simp [List.nodup_cons, List.mem_cons, CubePosition.mk.injEq, htf2, htf]
          try omega
      rw [hl]
      rfl
    · -- toEdge = bottom, flip = True
      have hmove : movePosition ⟨f, x, 0⟩ (⟨0, -1⟩ : Delta) g = ⟨tf, g - 1 - x, 0⟩ := by
        rw [movePosition_cross he ht]
        simp [placeOnEdge, edgeParallelCoord, hflip]
      have hsd6 : transformSecondaryDelta f .bottom ⟨-1, 0⟩ = some ⟨1, 0⟩ := by
        simp [transformSecondaryDelta, ht, hflip]
      have hdiag6 : getDiagonalNeighbor ⟨f, x, 0⟩ (⟨-1, -1⟩ : Delta) g = some ⟨tf, g - 1 - x + 1, 0⟩ := by
        simp only [getDiagonalNeighbor]
        dsimp only
        rw [if_neg (by omega), if_neg (by omega), if_pos (by omega), if_neg (by omega), hsd6]
        rw [hmove]
        dsimp only
        rw [if_pos (by omega)]
        all_goals (simp; try omega)
      have hsd7 : transformSecondaryDelta f .bottom ⟨1, 0⟩ = some ⟨-1, 0⟩ := by
        simp [transformSecondaryDelta, ht, hflip]
      have hdiag7 : getDiagonalNeighbor ⟨f, x, 0⟩ (⟨1, -1⟩ : Delta) g = some ⟨tf, g - 1 - x - 1, 0⟩ := by
        simp only [getDiagonalNeighbor]
        dsimp only
        rw [if_neg (by omega), if_neg (by omega), if_pos (by omega), if_neg (by omega), hsd7]
        rw [hmove]
        dsimp only
        rw [if_pos (by omega)]
        all_goals (simp; try omega)
      have hl : getAllNeighbors ⟨f, x, 0⟩ g =
          [⟨f, x, 1⟩, ⟨tf, g - 1 - x, 0⟩, ⟨f, x - 1, 0⟩, ⟨f, x + 1, 0⟩,
           ⟨f, x - 1, 1⟩, ⟨f, x + 1, 1⟩, ⟨tf, g - 1 - x + 1, 0⟩, ⟨tf, g - 1 - x - 1, 0⟩] := by
        refine getAllNeighbors_eq ?_ ?_
        · simp only [NEIGHBOR_DELTAS, List.map, List.cons.injEq, and_true]
          refine ⟨?_, ?_, ?_, ?_, ?_, ?_, ?_, ?_⟩
          · simp only [neighborCand]
            rw [if_pos (by decide), movePosition_inRange (by (try dsimp only); omega)]
            all_goals (simp; try omega)
          · simp only [neighborCand]
            rw [if_pos (by decide), hmove]
          · simp only [neighborCand]
            rw [if_pos (by decide), movePosition_inRange (by (try dsimp only); omega)]
            all_goals (simp; try omega)
          · simp only [neighborCand]
            rw [if_pos (by decide), movePosition_inRange (by (try dsimp only); omega)]
            all_goals (simp; try omega)
          · simp only [neighborCand]
            rw [if_neg (by decide), getDiagonalNeighbor_inRange (by (try dsimp only); omega)]
            all_goals (simp; try omega)
          · simp only [neighborCand]
            rw [if_neg (by decide), getDiagonalNeighbor_inRange (by (try dsimp only); omega)]
            all_goals (simp; try omega)
          · simp only [neighborCand]
            rw [if_neg (by decide), hdiag6]
          · simp only [neighborCand]
            rw [if_neg (by decide), hdiag7]
        · simp [List.nodup_cons, List.mem_cons, CubePosition.mk.injEq, htf2, htf]
          try omega
      rw [hl]
      rfl
    · -- toEdge = left, flip = True
      have hmove : movePosition ⟨f, x, 0⟩ (⟨0, -1⟩ : Delta) g = ⟨tf, 0, g - 1 - x⟩ := by
        rw [movePosition_cross he ht]
        simp [placeOnEdge, edgeParallelCoord, hflip]
      have hsd6 : transformSecondaryDelta f .bottom ⟨-1, 0⟩ = some ⟨0, 1⟩ := by
        simp [transformSecondaryDelta, ht, hflip]
      have hdiag6 : getDiagonalNeighbor ⟨f, x, 0⟩ (⟨-1, -1⟩ : Delta) g = some ⟨tf, 0, g - 1 - x + 1⟩ := by
        simp only [getDiagonalNeighbor]
        dsimp only
        rw [if_neg (by omega), if_neg (by omega), if_pos (by omega), if_neg (by omega), hsd6]
        rw [hmove]
        dsimp only
        rw [if_pos (by omega)]
        all_goals (simp; try omega)
      have hsd7 : transformSecondaryDelta f .bottom ⟨1, 0⟩ = some ⟨0, -1⟩ := by
        simp [transformSecondaryDelta, ht, hflip]
      have hdiag7 : getDiagonalNeighbor ⟨f, x, 0⟩ (⟨1, -1⟩ : Delta) g = some ⟨tf, 0, g - 1 - x - 1⟩ := by
        simp only [getDiagonalNeighbor]
        dsimp only
        rw [if_neg (by omega), if_neg (by omega), if_pos (by omega), if_neg (by omega), hsd7]
        rw [hmove]
        dsimp only
        rw [if_pos (by omega)]
        all_goals (simp; try omega)
      have hl : getAllNeighbors ⟨f, x, 0⟩ g =
          [⟨f, x, 1⟩, ⟨tf, 0, g - 1 - x⟩, ⟨f, x - 1, 0⟩, ⟨f, x + 1, 0⟩,
           ⟨f, x - 1, 1⟩, ⟨f, x + 1, 1⟩, ⟨tf, 0, g - 1 - x + 1⟩, ⟨tf, 0, g - 1 - x - 1⟩] := by
        refine getAllNeighbors_eq ?_ ?_
        · simp only [NEIGHBOR_DELTAS, List.map, List.cons.injEq, and_true]
          refine ⟨?_, ?_, ?_, ?_, ?_, ?_, ?_, ?_⟩
          · simp only [neighborCand]
            rw [if_pos (by decide), movePosition_inRange (by (try dsimp only); omega)]
            all_goals (simp; try omega)
          · simp only [neighborCand]
            rw [if_pos (by decide), hmove]
          · simp only [neighborCand]
            rw [if_pos (by decide), movePosition_inRange (by (try dsimp only); omega)]
            all_goals (simp; try omega)
          · simp only [neighborCand]
            rw [if_pos (by decide), movePosition_inRange (by (try dsimp only); omega)]
            all_goals (simp; try omega)
          · simp only [neighborCand]
            rw [if_neg (by decide), getDiagonalNeighbor_inRange (by (try dsimp only); omega)]
            all_goals (simp; try omega)
          · simp only [neighborCand]
            rw [if_neg (by decide), getDiagonalNeighbor_inRange (by (try dsimp only); omega)]
            all_goals (simp; try omega)
          · simp only [neighborCand]
            rw [if_neg (by decide), hdiag6]
          · simp only [neighborCand]
            rw [if_neg (by decide), hdiag7]
        · simp [List.nodup_cons, List.mem_cons, CubePosition.mk.injEq, htf2, htf]
          try omega
      rw [hl]
      rfl
    · -- toEdge = right, flip = True
      have hmove : movePosition ⟨f, x, 0⟩ (⟨0, -1⟩ : Delta) g = ⟨tf, g - 1, g - 1 - x⟩ := by
        rw [movePosition_cross he ht]
        simp [placeOnEdge, edgeParallelCoord, hflip]
      have hsd6 : transformSecondaryDelta f .bottom ⟨-1, 0⟩ = some ⟨0, 1⟩ := by
        simp [transformSecondaryDelta, ht, hflip]
      have hdiag6 : getDiagonalNeighbor ⟨f, x, 0⟩ (⟨-1, -1⟩ : Delta) g = some ⟨tf, g - 1, g - 1 - x + 1⟩ := by
        simp only [getDiagonalNeighbor]
        dsimp only
        rw [if_neg (by omega), if_neg (by omega), if_pos (by omega), if_neg (by omega), hsd6]
        rw [hmove]
        dsimp only
        rw [if_pos (by omega)]
        all_goals (simp; try omega)
      have hsd7 : transformSecondaryDelta f .bottom ⟨1, 0⟩ = some ⟨0, -1⟩ := by
        simp [transformSecondaryDelta, ht, hflip]
      have hdiag7 : getDiagonalNeighbor ⟨f, x, 0⟩ (⟨1, -1⟩ : Delta) g = some ⟨tf, g - 1, g - 1 - x - 1⟩ := by
        simp only [getDiagonalNeighbor]
        dsimp only
        rw [if_neg (by omega), if_neg (by omega), if_pos (by omega), if_neg (by omega), hsd7]
        rw [hmove]
        dsimp only
        rw [if_pos (by omega)]
        all_goals (simp; try omega)
      have hl : getAllNeighbors ⟨f, x, 0⟩ g =
          [⟨f, x, 1⟩, ⟨tf, g - 1, g - 1 - x⟩, ⟨f, x - 1, 0⟩, ⟨f, x + 1, 0⟩,
           ⟨f, x - 1, 1⟩, ⟨f, x + 1, 1⟩, ⟨tf, g - 1, g - 1 - x + 1⟩, ⟨tf, g - 1, g - 1 - x - 1⟩] := by
        refine getAllNeighbors_eq ?_ ?_
        · simp only [NEIGHBOR_DELTAS, List.map, List.cons.injEq, and_true]
          refine ⟨?_, ?_, ?_, ?_, ?_, ?_, ?_, ?_⟩
          · simp only [neighborCand]
            rw [if_pos (by decide), movePosition_inRange (by (try dsimp only); omega)]
            all_goals (simp; try omega)
          · simp only [neighborCand]
            rw [if_pos (by decide), hmove]
          · simp only [neighborCand]
            rw [if_pos (by decide), movePosition_inRange (by (try dsimp only); omega)]
            all_goals (simp; try omega)
          · simp only [neighborCand]
            rw [if_pos (by decide), movePosition_inRange (by (try dsimp only); omega)]
            all_goals (simp; try omega)
          · simp only [neighborCand]
            rw [if_neg (by decide), getDiagonalNeighbor_inRange (by (try dsimp only); omega)]
            all_goals (simp; try omega)
          · simp only [neighborCand]
            rw [if_neg (by decide), getDiagonalNeighbor_inRange (by (try dsimp only); omega)]
            all_goals (simp; try omega)
          · simp only [neighborCand]
            rw [if_neg (by decide), hdiag6]
          · simp only [neighborCand]
            rw [if_neg (by decide), hdiag7]
        · simp [List.nodup_cons, List.mem_cons, CubePosition.mk.injEq, htf2, htf]
          try omega
      rw [hl]
      rfl
  · cases te
    · -- toEdge = top, flip = False
      have hmove : movePosition ⟨f, x, 0⟩ (⟨0, -1⟩ : Delta) g = ⟨tf, x, g - 1⟩ := by
        rw [movePosition_cross he ht]
        simp [placeOnEdge, edgeParallelCoord, hflip]
      have hsd6 : transformSecondaryDelta f .bottom ⟨-1, 0⟩ = some ⟨-1, 0⟩ := by
        simp [transformSecondaryDelta, ht, hflip]
      have hdiag6 : getDiagonalNeighbor ⟨f, x, 0⟩ (⟨-1, -1⟩ : Delta) g = some ⟨tf, x - 1, g - 1⟩ := by
        simp only [getDiagonalNeighbor]
        dsimp only
        rw [if_neg (by omega), if_neg (by omega), if_pos (by omega), if_neg (by omega), hsd6]
        rw [hmove]
        dsimp only
        rw [if_pos (by omega)]
        all_goals (simp; try omega)
      have hsd7 : transformSecondaryDelta f .bottom ⟨1, 0⟩ = some ⟨1, 0⟩ := by
        simp [transformSecondaryDelta, ht, hflip]
      have hdiag7 : getDiagonalNeighbor ⟨f, x, 0⟩ (⟨1, -1⟩ : Delta) g = some ⟨tf, x + 1, g - 1⟩ := by
        simp only [getDiagonalNeighbor]
        dsimp only
        rw [if_neg (by omega), if_neg (by omega), if_pos (by omega), if_neg (by omega), hsd7]
        rw [hmove]
        dsimp only
        rw [if_pos (by omega)]
        all_goals (simp; try omega)
      have hl : getAllNeighbors ⟨f, x, 0⟩ g =
          [⟨f, x, 1⟩, ⟨tf, x, g - 1⟩, ⟨f, x - 1, 0⟩, ⟨f, x + 1, 0⟩,
           ⟨f, x - 1, 1⟩, ⟨f, x + 1, 1⟩, ⟨tf, x - 1, g - 1⟩, ⟨tf, x + 1, g - 1⟩] := by
        refine getAllNeighbors_eq ?_ ?_
        · simp only [NEIGHBOR_DELTAS, List.map, List.cons.injEq, and_true]
          refine ⟨?_, ?_, ?_, ?_, ?_, ?_, ?_, ?_⟩
          · simp only [neighborCand]
            rw [if_pos (by decide), movePosition_inRange (by (try dsimp only); omega)]
            all_goals (simp; try omega)
          · simp only [neighborCand]
            rw [if_pos (by decide), hmove]
          · simp only [neighborCand]
            rw [if_pos (by decide), movePosition_inRange (by (try dsimp only); omega)]
            all_goals (simp; try omega)
          · simp only [neighborCand]
            rw [if_pos (by decide), movePosition_inRange (by (try dsimp only); omega)]
            all_goals (simp; try omega)
          · simp only [neighborCand]
            rw [if_neg (by decide), getDiagonalNeighbor_inRange (by (try dsimp only); omega)]
            all_goals (simp; try omega)
          · simp only [neighborCand]
            rw [if_neg (by decide), getDiagonalNeighbor_inRange (by (try dsimp only); omega)]
            all_goals (simp; try omega)
          · simp only [neighborCand]
            rw [if_neg (by decide), hdiag6]
          · simp only [neighborCand]
            rw [if_neg (by decide), hdiag7]
        · simp [List.nodup_cons, List.mem_cons, CubePosition.mk.injEq, htf2, htf]
          try omega
      rw [hl]
      rfl
    · -- toEdge = bottom, flip = False
      have hmove : movePosition ⟨f, x, 0⟩ (⟨0, -1⟩ : Delta) g = ⟨tf, x, 0⟩ := by
        rw [movePosition_cross he ht]
        simp [placeOnEdge, edgeParallelCoord, hflip]
      have hsd6 : transformSecondaryDelta f .bottom ⟨-1, 0⟩ = some ⟨-1, 0⟩ := by
        simp [transformSecondaryDelta, ht, hflip]
      have hdiag6 : getDiagonalNeighbor ⟨f, x, 0⟩ (⟨-1, -1⟩ : Delta) g = some ⟨tf, x - 1, 0⟩ := by
        simp only [getDiagonalNeighbor]
        dsimp only
        rw [if_neg (by omega), if_neg (by omega), if_pos (by omega), if_neg (by omega), hsd6]
        rw [hmove]
        dsimp only
        rw [if_pos (by omega)]
        all_goals (simp; try omega)
      have hsd7 : transformSecondaryDelta f .bottom ⟨1, 0⟩ = some ⟨1, 0⟩ := by
        simp [transformSecondaryDelta, ht, hflip]
      have hdiag7 : getDiagonalNeighbor ⟨f, x, 0⟩ (⟨1, -1⟩ : Delta) g = some ⟨tf, x + 1, 0⟩ := by
        simp only [getDiagonalNeighbor]
        dsimp only
        rw [if_neg (by omega), if_neg (by omega), if_pos (by omega), if_neg (by omega), hsd7]
        rw [hmove]
        dsimp only
        rw [if_pos (by omega)]
        all_goals (simp; try omega)
      have hl : getAllNeighbors ⟨f, x, 0⟩ g =
          [⟨f, x, 1⟩, ⟨tf, x, 0⟩, ⟨f, x - 1, 0⟩, ⟨f, x + 1, 0⟩,
           ⟨f, x - 1, 1⟩, ⟨f, x + 1, 1⟩, ⟨tf, x - 1, 0⟩, ⟨tf, x + 1, 0⟩] := by
        refine getAllNeighbors_eq ?_ ?_
        · simp only [NEIGHBOR_DELTAS, List.map, List.cons.injEq, and_true]
          refine ⟨?_, ?_, ?_, ?_, ?_, ?_, ?_, ?_⟩
          · simp only [neighborCand]
            rw [if_pos (by decide), movePosition_inRange (by (try dsimp only); omega)]
            all_goals (simp; try omega)
          · simp only [neighborCand]
            rw [if_pos (by decide), hmove]
          · simp only [neighborCand]
            rw [if_pos (by decide), movePosition_inRange (by (try dsimp only); omega)]
            all_goals (simp; try omega)
          · simp only [neighborCand]
            rw [if_pos (by decide), movePosition_inRange (by (try dsimp only); omega)]
            all_goals (simp; try omega)
          · simp only [neighborCand]
            rw [if_neg (by decide), getDiagonalNeighbor_inRange (by (try dsimp only); omega)]
            all_goals (simp; try omega)
          · simp only [neighborCand]
            rw [if_neg (by decide), getDiagonalNeighbor_inRange (by (try dsimp only); omega)]
            all_goals (simp; try omega)
          · simp only [neighborCand]
            rw [if_neg (by decide), hdiag6]
          · simp only [neighborCand]
            rw [if_neg (by decide), hdiag7]
        · simp [List.nodup_cons, List.mem_cons, CubePosition.mk.injEq, htf2, htf]
          try omega
      rw [hl]
      rfl
    · -- toEdge = left, flip = False
      have hmove : movePosition ⟨f, x, 0⟩ (⟨0, -1⟩ : Delta) g = ⟨tf, 0, x⟩ := by
        rw [movePosition_cross he ht]
        simp [placeOnEdge, edgeParallelCoord, hflip]
      have hsd6 : transformSecondaryDelta f .bottom ⟨-1, 0⟩ = some ⟨0, -1⟩ := by
        simp [transformSecondaryDelta, ht, hflip]
      have hdiag6 : getDiagonalNeighbor ⟨f, x, 0⟩ (⟨-1, -1⟩ : Delta) g = some ⟨tf, 0, x - 1⟩ := by
        simp only [getDiagonalNeighbor]
        dsimp only
        rw [if_neg (by omega), if_neg (by omega), if_pos (by omega), if_neg (by omega), hsd6]
        rw [hmove]
        dsimp only
        rw [if_pos (by omega)]
        all_goals (simp; try omega)
      have hsd7 : transformSecondaryDelta f .bottom ⟨1, 0⟩ = some ⟨0, 1⟩ := by
        simp [transformSecondaryDelta, ht, hflip]
      have hdiag7 : getDiagonalNeighbor ⟨f, x, 0⟩ (⟨1, -1⟩ : Delta) g = some ⟨tf, 0, x + 1⟩ := by
        simp only [getDiagonalNeighbor]
        dsimp only
        rw [if_neg (by omega), if_neg (by omega), if_pos (by omega), if_neg (by omega), hsd7]
        rw [hmove]
        dsimp only
        rw [if_pos (by omega)]
        all_goals (simp; try omega)
      have hl : getAllNeighbors ⟨f, x, 0⟩ g =
          [⟨f, x, 1⟩, ⟨tf, 0, x⟩, ⟨f, x - 1, 0⟩, ⟨f, x + 1, 0⟩,
           ⟨f, x - 1, 1⟩, ⟨f, x + 1, 1⟩, ⟨tf, 0, x - 1⟩, ⟨tf, 0, x + 1⟩] := by
        refine getAllNeighbors_eq ?_ ?_
        · simp only [NEIGHBOR_DELTAS, List.map, List.cons.injEq, and_true]
          refine ⟨?_, ?_, ?_, ?_, ?_, ?_, ?_, ?_⟩
          · simp only [neighborCand]
            rw [if_pos (by decide), movePosition_inRange (by (try dsimp only); omega)]
            all_goals (simp; try omega)
          · simp only [neighborCand]
            rw [if_pos (by decide), hmove]
          · simp only [neighborCand]
            rw [if_pos (by decide), movePosition_inRange (by (try dsimp only); omega)]
            all_goals (simp; try omega)
          · simp only [neighborCand]
            rw [if_pos (by decide), movePosition_inRange (by (try dsimp only); omega)]
            all_goals (simp; try omega)
          · simp only [neighborCand]
            rw [if_neg (by decide), getDiagonalNeighbor_inRange (by (try dsimp only); omega)]
            all_goals (simp; try omega)
          · simp only [neighborCand]
            rw [if_neg (by decide), getDiagonalNeighbor_inRange (by (try dsimp only); omega)]
            all_goals (simp; try omega)
          · simp only [neighborCand]
            rw [if_neg (by decide), hdiag6]
          · simp only [neighborCand]
            rw [if_neg (by decide), hdiag7]
        · simp [List.nodup_cons, List.mem_cons, CubePosition.mk.injEq, htf2, htf]
          try omega
      rw [hl]
      rfl
    · -- toEdge = right, flip = False
      have hmove : movePosition ⟨f, x, 0⟩ (⟨0, -1⟩ : Delta) g = ⟨tf, g - 1, x⟩ := by
        rw [movePosition_cross he ht]
        simp [placeOnEdge, edgeParallelCoord, hflip]
      have hsd6 : transformSecondaryDelta f .bottom ⟨-1, 0⟩ = some ⟨0, -1⟩ := by
        simp [transformSecondaryDelta, ht, hflip]
      have hdiag6 : getDiagonalNeighbor ⟨f, x, 0⟩ (⟨-1, -1⟩ : Delta) g = some ⟨tf, g - 1, x - 1⟩ := by
        simp only [getDiagonalNeighbor]
        dsimp only
        rw [if_neg (by omega), if_neg (by omega), if_pos (by omega), if_neg (by omega), hsd6]
        rw [hmove]
        dsimp only
        rw [if_pos (by omega)]
        all_goals (simp; try omega)
      have hsd7 : transformSecondaryDelta f .bottom ⟨1, 0⟩ = some ⟨0, 1⟩ := by
        simp [transformSecondaryDelta, ht, hflip]
      have hdiag7 : getDiagonalNeighbor ⟨f, x, 0⟩ (⟨1, -1⟩ : Delta) g = some ⟨tf, g - 1, x + 1⟩ := by
        simp only [getDiagonalNeighbor]
        dsimp only
        rw [if_neg (by omega), if_neg (by omega), if_pos (by omega), if_neg (by omega), hsd7]
        rw [hmove]
        dsimp only
        rw [if_pos (by omega)]
        all_goals (simp; try omega)
      have hl : getAllNeighbors ⟨f, x, 0⟩ g =
          [⟨f, x, 1⟩, ⟨tf, g - 1, x⟩, ⟨f, x - 1, 0⟩, ⟨f, x + 1, 0⟩,
           ⟨f, x - 1, 1⟩, ⟨f, x + 1, 1⟩, ⟨tf, g - 1, x - 1⟩, ⟨tf, g - 1, x + 1⟩] := by
        refine getAllNeighbors_eq ?_ ?_
        · simp only [NEIGHBOR_DELTAS, List.map, List.cons.injEq, and_true]
          refine ⟨?_, ?_, ?_, ?_, ?_, ?_, ?_, ?_⟩
          · simp only [neighborCand]
            rw [if_pos (by decide), movePosition_inRange (by (try dsimp only); omega)]
            all_goals (simp; try omega)
          · simp only [neighborCand]
            rw [if_pos (by decide), hmove]
          · simp only [neighborCand]
            rw [if_pos (by decide), movePosition_inRange (by (try dsimp only); omega)]
            all_goals (simp; try omega)
          · simp only [neighborCand]
            rw [if_pos (by decide), movePosition_inRange (by (try dsimp only); omega)]
            all_goals (simp; try omega)
          · simp only [neighborCand]
            rw [if_neg (by decide), getDiagonalNeighbor_inRange (by (try dsimp only); omega)]
            all_goals (simp; try omega)
          · simp only [neighborCand]
            rw [if_neg (by decide), getDiagonalNeighbor_inRange (by (try dsimp only); omega)]
            all_goals (simp; try omega)
          · simp only [neighborCand]
            rw [if_neg (by decide), hdiag6]
          · simp only [neighborCand]
            rw [if_neg (by decide), hdiag7]
        · simp [List.nodup_cons, List.mem_cons, CubePosition.mk.injEq, htf2, htf]
          try omega
      rw [hl]
      rfl


/-- C4.  `getAllNeighbors` never returns duplicates, and returns exactly
8 distinct positions for every interior cell and for every cell lying on
exactly one edge of its face (not a corner). -/
theorem getAllNeighbors_count_and_dedup (g : Int) (p : CubePosition) :
    (getAllNeighbors p g).Nodup ∧
    (((0 < p.x ∧ p.x < g - 1 ∧ 0 < p.y ∧ p.y < g - 1) ∨
      ((p.x = 0 ∧ 0 < p.y ∧ p.y < g - 1) ∨
       (p.x = g - 1 ∧ 0 < p.y ∧ p.y < g - 1) ∨
       (p.y = 0 ∧ 0 < p.x ∧ p.x < g - 1) ∨
       (p.y = g - 1 ∧ 0 < p.x ∧ p.x < g - 1))) →
      (getAllNeighbors p g).length = 8) := by
  refine ⟨getAllNeighbors_nodup p g, ?_⟩
  intro h
  obtain ⟨pf, px, py⟩ := p
  dsimp only at h
  rcases h with ⟨h1, h2, h3, h4⟩ | hedge
  · rw [getAllNeighbors_interior h1 h2 h3 h4]
    rfl
  · rcases hedge with ⟨h0, h1, h2⟩ | ⟨h0, h1, h2⟩ | ⟨h0, h1, h2⟩ | ⟨h0, h1, h2⟩
    · subst h0
      exact getAllNeighbors_left_edge h1 h2 (by omega)
    · subst h0
      exact getAllNeighbors_right_edge h1 h2 (by omega)
    · subst h0
      exact getAllNeighbors_bottom_edge h1 h2 (by omega)
    · subst h0
      exact getAllNeighbors_top_edge h1 h2 (by omega)

/-- Witness for C4 at an interior cell of the 8-grid. -/
theorem getAllNeighbors_count_witness :
    (getAllNeighbors ⟨FRONT, 3, 3⟩ 8).Nodup ∧
    (getAllNeighbors ⟨FRONT, 3, 3⟩ 8).length = 8 :=
  ⟨(getAllNeighbors_count_and_dedup 8 ⟨FRONT, 3, 3⟩).1,
   (getAllNeighbors_count_and_dedup 8 ⟨FRONT, 3, 3⟩).2 (Or.inl (by decide))⟩

/-! ## Snake (`SnakeGame.ts`)

The direction-remapping helpers operate on `THREE.js` vectors.  All the
vectors that actually flow through them (face normals, face up vectors,
and the tracked camera up) are integer vectors, and the quaternions are
90-degree rotations between the perpendicular normals of adjacent faces,
so the float computation is modelled exactly over `Int` vectors. -/

/-- An integer 3-vector (models the `THREE.Vector3` values used by the
direction remapping, all of which are integral). -/
structure IVec3 where
  x : Int
  y : Int
  z : Int
deriving DecidableEq, Repr

/-- `FACE_NORMALS` of `cubeCoordinates.ts`. -/
def FACE_NORMALS : CubeFace → IVec3
  | TOP => ⟨0, 1, 0⟩
  | BOTTOM => ⟨0, -1, 0⟩
  | FRONT => ⟨0, 0, 1⟩
  | BACK => ⟨0, 0, -1⟩
  | LEFT => ⟨-1, 0, 0⟩
  | RIGHT => ⟨1, 0, 0⟩

/-- `FACE_UP_VECTORS` of `cubeCoordinates.ts`. -/
def FACE_UP_VECTORS : CubeFace → IVec3
  | TOP => ⟨0, 0, -1⟩
  | BOTTOM => ⟨0, 0, 1⟩
  | _ => ⟨0, 1, 0⟩

/-- Vector cross product. -/
def ivCross (a b : IVec3) : IVec3 :=
  ⟨a.y * b.z - a.z * b.y, a.z * b.x - a.x * b.z, a.x * b.y - a.y * b.x⟩

/-- Vector dot product. -/
def ivDot (a b : IVec3) : Int :=
  a.x * b.x + a.y * b.y + a.z * b.z

/-- `getFaceRightVector`: `up × normal` (already unit length on the
integer vectors involved, so the source's `normalize()` is the
identity). -/
def getFaceRightVector (face : CubeFace) : IVec3 :=
  ivCross (FACE_UP_VECTORS face) (FACE_NORMALS face)

/-- `quaternion.setFromUnitVectors(n1, n2)` followed by
`applyQuaternion v`: for the perpendicular unit normals of two adjacent
faces this is the 90-degree rotation taking `n1` to `n2` about the axis
`a = n1 × n2`, which on vectors is exactly `v ↦ (a × v) + (a ⬝ v) a`.
All 24 table transitions connect adjacent faces, so the antiparallel
special case of `setFromUnitVectors` never arises.  The source also
re-normalizes the rotated camera-up against float drift; on the exact
integer rotation that is the identity, so it is omitted. -/
def rotateFromTo (n1 n2 v : IVec3) : IVec3 :=
  let a := ivCross n1 n2
  let c := ivCross a v
  let d := ivDot a v
  ⟨c.x + d * a.x, c.y + d * a.y, c.z + d * a.z⟩

/-- `Math.round(Math.atan2(dotRight, dotUp) / (π/2))` reduced modulo 4 to
`{0,1,2,3}`: the rounded quarter-turn count of the angle of the integer
point `(dotUp, dotRight)`.  JS `Math.round` rounds halves up, which
resolves the `|dotRight| = |dotUp|` diagonals as encoded below;
`atan2(0,0) = 0` gives the final catch-all. -/
def quarterTurnsOf (dotRight dotUp : Int) : Int :=
  if 0 < dotUp ∧ -dotUp ≤ dotRight ∧ dotRight < dotUp then 0
  else if 0 < dotRight ∧ -dotRight < dotUp ∧ dotUp ≤ dotRight then 1
  else if dotUp < 0 ∧ dotUp < dotRight ∧ dotRight ≤ -dotUp then 2
  else if dotRight < 0 ∧ dotRight ≤ dotUp ∧ dotUp < -dotRight then 3
  else 0

/-- `calculateVisualRotation`: quarter turns between the camera up and
the face's canonical up, projected on the face's right vector. -/
def calculateVisualRotation (cameraUp : IVec3) (face : CubeFace) : Int :=
  quarterTurnsOf (ivDot cameraUp (getFaceRightVector face))
    (ivDot cameraUp (FACE_UP_VECTORS face))

/-- Snake movement direction (`Direction`). -/
inductive Direction where
  | up | down | left | right
deriving DecidableEq, Repr

/-- The `directionToEdge` record of `transformDirectionAcrossEdge`. -/
def directionToEdge : Direction → EdgeDirection
  | .up => .top
  | .down => .bottom
  | .left => .left
  | .right => .right

/-- `transformDirectionAcrossEdge`: remap a movement direction when the
snake crosses to a new face so the on-screen direction is preserved. -/
def transformDirectionAcrossEdge (fromFace : CubeFace) (direction : Direction)
    (cameraUpBeforeTransition : IVec3) : Direction :=
  match getEdgeTransition fromFace (directionToEdge direction) with
  | none => direction
  | some t =>
    let fromNormal := FACE_NORMALS fromFace
    let toNormal := FACE_NORMALS t.toFace
    let cameraUpAfterTransition :=
      rotateFromTo fromNormal toNormal cameraUpBeforeTransition
    let rotationBefore :=
      calculateVisualRotation cameraUpBeforeTransition fromFace
    let rotationAfter := calculateVisualRotation cameraUpAfterTransition t.toFace
    let rotationDelta := ((rotationAfter - rotationBefore + 4) % 4).toNat
    let directions : List Direction := [.up, .right, .down, .left]
    directions.getD ((directions.findIdx (· = direction) + rotationDelta) % 4)
      direction

/-- Snake game state (`SnakeGameState`); the inherited `pieces` and
`winner` fields are constant (`[]` / `undefined`) and never read, so
they are omitted. -/
structure SnakeGameState where
  snake : List CubePosition
  direction : Direction
  nextDirection : Direction
  food : CubePosition
  score : Int
  speed : Int
  isGameOver : Bool
  isPaused : Bool
  gridSize : Int
  cameraUp : IVec3
deriving DecidableEq, Repr

/-- Snake actions (`SnakeAction`). -/
inductive SnakeAction where
  | move
  | changeDirection (payload : Direction)
  | pause
  | resume
deriving DecidableEq, Repr

/-- `DIRECTION_DELTAS`. -/
def DIRECTION_DELTAS : Direction → Delta
  | .up => ⟨0, 1⟩
  | .down => ⟨0, -1⟩
  | .left => ⟨-1, 0⟩
  | .right => ⟨1, 0⟩

/-- `OPPOSITE_DIRECTIONS`. -/
def OPPOSITE_DIRECTIONS : Direction → Direction
  | .up => .down
  | .down => .up
  | .left => .right
  | .right => .left

/-- The `allFaces` array of `spawnFood`, indexed by the face draw. -/
def snakeFaceOfNat : Nat → CubeFace
  | 0 => FRONT
  | 1 => BACK
  | 2 => LEFT
  | 3 => RIGHT
  | 4 => TOP
  | _ => BOTTOM

/-- The `spawnFood` rejection-sampling loop.  Attempt `a` consumes the
fresh `Math.random()` draws `3a`, `3a+1`, `3a+2` from the stream `r`
(face, x, y); the loop re-samples while the candidate hits the snake and
fewer than 1000 attempts were made (the class's `gridSize` is 8).  The
structural `fuel` argument is kept equal to `1000 - attempt`, so the
`fuel = 0` fallback is unreachable: the loop guard `attempt + 1 < 1000`
stops the recursion first, exactly as the source's do-while does. -/
def spawnFoodAux (r : Nat → Nat) (snake : List CubePosition) :
    (attempt fuel : Nat) → CubePosition
  | attempt, 0 =>
    ⟨snakeFaceOfNat (r (3 * attempt) % 6),
     Int.ofNat (r (3 * attempt + 1) % 8), Int.ofNat (r (3 * attempt + 2) % 8)⟩
  | attempt, fuel + 1 =>
    let face := snakeFaceOfNat (r (3 * attempt) % 6)
    let px : Int := Int.ofNat (r (3 * attempt + 1) % 8)
    let py : Int := Int.ofNat (r (3 * attempt + 2) % 8)
    let position : CubePosition := ⟨face, px, py⟩
    if (snake.any fun seg => positionsEqual seg position) = true ∧
        attempt + 1 < 1000 then
      spawnFoodAux r snake (attempt + 1) fuel
    else position

/-- `spawnFood`. -/
def spawnFood (r : Nat → Nat) (snake : List CubePosition) : CubePosition :=
  spawnFoodAux r snake 0 1000

/-- `moveSnake`: one tick of the snake.  `r` models the `Math.random()`
stream consumed by `spawnFood` when the head eats the food.  The source
indexes `snake[0]` which faults on an empty snake; the snake always has
at least 3 segments, and the model returns the state unchanged in that
unreachable case. -/
def moveSnake (r : Nat → Nat) (state : SnakeGameState) : SnakeGameState :=
  if state.isPaused || state.isGameOver then state
  else
    match state.snake with
    | [] => state
    | head :: _ =>
      let delta := DIRECTION_DELTAS state.nextDirection
      let newHead := movePosition head delta state.gridSize
      let crossed := decide (newHead.face ≠ head.face)
      let direction :=
        if crossed then
          transformDirectionAcrossEdge head.face state.nextDirection
            state.cameraUp
        else state.nextDirection
      let newCameraUp :=
        if crossed then
          rotateFromTo (FACE_NORMALS head.face) (FACE_NORMALS newHead.face)
            state.cameraUp
        else state.cameraUp
      let hitSelf := state.snake.any fun seg => positionsEqual seg newHead
      if hitSelf then
        { state with
          isGameOver := true,
          direction := direction,
          cameraUp := newCameraUp }
      else
        let eatingFood := positionsEqual newHead state.food
        let newSnake :=
          if eatingFood then newHead :: state.snake
          else newHead :: state.snake.dropLast
        let newFood := if eatingFood then spawnFood r newSnake else state.food
        let newScore := if eatingFood then state.score + 10 else state.score
        let newSpeed := max 80 (200 - newScore / 50 * 20)
        { state with
          snake := newSnake,
          direction := direction,
          nextDirection := direction,
          food := newFood,
          score := newScore,
          speed := newSpeed,
          cameraUp := newCameraUp }

/-- `SnakeGame.applyAction`. -/
def snakeApplyAction (r : Nat → Nat) (state : SnakeGameState)
    (action : SnakeAction) : SnakeGameState :=
  match action with
  | .changeDirection payload =>
    if payload ≠ OPPOSITE_DIRECTIONS state.direction then
      { state with nextDirection := payload }
    else state
  | .pause => { state with isPaused := true }
  | .resume => { state with isPaused := false }
  | .move => moveSnake r state

/-! ## C6: self-collision ends the game without touching the segments -/

/-- C6.  If the head computed by `movePosition` from `nextDirection` hits
any existing segment of a live, unpaused snake, the move action sets
`isGameOver` and leaves the segment list unchanged. -/
theorem snake_self_collision (r : Nat → Nat) (s : SnakeGameState)
    (head : CubePosition) (rest : List CubePosition)
    (hsnake : s.snake = head :: rest)
    (hlen : 3 ≤ s.snake.length)
    (hp : s.isPaused = false) (ho : s.isGameOver = false)
    (hhit : (s.snake.any fun seg =>
        positionsEqual seg
          (movePosition head (DIRECTION_DELTAS s.nextDirection)
            s.gridSize)) = true) :
    (snakeApplyAction r s .move).isGameOver = true ∧
    (snakeApplyAction r s .move).snake = s.snake := by
  show (moveSnake r s).isGameOver = true ∧ (moveSnake r s).snake = s.snake
  rw [hsnake] at hhit
  unfold moveSnake
  rw [if_neg (by simp [hp, ho]), hsnake]
  dsimp only
  rw [if_pos hhit]
  exact ⟨rfl, rfl⟩

/-- The snake one tick from self-collision used in the C6 witness. -/
def snakeSelfCollisionState : SnakeGameState :=
  { snake := [⟨FRONT, 4, 4⟩, ⟨FRONT, 5, 4⟩, ⟨FRONT, 5, 5⟩, ⟨FRONT, 4, 5⟩],
    direction := .right, nextDirection := .right, food := ⟨BACK, 0, 0⟩,
    score := 0, speed := 200, isGameOver := false, isPaused := false,
    gridSize := 8, cameraUp := ⟨0, 1, 0⟩ }

/-- Witness for C6 on a concrete 4-segment snake. -/
theorem snake_self_collision_witness :
    (snakeApplyAction (fun _ => 0) snakeSelfCollisionState .move).isGameOver
      = true ∧
    (snakeApplyAction (fun _ => 0) snakeSelfCollisionState .move).snake =
      snakeSelfCollisionState.snake :=
  snake_self_collision (fun _ => 0) snakeSelfCollisionState ⟨FRONT, 4, 4⟩
    [⟨FRONT, 5, 4⟩, ⟨FRONT, 5, 5⟩, ⟨FRONT, 4, 5⟩] rfl (by decide) rfl rfl
    (by decide)

/-! ## C5: `applyAction` purity against the `Math.random()` stream -/

/-- A snake state whose next tick eats the food (C5 counterexample). -/
def snakeEatingState : SnakeGameState :=
  { snake := [⟨FRONT, 4, 4⟩, ⟨FRONT, 3, 4⟩, ⟨FRONT, 2, 4⟩],
    direction := .right, nextDirection := .right, food := ⟨FRONT, 5, 4⟩,
    score := 0, speed := 200, isGameOver := false, isPaused := false,
    gridSize := 8, cameraUp := ⟨0, 1, 0⟩ }

/-- C5 counterexample.  Snake's `applyAction` on a food-eating move
consumes fresh `Math.random()` draws inside `spawnFood`: the same
`(state, action)` pair yields different successor states under two
different draw streams (the respawned food differs), refuting the
claimed per-action purity. -/
theorem snake_applyAction_consumes_randomness :
    snakeApplyAction (fun _ => 0) snakeEatingState .move ≠
    snakeApplyAction (fun _ => 1) snakeEatingState .move := by
  decide

/-- C5 amended: `applyAction` is a pure function of the state, the action
and the random draw stream, and it is independent of the stream except on
the paths that call `Math.random()` — for Snake, exactly the move ticks
whose new head lands on the food. -/
theorem snake_applyAction_deterministic_unless_eating
    (r1 r2 : Nat → Nat) (s : SnakeGameState) (a : SnakeAction)
    (hnoteat : ∀ head, s.snake.head? = some head →
      positionsEqual
        (movePosition head (DIRECTION_DELTAS s.nextDirection) s.gridSize)
        s.food = false) :
    snakeApplyAction r1 s a = snakeApplyAction r2 s a := by
  cases a with
  | changeDirection p => rfl
  | pause => rfl
  | resume => rfl
  | move =>
    show moveSnake r1 s = moveSnake r2 s
    unfold moveSnake
    by_cases hpo : (s.isPaused || s.isGameOver) = true
    · rw [if_pos hpo, if_pos hpo]
    · rw [if_neg hpo, if_neg hpo]
      cases hsn : s.snake with
      | nil => rfl
      | cons head rest =>
        have hno := hnoteat head (by rw [hsn]; rfl)
        dsimp only
        simp only [hno, Bool.false_eq_true, if_false]

/-- A snake state whose next tick does not eat (C5 witness). -/
def snakeCruisingState : SnakeGameState :=
  { snake := [⟨FRONT, 4, 4⟩, ⟨FRONT, 3, 4⟩, ⟨FRONT, 2, 4⟩],
    direction := .right, nextDirection := .right, food := ⟨BACK, 0, 0⟩,
    score := 0, speed := 200, isGameOver := false, isPaused := false,
    gridSize := 8, cameraUp := ⟨0, 1, 0⟩ }

/-- Witness for the amended C5 on a concrete non-eating tick. -/
theorem snake_applyAction_deterministic_witness :
    snakeApplyAction (fun _ => 0) snakeCruisingState .move =
    snakeApplyAction (fun _ => 1) snakeCruisingState .move :=
  snake_applyAction_deterministic_unless_eating (fun _ => 0) (fun _ => 1)
    snakeCruisingState .move (by intro head hh; cases hh; decide)

/-! ## Tetris 3D (`Tetris3DGame`) -/

/-- Integer 3D position inside the hollow cube (`Vec3`). -/
structure Vec3 where
  x : Int
  y : Int
  z : Int
deriving DecidableEq, Repr

/-- The nine tetracube shapes (`Tetracube`). -/
inductive Tetracube where
  | I | O | L | J | T | S | Z | Tower | Corner
deriving DecidableEq, Repr

/-- Cell offsets and color of one tetracube. -/
structure TetracubeData where
  cells : List Vec3
  color : String
deriving DecidableEq, Repr

/-- `TETRACUBES`: shape table. -/
def TETRACUBES : Tetracube → TetracubeData
  | .I => ⟨[⟨0,0,0⟩, ⟨1,0,0⟩, ⟨2,0,0⟩, ⟨3,0,0⟩], "#00f5ff"⟩
  | .O => ⟨[⟨0,0,0⟩, ⟨1,0,0⟩, ⟨0,0,1⟩, ⟨1,0,1⟩], "#ffd700"⟩
  | .L => ⟨[⟨0,0,0⟩, ⟨1,0,0⟩, ⟨2,0,0⟩, ⟨2,0,1⟩], "#f97316"⟩
  | .J => ⟨[⟨0,0,0⟩, ⟨1,0,0⟩, ⟨2,0,0⟩, ⟨0,0,1⟩], "#3b82f6"⟩
  | .T => ⟨[⟨0,0,0⟩, ⟨1,0,0⟩, ⟨2,0,0⟩, ⟨1,0,1⟩], "#a855f7"⟩
  | .S => ⟨[⟨0,0,0⟩, ⟨1,0,0⟩, ⟨1,0,1⟩, ⟨2,0,1⟩], "#22c55e"⟩
  | .Z => ⟨[⟨1,0,0⟩, ⟨2,0,0⟩, ⟨0,0,1⟩, ⟨1,0,1⟩], "#ef4444"⟩
  | .Tower => ⟨[⟨0,0,0⟩, ⟨1,0,0⟩, ⟨0,1,0⟩, ⟨1,1,0⟩], "#ec4899"⟩
  | .Corner => ⟨[⟨0,0,0⟩, ⟨1,0,0⟩, ⟨0,0,1⟩, ⟨0,1,0⟩], "#14b8a6"⟩

/-- `TETRACUBE_TYPES`. -/
def TETRACUBE_TYPES : List Tetracube :=
  [.I, .O, .L, .J, .T, .S, .Z, .Tower, .Corner]

/-- A rotation axis for `rotatePoint`. -/
inductive RotAxis where
  | x | y | z
deriving DecidableEq, Repr

/-- One 90-degree rotation step of `rotatePoint` (the per-iteration
coordinate swap-and-negate). -/
def rotateStep (axis : RotAxis) (p : Vec3) : Vec3 :=
  match axis with
  | .x => ⟨p.x, -p.z, p.y⟩
  | .y => ⟨p.z, p.y, -p.x⟩
  | .z => ⟨-p.y, p.x, p.z⟩

/-- `rotatePoint`: rotate 90 degrees `times` times around an axis
(`((times % 4) + 4) % 4` iterations). -/
def rotatePoint (point : Vec3) (axis : RotAxis) (times : Int) : Vec3 :=
  Nat.rec point (fun _ q => rotateStep axis q) (((times % 4) + 4) % 4).toNat

/-- The current falling piece (`FallingPiece3D`). -/
structure FallingPiece3D where
  type : Tetracube
  position : Vec3
  rotationX : Int
  rotationY : Int
  rotationZ : Int
deriving DecidableEq, Repr

/-- One voxel of the 3D grid (`GridCell3D`). -/
structure GridCell3D where
  filled : Bool
  color : String
deriving DecidableEq, Repr

/-- `getPieceCells`: rotate (X then Y then Z) each base offset and
translate by the pivot.  All quantities are integers, so the source's
`Math.round` is the identity. -/
def getPieceCells (piece : FallingPiece3D) : List Vec3 :=
  (TETRACUBES piece.type).cells.map fun cell =>
    let r1 := rotatePoint cell .x (piece.rotationX / 90)
    let r2 := rotatePoint r1 .y (piece.rotationY / 90)
    let r3 := rotatePoint r2 .z (piece.rotationZ / 90)
    ⟨piece.position.x + r3.x, piece.position.y + r3.y, piece.position.z + r3.z⟩

/-- Tetris game state (`Tetris3DGameState`); the unused inherited
`pieces`/`winner` fields are omitted as in the snake model. -/
structure Tetris3DGameState where
  grid : List (List (List GridCell3D))
  currentPiece : Option FallingPiece3D
  nextPiece : Tetracube
  heldPiece : Option Tetracube
  canHold : Bool
  score : Int
  level : Int
  layersCleared : Int
  fallSpeed : Int
  isGameOver : Bool
  isPaused : Bool
  width : Int
  depth : Int
  height : Int
deriving DecidableEq, Repr

/-- Horizontal movement payloads. -/
inductive TetrisMoveDir where
  | left | right | forward | backward
deriving DecidableEq, Repr

/-- Rotation payloads (`'x' | 'x-' | 'y' | 'y-' | 'z' | 'z-'`). -/
inductive TetrisRotPayload where
  | x | xneg | y | yneg | z | zneg
deriving DecidableEq, Repr

/-- Drop payloads. -/
inductive DropKind where
  | soft | hard
deriving DecidableEq, Repr

/-- Tetris actions (`Tetris3DAction`). -/
inductive Tetris3DAction where
  | move (payload : TetrisMoveDir)
  | rotate (payload : TetrisRotPayload)
  | drop (payload : DropKind)
  | tick
  | hold
  | pause
  | resume
deriving DecidableEq, Repr

/-- The class constants `cubeWidth`, `cubeDepth`, `cubeHeight`. -/
def cubeWidth : Int := 6

def cubeDepth : Int := 6

def cubeHeight : Int := 12

/-- `spawnPiece`: a fresh piece near the top center. -/
def spawnPiece (t : Tetracube) : FallingPiece3D :=
  ⟨t, ⟨cubeWidth / 2 - 1, cubeHeight - 2, cubeDepth / 2 - 1⟩, 0, 0, 0⟩

/-- `randomTetracube`: one fresh `Math.random()` draw from the stream. -/
def randomTetracube (r : Nat → Nat) : Tetracube :=
  TETRACUBE_TYPES.getD (r 0 % 9) .I

/-- `isValidPosition`: all four cells in bounds and non-colliding. -/
def isValidPosition (state : Tetris3DGameState) (piece : FallingPiece3D) :
    Bool :=
  (getPieceCells piece).all fun cell =>
    decide (0 ≤ cell.x) && decide (cell.x < state.width) &&
    decide (0 ≤ cell.z) && decide (cell.z < state.depth) &&
    decide (0 ≤ cell.y) && decide (cell.y < state.height) &&
    !(((state.grid.getD cell.y.toNat []).getD cell.z.toNat []).getD
        cell.x.toNat ⟨false, ""⟩).filled

/-- Update one grid voxel (used by `lockPiece`, always in bounds). -/
def setGridCell (grid : List (List (List GridCell3D))) (y z x : Int)
    (v : GridCell3D) : List (List (List GridCell3D)) :=
  let layer := grid.getD y.toNat []
  let row := layer.getD z.toNat []
  grid.set y.toNat (layer.set z.toNat (row.set x.toNat v))

/-- An empty layer pushed on top after a clear. -/
def emptyTetrisLayer (depth width : Int) : List (List GridCell3D) :=
  List.replicate depth.toNat (List.replicate width.toNat ⟨false, ""⟩)

/-- `lockPiece`: stamp the piece, clear full layers (highest index
first, pushing empty layers on top), score, and spawn the next piece;
the `nextPiece` preview consumes one fresh `Math.random()` draw.  The
JS `layerScores[min(n,7)] || n*300` always takes the array value (the
`||` fallback only triggers on the value 0, when `n = 0` and the
fallback is also 0). -/
def lockPiece (r : Nat → Nat) (state : Tetris3DGameState) :
    Tetris3DGameState :=
  match state.currentPiece with
  | none => state
  | some piece =>
    let cells := getPieceCells piece
    let color := (TETRACUBES piece.type).color
    let grid := cells.foldl (fun grid cell =>
      if 0 ≤ cell.y ∧ cell.y < state.height ∧ 0 ≤ cell.z ∧
          cell.z < state.depth ∧ 0 ≤ cell.x ∧ cell.x < state.width then
        setGridCell grid cell.y cell.z cell.x ⟨true, color⟩
      else grid) state.grid
    let completedLayers := (List.range state.height.toNat).filter fun y =>
      (List.range state.depth.toNat).all fun z =>
        (List.range state.width.toNat).all fun x =>
          (((grid.getD y []).getD z []).getD x ⟨false, ""⟩).filled
    let grid := completedLayers.reverse.foldl (fun grid layerY =>
      grid.eraseIdx layerY ++ [emptyTetrisLayer state.depth state.width]) grid
    let layerScores : List Int := [0, 100, 300, 500, 800, 1200, 1600, 2000]
    let layerScore := layerScores.getD (min completedLayers.length 7) 0
    let newLayersCleared :=
      state.layersCleared + Int.ofNat completedLayers.length
    let newLevel := newLayersCleared / 5 + 1
    let newSpeed := max 200 (1000 - (newLevel - 1) * 100)
    let nextPiece := spawnPiece state.nextPiece
    let isGameOver := !(isValidPosition { state with grid := grid } nextPiece)
    { state with
      grid := grid,
      currentPiece := if isGameOver then none else some nextPiece,
      nextPiece := randomTetracube r,
      canHold := true,
      score := state.score + layerScore * newLevel,
      level := newLevel,
      layersCleared := newLayersCleared,
      fallSpeed := newSpeed,
      isGameOver := isGameOver }

/-- `movePiece`: horizontal translation if valid, else no-op. -/
def movePiece (state : Tetris3DGameState) (direction : TetrisMoveDir) :
    Tetris3DGameState :=
  match state.currentPiece with
  | none => state
  | some p =>
    let delta : Vec3 :=
      match direction with
      | .left => ⟨-1, 0, 0⟩
      | .right => ⟨1, 0, 0⟩
      | .forward => ⟨0, 0, -1⟩
      | .backward => ⟨0, 0, 1⟩
    let newPiece := { p with position :=
      ⟨p.position.x + delta.x, p.position.y + delta.y, p.position.z + delta.z⟩ }
    if isValidPosition state newPiece then
      { state with currentPiece := some newPiece }
    else state

/-- The fixed wall-kick offsets of `rotatePiece`. -/
def tetrisKicks : List Vec3 :=
  [⟨-1, 0, 0⟩, ⟨1, 0, 0⟩, ⟨0, 0, -1⟩, ⟨0, 0, 1⟩, ⟨0, 1, 0⟩, ⟨0, -1, 0⟩,
   ⟨-2, 0, 0⟩, ⟨2, 0, 0⟩, ⟨0, 0, -2⟩, ⟨0, 0, 2⟩]

/-- `rotatePiece`: rotate about an axis, trying wall kicks on failure. -/
def rotatePiece (state : Tetris3DGameState) (axis : TetrisRotPayload) :
    Tetris3DGameState :=
  match state.currentPiece with
  | none => state
  | some p =>
    let delta : Int := match axis with
      | .xneg | .yneg | .zneg => -90
      | _ => 90
    let newPiece : FallingPiece3D :=
      match axis with
      | .x | .xneg => { p with rotationX := (p.rotationX + delta + 360) % 360 }
      | .y | .yneg => { p with rotationY := (p.rotationY + delta + 360) % 360 }
      | .z | .zneg => { p with rotationZ := (p.rotationZ + delta + 360) % 360 }
    if isValidPosition state newPiece then
      { state with currentPiece := some newPiece }
    else
      match tetrisKicks.find? (fun kick =>
        isValidPosition state { newPiece with position :=
          ⟨newPiece.position.x + kick.x, newPiece.position.y + kick.y,
           newPiece.position.z + kick.z⟩ }) with
      | some kick =>
        { state with currentPiece := some { newPiece with position :=
            ⟨newPiece.position.x + kick.x, newPiece.position.y + kick.y,
             newPiece.position.z + kick.z⟩ } }
      | none => state

/-- `softDrop`: move down one cell scoring 1, else no-op (it does NOT
lock the piece). -/
def softDrop (state : Tetris3DGameState) : Tetris3DGameState :=
  match state.currentPiece with
  | none => state
  | some p =>
    let newPiece := { p with position :=
      ⟨p.position.x, p.position.y - 1, p.position.z⟩ }
    if isValidPosition state newPiece then
      { state with currentPiece := some newPiece, score := state.score + 1 }
    else state

/-- The descent loop of `hardDrop`.  Each iteration moves the pivot one
cell down while the moved piece stays valid; valid positions keep every
cell's `y` nonnegative, so the structural fuel passed by `hardDrop`
strictly exceeds the possible number of iterations. -/
def hardDropAux (state : Tetris3DGameState) (piece : FallingPiece3D)
    (dist : Int) : Nat → FallingPiece3D × Int
  | 0 => (piece, dist)
  | fuel + 1 =>
    let down := { piece with position :=
      ⟨piece.position.x, piece.position.y - 1, piece.position.z⟩ }
    if isValidPosition state down then hardDropAux state down (dist + 1) fuel
    else (piece, dist)

/-- `hardDrop`: drop to the floor scoring 2 per cell, then lock. -/
def hardDrop (r : Nat → Nat) (state : Tetris3DGameState) :
    Tetris3DGameState :=
  match state.currentPiece with
  | none => state
  | some p =>
    let res := hardDropAux state p 0 ((state.height + p.position.y).toNat + 8)
    lockPiece r { state with
      currentPiece := some res.1, score := state.score + res.2 * 2 }

/-- `tick`: move down one cell if free, otherwise lock. -/
def tick (r : Nat → Nat) (state : Tetris3DGameState) : Tetris3DGameState :=
  match state.currentPiece with
  | none => state
  | some p =>
    if state.isPaused then state
    else
      let newPiece := { p with position :=
        ⟨p.position.x, p.position.y - 1, p.position.z⟩ }
      if isValidPosition state newPiece then
        { state with currentPiece := some newPiece }
      else lockPiece r state

/-- `holdPiece`: swap with the held piece (drawing a fresh piece from
the stream when nothing is held yet). -/
def holdPiece (r : Nat → Nat) (state : Tetris3DGameState) :
    Tetris3DGameState :=
  match state.currentPiece with
  | none => state
  | some p =>
    if !state.canHold then state
    else
      match state.heldPiece with
      | some held =>
        { state with
          currentPiece := some (spawnPiece held),
          heldPiece := some p.type,
          canHold := false }
      | none =>
        { state with
          currentPiece := some (spawnPiece state.nextPiece),
          heldPiece := some p.type,
          nextPiece := randomTetracube r,
          canHold := false }

/-- `Tetris3DGame.applyAction`. -/
def tetrisApplyAction (r : Nat → Nat) (state : Tetris3DGameState)
    (action : Tetris3DAction) : Tetris3DGameState :=
  match action with
  | .move payload => movePiece state payload
  | .rotate payload => rotatePiece state payload
  | .drop .hard => hardDrop r state
  | .drop .soft => softDrop state
  | .tick => tick r state
  | .hold => holdPiece r state
  | .pause => { state with isPaused := true }
  | .resume => { state with isPaused := false }

/-! ## C8: locking behaviour when the piece cannot move down -/

/-- A Tetris state whose I-piece rests on the floor of an empty grid. -/
def tetrisBlockedState : Tetris3DGameState :=
  { grid := List.replicate 12 (List.replicate 6 (List.replicate 6
      ⟨false, ""⟩)),
    currentPiece := some ⟨.I, ⟨1, 0, 1⟩, 0, 0, 0⟩,
    nextPiece := .O, heldPiece := none, canHold := true,
    score := 0, level := 1, layersCleared := 0, fallSpeed := 1000,
    isGameOver := false, isPaused := false,
    width := 6, depth := 6, height := 12 }

/-- C8 counterexample.  With the current piece unable to move down,
`drop`-`soft` returns the state unchanged — it does not lock — whereas
`tick` locks the piece (the two actions produce different states). -/
theorem tetris_softDrop_blocked_does_not_lock :
    tetrisApplyAction (fun _ => 0) tetrisBlockedState (.drop .soft) =
      tetrisBlockedState ∧
    tetrisApplyAction (fun _ => 0) tetrisBlockedState (.drop .soft) ≠
      tetrisApplyAction (fun _ => 0) tetrisBlockedState .tick := by
  constructor
  · decide
  · decide

/-- C8 amended: when the current piece cannot move down one cell, the
`tick` action locks it — stamps its cells, clears complete layers and
spawns the next piece, i.e. performs exactly the `lockPiece`
transition — while `drop`-`soft` is a defensive no-op that returns the
state unchanged. -/
theorem tetris_blocked_tick_locks_softDrop_noop
    (r : Nat → Nat) (s : Tetris3DGameState) (p : FallingPiece3D)
    (hp : s.currentPiece = some p)
    (hpause : s.isPaused = false)
    (hblocked : isValidPosition s { p with position :=
      ⟨p.position.x, p.position.y - 1, p.position.z⟩ } = false) :
    tetrisApplyAction r s .tick = lockPiece r s ∧
    tetrisApplyAction r s (.drop .soft) = s := by
  constructor
  · show tick r s = lockPiece r s
    unfold tick
    rw [hp]
    dsimp only
    rw [if_neg (by simp [hpause]), if_neg (by simp [hblocked])]
  · show softDrop s = s
    unfold softDrop
    rw [hp]
    dsimp only
    rw [if_neg (by simp [hblocked])]

/-- Witness for the amended C8 on the concrete blocked state. -/
theorem tetris_blocked_tick_locks_witness :
    tetrisApplyAction (fun _ => 0) tetrisBlockedState .tick =
      lockPiece (fun _ => 0) tetrisBlockedState ∧
    tetrisApplyAction (fun _ => 0) tetrisBlockedState (.drop .soft) =
      tetrisBlockedState :=
  tetris_blocked_tick_locks_softDrop_noop (fun _ => 0) tetrisBlockedState
    ⟨.I, ⟨1, 0, 1⟩, 0, 0, 0⟩ rfl rfl (by decide)

/-! ## Position-keyed maps

Minesweeper and Nonogram store their cells in a JS `Map` keyed by the
injective string `posKey(p) = "face-x-y"`; the model keys the map by the
position itself.  `Map.get` returns the value at a key, `Map.set`
replaces the value of an existing key in place (keeping its slot in the
iteration order) and appends a fresh key at the end. -/

/-- `Map.get`. -/
def mapGet {β : Type} (m : List (CubePosition × β)) (k : CubePosition) :
    Option β :=
  (m.find? fun e => decide (e.1 = k)).map (·.2)

/-- `Map.set`. -/
def mapSet {β : Type} (m : List (CubePosition × β)) (k : CubePosition)
    (v : β) : List (CubePosition × β) :=
  if m.any fun e => decide (e.1 = k) then
    m.map fun e => if e.1 = k then (k, v) else e
  else m ++ [(k, v)]

/-- The key list of a map, in iteration order. -/
def mapKeys {β : Type} (m : List (CubePosition × β)) : List CubePosition :=
  m.map Prod.fst

/-- `countValP q m` counts the entries whose value satisfies `q`. -/
def countValP {β : Type} (q : β → Bool) (m : List (CubePosition × β)) :
    Nat :=
  m.countP fun e => q e.2

lemma mapGet_some_mem_keys {β : Type} {k : CubePosition} :
    ∀ {m : List (CubePosition × β)} {c : β}, mapGet m k = some c →
      (m.any fun e => decide (e.1 = k)) = true := by
  intro m
  induction m with
  | nil => intro c h; cases h
  | cons a m ih =>
    intro c h
    by_cases ha : a.1 = k
    · simp [List.any_cons, ha]
    · have h' : mapGet m k = some c := by
        simpa [mapGet, List.find?, decide_eq_false ha] using h
      simp [List.any_cons, ih h']

lemma mapGet_isSome_iff_mem_keys {β : Type}
    (m : List (CubePosition × β)) (k : CubePosition) :
    (mapGet m k).isSome = true ↔ k ∈ mapKeys m := by
  induction m with
  | nil => simp [mapGet, mapKeys, List.find?]
  | cons a m ih =>
    by_cases ha : a.1 = k
    · simp [mapGet, mapKeys, List.find?, ha]
    · simp only [mapGet, List.find?, decide_eq_false ha, Bool.false_eq_true,
        mapKeys, List.map, List.mem_cons]
      rw [show ((m.find? fun e => decide (e.1 = k)).map (·.2)).isSome =
            (mapGet m k).isSome from rfl, ih]
      constructor
      · exact Or.inr
      · rintro (rfl | hh)
        · exact absurd rfl ha
        · exact hh

/-- Master lemma for `Map.set` on a present key of a map with distinct
keys: value replaced, other keys untouched, key list unchanged, and the
value-predicate count adjusted by the replaced entry. -/
lemma mapSet_present_spec {β : Type} (q : β → Bool) (k : CubePosition)
    (v : β) :
    ∀ (m : List (CubePosition × β)) (c : β), (mapKeys m).Nodup →
      mapGet m k = some c →
      mapGet (mapSet m k v) k = some v ∧
      (∀ k', k' ≠ k → mapGet (mapSet m k v) k' = mapGet m k') ∧
      mapKeys (mapSet m k v) = mapKeys m ∧
      countValP q (mapSet m k v) + (if q c then 1 else 0) =
        countValP q m + (if q v then 1 else 0) := by
  intro m
  induction m with
  | nil => intro c _ h; cases h
  | cons a m ih =>
    intro c hnd hget
    have hset : mapSet (a :: m) k v =
        (a :: m).map fun e => if e.1 = k then (k, v) else e := by
      unfold mapSet
      rw [if_pos (mapGet_some_mem_keys hget)]
    by_cases ha : a.1 = k
    · have hc : a.2 = c := by
        simpa [mapGet, List.find?, ha] using hget
      have hnotin : ∀ e ∈ m, e.1 ≠ k := by
        intro e he hek
        have : k ∈ mapKeys m := hek ▸ List.mem_map.2 ⟨e, he, rfl⟩
        rw [mapKeys, List.map_cons, List.nodup_cons, ha] at hnd
        exact hnd.1 this
      have hmapid : (m.map fun e => if e.1 = k then (k, v) else e) = m := by
        rw [List.map_congr_left fun e he => if_neg (hnotin e he)]
        exact List.map_id m
      rw [hset, List.map_cons, if_pos ha, hmapid]
      refine ⟨by simp [mapGet, List.find?], ?_, ?_, ?_⟩
      · intro k' hk'
        have h1 : ¬((k, v).1 = k') := fun hh => hk' hh.symm
        have h2 : ¬(a.1 = k') := by
          rw [ha]
          exact fun hh => hk' hh.symm
        simp [mapGet, List.find?, decide_eq_false h1, decide_eq_false h2]
      · simp [mapKeys, ha]
      · subst hc
        simp only [countValP, List.countP_cons]
        split_ifs <;> omega
    · have hget' : mapGet m k = some c := by
        simpa [mapGet, List.find?, decide_eq_false ha] using hget
      have hnd' : (mapKeys m).Nodup := by
        rw [mapKeys, List.map_cons, List.nodup_cons] at hnd
        exact hnd.2
      obtain ⟨ih1, ih2, ih3, ih4⟩ := ih c hnd' hget'
      have hsetm : mapSet m k v =
          m.map fun e => if e.1 = k then (k, v) else e := by
        unfold mapSet
        rw [if_pos (mapGet_some_mem_keys hget')]
      rw [hset, List.map_cons, if_neg ha]
      rw [hsetm] at ih1 ih2 ih3 ih4
      refine ⟨?_, ?_, ?_, ?_⟩
      · simpa [mapGet, List.find?, decide_eq_false ha] using ih1
      · intro k' hk'
        by_cases ha' : a.1 = k'
        · simp [mapGet, List.find?, ha']
        · simpa [mapGet, List.find?, decide_eq_false ha'] using ih2 k' hk'
      · simpa [mapKeys] using ih3
      · simp only [countValP, List.countP_cons] at ih4 ⊢
        split_ifs at ih4 ⊢ <;> omega

/-! ## Fisher-Yates shuffle (`placeMines`) -/

/-- The slot swap `[a[i], a[j]] = [a[j], a[i]]` of the shuffle loop. -/
def listSwap {α : Type} (l : List α) (i j : Nat) : List α :=
  match l.get? i, l.get? j with
  | some a, some b => (l.set i b).set j a
  | _, _ => l

/-- The Fisher-Yates loop of `placeMines`: `i` runs from `length - 1`
down to `1`, and draw `i` gives `j = ⌊random * (i+1)⌋ ∈ [0, i]`,
modelled as `r i % (i + 1)`. -/
def fyShuffle {α : Type} (r : Nat → Nat) (l : List α) : List α :=
  ((List.range (l.length - 1)).reverse.map (· + 1)).foldl
    (fun acc i => listSwap acc i (r i % (i + 1))) l

lemma count_set_add {α : Type} [DecidableEq α] :
    ∀ (l : List α) (n : Nat) (b x : α),
      (l.set n b).count x + (if l[n]? = some x then 1 else 0) =
        l.count x +
          (if (l[n]?).isSome then (if b = x then 1 else 0) else 0) := by
  intro l
  induction l with
  | nil => intro n b x; simp
  | cons a l ih =>
    intro n b x
    cases n with
    | zero =>
      simp only [List.set_cons_zero, List.getElem?_cons_zero,
        Option.isSome_some, if_true, List.count_cons, beq_iff_eq,
        Option.some.injEq]
      split_ifs <;> omega
    | succ n =>
      simp only [List.set_cons_succ, List.getElem?_cons_succ,
        List.count_cons, beq_iff_eq]
      have := ih n b x
      split_ifs at this ⊢ <;> omega

lemma listSwap_perm {α : Type} [DecidableEq α] (l : List α) (i j : Nat) :
    (listSwap l i j).Perm l := by
  unfold listSwap
  cases hi : l.get? i with
  | none => exact List.Perm.refl l
  | some a =>
    cases hj : l.get? j with
    | none => exact List.Perm.refl l
    | some b =>
      show ((l.set i b).set j a).Perm l
      rw [List.get?_eq_getElem?] at hi hj
      rw [List.perm_iff_count]
      intro x
      have c1 := count_set_add l i b x
      have c2 := count_set_add (l.set i b) j a x
      have hsj : (l.set i b)[j]? = some b := by
        rcases eq_or_ne i j with rfl | hij
        · have hlt : i < l.length := by
            have := List.getElem?_eq_some.1 hi
            exact this.1
          rw [List.getElem?_set_self (by simpa using hlt)]
        · rw [List.getElem?_set_ne hij]
          exact hj
      rw [hi] at c1
      rw [hsj] at c2
      simp only [Option.isSome_some, if_true, Option.some.injEq] at c1 c2
      split_ifs at c1 c2 <;> omega

lemma foldl_listSwap_perm {α : Type} [DecidableEq α] (r : Nat → Nat) :
    ∀ (idxs : List Nat) (l : List α),
      (idxs.foldl (fun acc i => listSwap acc i (r i % (i + 1))) l).Perm l := by
  intro idxs
  induction idxs with
  | nil => exact fun l => List.Perm.refl l
  | cons i idxs ih =>
    intro l
    exact (ih _).trans (listSwap_perm l i (r i % (i + 1)))

/-- The Fisher-Yates shuffle permutes its input. -/
lemma fyShuffle_perm {α : Type} [DecidableEq α] (r : Nat → Nat)
    (l : List α) : (fyShuffle r l).Perm l :=
  foldl_listSwap_perm r _ l

/-- A duplicate-free list included in another is no longer than it. -/
lemma nodup_subset_length {α : Type} [DecidableEq α] :
    ∀ (l l' : List α), l.Nodup → (∀ x ∈ l, x ∈ l') →
      l.length ≤ l'.length := by
  intro l
  induction l with
  | nil => exact fun l' _ _ => Nat.zero_le _
  | cons a l ih =>
    intro l' hnd hsub
    have ha : a ∈ l' := hsub a (List.mem_cons_self a l)
    have hsub' : ∀ x ∈ l, x ∈ l'.erase a := by
      intro x hx
      refine (List.mem_erase_of_ne ?_).2 (hsub x (List.mem_cons_of_mem a hx))
      intro hxa
      exact (List.nodup_cons.1 hnd).1 (hxa ▸ hx)
    have := ih (l'.erase a) (List.nodup_cons.1 hnd).2 hsub'
    have hel : (l'.erase a).length = l'.length - 1 :=
      List.length_erase_of_mem ha
    have : 0 < l'.length := List.length_pos_of_mem ha
    simp only [List.length_cons]
    omega

lemma length_filter_add_not {α : Type} (p : α → Bool) :
    ∀ (l : List α),
      (l.filter p).length + (l.filter fun a => !(p a)).length = l.length := by
  intro l
  induction l with
  | nil => rfl
  | cons a l ih =>
    by_cases h : p a = true
    · simp [List.filter_cons, h, ih]
      omega
    · simp only [Bool.not_eq_true] at h
      simp [List.filter_cons, h, ih]
      omega

/-! ## Minesweeper (`MinesweeperGame.ts`) -/

/-- One Minesweeper cell. -/
structure MinesweeperCell where
  isMine : Bool
  isRevealed : Bool
  isFlagged : Bool
  adjacentMines : Int
deriving DecidableEq, Repr

/-- The cell map (`Map<string, MinesweeperCell>`). -/
abbrev MinesweeperCells := List (CubePosition × MinesweeperCell)

/-- Minesweeper game state; the constant inherited `pieces`/`winner`
fields are omitted. -/
structure MinesweeperGameState where
  cells : MinesweeperCells
  mineCount : Int
  flagCount : Int
  revealedCount : Int
  isFirstClick : Bool
  isGameOver : Bool
  isWon : Bool
  gridSize : Int
  totalMines : Int
  explodedMine : Option CubePosition
deriving DecidableEq, Repr

/-- Minesweeper actions. -/
inductive MinesweeperAction where
  | reveal (payload : CubePosition)
  | flag (payload : CubePosition)
  | chord (payload : CubePosition)
deriving DecidableEq, Repr

/-- `ALL_FACES`, in the iteration order used by `init`. -/
def ALL_FACES : List CubeFace := [FRONT, BACK, LEFT, RIGHT, TOP, BOTTOM]

/-- The cell map built by `init`: every face × gridSize² cell unmined,
unrevealed, unflagged, with count 0, in loop order. -/
def minesweeperInitCells (g : Int) : MinesweeperCells :=
  ALL_FACES.flatMap fun face =>
    (List.range g.toNat).flatMap fun x =>
      (List.range g.toNat).map fun y =>
        (⟨face, Int.ofNat x, Int.ofNat y⟩, ⟨false, false, false, 0⟩)

/-- `placeMines`: Fisher-Yates shuffle the keys outside the safe zone
(clicked cell plus its cube-aware neighbors) drawing from the
`Math.random()` stream `r`, mine the first `totalMines` of them, then
recompute every non-mine cell's adjacent-mine count.  The `get(key)!`
of the source is always a hit (keys come from the map); the model's
`none` fallbacks are unreachable.  The mine-placing step: -/
def mineStep (m : MinesweeperCells) (k : CubePosition) :
    MinesweeperCells :=
  match mapGet m k with
  | some cell => mapSet m k { cell with isMine := true }
  | none => m

/-- The adjacent-count recomputation step of `placeMines`: store the
number of mined cube-aware neighbors on each non-mine cell. -/
def adjacentStep (gridSize : Int) (m : MinesweeperCells)
    (k : CubePosition) : MinesweeperCells :=
  match mapGet m k with
  | some cell =>
    if cell.isMine then m
    else
      mapSet m k
        { cell with
          adjacentMines := Int.ofNat ((getAllNeighbors k gridSize).countP
            fun nb => ((mapGet m nb).map (·.isMine)).getD false) }
  | none => m

def placeMines (r : Nat → Nat) (cells : MinesweeperCells)
    (safePosition : CubePosition) (gridSize totalMines : Int) :
    MinesweeperCells :=
  let safeNeighbors := getAllNeighbors safePosition gridSize
  let safeZone := safePosition :: safeNeighbors
  let availablePositions :=
    (mapKeys cells).filter fun k => !(decide (k ∈ safeZone))
  let shuffled := fyShuffle r availablePositions
  let minePositions := shuffled.take totalMines.toNat
  let withMines := minePositions.foldl mineStep cells
  (mapKeys withMines).foldl (adjacentStep gridSize) withMines

/-- The iterative flood-fill loop of `revealCell`.  `toReveal.pop()`
takes from the array's end; `visited` records processed keys before the
cell checks, exactly as in the source.  The structural `fuel` only
bounds the iteration count: each iteration pops one entry and entries
are pushed only for freshly visited zero-count cells (at most 8 each),
so the fuel passed by `revealCell` exceeds anything the loop can
consume and the `fuel = 0` fallback is unreachable. -/
def floodRevealLoop (gridSize : Int) :
    Nat → List CubePosition → List CubePosition → MinesweeperCells →
    Nat → MinesweeperCells × Nat
  | 0, _, _, cells, revealedCount => (cells, revealedCount)
  | _ + 1, [], _, cells, revealedCount => (cells, revealedCount)
  | fuel + 1, p :: rest0, visited, cells, revealedCount =>
    let current := (p :: rest0).getLast (List.cons_ne_nil p rest0)
    let rest := (p :: rest0).dropLast
    if decide (current ∈ visited) then
      floodRevealLoop gridSize fuel rest visited cells revealedCount
    else
      let visited2 := current :: visited
      match mapGet cells current with
      | none => floodRevealLoop gridSize fuel rest visited2 cells revealedCount
      | some cell =>
        if cell.isRevealed || cell.isFlagged || cell.isMine then
          floodRevealLoop gridSize fuel rest visited2 cells revealedCount
        else
          let cells2 := mapSet cells current { cell with isRevealed := true }
          if cell.adjacentMines = 0 then
            let neighbors := getAllNeighbors current gridSize
            let toPush := neighbors.filter fun nb => !(decide (nb ∈ visited2))
            floodRevealLoop gridSize fuel (rest ++ toPush) visited2 cells2
              (revealedCount + 1)
          else
            floodRevealLoop gridSize fuel rest visited2 cells2
              (revealedCount + 1)

/-- `revealCell`: reveal one cell, flood-filling zero regions; returns
the new cells, whether a mine was hit, and how many cells were
revealed. -/
def revealCell (cells : MinesweeperCells) (position : CubePosition)
    (gridSize : Int) : MinesweeperCells × Bool × Nat :=
  match mapGet cells position with
  | none => (cells, false, 0)
  | some cell =>
    if cell.isRevealed || cell.isFlagged then (cells, false, 0)
    else if cell.isMine then
      (mapSet cells position { cell with isRevealed := true }, true, 1)
    else
      let res := floodRevealLoop gridSize (9 * (cells.length + 1) + 1)
        [position] [] cells 0
      (res.1, false, res.2)

/-- `chordReveal`: when the flagged-neighbor count matches the number,
reveal all unflagged unrevealed neighbors, tracking an exploded mine. -/
def chordReveal (cells : MinesweeperCells) (position : CubePosition)
    (gridSize : Int) :
    MinesweeperCells × Bool × Nat × Option CubePosition :=
  match mapGet cells position with
  | none => (cells, false, 0, none)
  | some cell =>
    if !cell.isRevealed || cell.adjacentMines = 0 then (cells, false, 0, none)
    else
      let neighbors := getAllNeighbors position gridSize
      let flagCount := neighbors.countP fun nb =>
        ((mapGet cells nb).map (·.isFlagged)).getD false
      if decide (Int.ofNat flagCount ≠ cell.adjacentMines) then
        (cells, false, 0, none)
      else
        neighbors.foldl (fun acc nb =>
          match mapGet acc.1 nb with
          | some nc =>
            if !nc.isFlagged && !nc.isRevealed then
              let res := revealCell acc.1 nb gridSize
              (res.1, acc.2.1 || res.2.1, acc.2.2.1 + res.2.2,
               if res.2.1 then some nb else acc.2.2.2)
            else acc
          | none => acc) (cells, false, 0, none)

/-- `MinesweeperGame.isValidAction`. -/
def minesweeperIsValidAction (state : MinesweeperGameState)
    (action : MinesweeperAction) : Bool :=
  if state.isGameOver then false
  else
    match action with
    | .reveal p =>
      match mapGet state.cells p with
      | none => false
      | some cell => !cell.isRevealed && !cell.isFlagged
    | .flag p =>
      match mapGet state.cells p with
      | none => false
      | some cell => !cell.isRevealed
    | .chord p =>
      match mapGet state.cells p with
      | none => false
      | some cell => cell.isRevealed && decide (cell.adjacentMines > 0)

/-- `MinesweeperGame.applyAction`; `r` is the `Math.random()` stream
consumed by the deferred first-click mine placement. -/
def minesweeperApplyAction (r : Nat → Nat) (state : MinesweeperGameState)
    (action : MinesweeperAction) : MinesweeperGameState :=
  if state.isGameOver then state
  else
    match action with
    | .reveal payload =>
      let cells :=
        if state.isFirstClick then
          placeMines r state.cells payload state.gridSize state.totalMines
        else state.cells
      let newFirstClick :=
        if state.isFirstClick then false else state.isFirstClick
      let result := revealCell cells payload state.gridSize
      let newRevealedCount := state.revealedCount + Int.ofNat result.2.2
      let totalCells : Int := 6 * state.gridSize * state.gridSize
      let nonMineCells := totalCells - state.totalMines
      let isWon := decide (newRevealedCount ≥ nonMineCells)
      { state with
        cells := result.1,
        mineCount := state.totalMines,
        revealedCount := newRevealedCount,
        isFirstClick := newFirstClick,
        isGameOver := result.2.1 || isWon,
        isWon := isWon && !result.2.1,
        explodedMine := if result.2.1 then some payload else none }
    | .flag payload =>
      match mapGet state.cells payload with
      | none => state
      | some cell =>
        if cell.isRevealed then state
        else
          let newFlagged := !cell.isFlagged
          { state with
            cells := mapSet state.cells payload
              { cell with isFlagged := newFlagged },
            flagCount := state.flagCount + (if newFlagged then 1 else -1) }
    | .chord payload =>
      let result := chordReveal state.cells payload state.gridSize
      let newRevealedCount := state.revealedCount + Int.ofNat result.2.2.1
      let totalCells : Int := 6 * state.gridSize * state.gridSize
      let nonMineCells := totalCells - state.totalMines
      let isWon := decide (newRevealedCount ≥ nonMineCells)
      { state with
        cells := result.1,
        revealedCount := newRevealedCount,
        isGameOver := result.2.1 || isWon,
        isWon := isWon && !result.2.1,
        explodedMine := result.2.2.2 }

/-! ## C10: flagging a revealed or missing cell is a no-op -/

/-- C10.  On any non-game-over state, a `flag` action whose target cell
is already revealed, or absent from the cell map, returns the state
unchanged. -/
theorem minesweeper_flag_invalid_noop (r : Nat → Nat)
    (s : MinesweeperGameState) (p : CubePosition)
    (hgo : s.isGameOver = false)
    (hinv : mapGet s.cells p = none ∨
      ∃ c, mapGet s.cells p = some c ∧ c.isRevealed = true) :
    minesweeperApplyAction r s (.flag p) = s := by
  unfold minesweeperApplyAction
  rw [if_neg (by simp [hgo])]
  dsimp only
  rcases hinv with h | ⟨c, hc, hrev⟩
  · rw [h]
  · rw [hc]
    dsimp only
    rw [if_pos hrev]

/-- A one-cell state with the cell already revealed (C10 witness). -/
def minesweeperRevealedCellState : MinesweeperGameState :=
  { cells := [(⟨FRONT, 0, 0⟩, ⟨false, true, false, 0⟩)],
    mineCount := 0, flagCount := 0, revealedCount := 1,
    isFirstClick := false, isGameOver := false, isWon := false,
    gridSize := 8, totalMines := 60, explodedMine := none }

/-- Witness for C10 on a concrete revealed cell. -/
theorem minesweeper_flag_invalid_noop_witness :
    minesweeperApplyAction (fun _ => 0) minesweeperRevealedCellState
      (.flag ⟨FRONT, 0, 0⟩) = minesweeperRevealedCellState :=
  minesweeper_flag_invalid_noop (fun _ => 0) minesweeperRevealedCellState
    ⟨FRONT, 0, 0⟩ rfl
    (Or.inr ⟨⟨false, true, false, 0⟩, rfl, rfl⟩)

/-! ## C7: safe first click -/

/-- A `Map.get` hit is an entry of the map. -/
lemma mapGet_entry_mem {β : Type} :
    ∀ {m : List (CubePosition × β)} {k : CubePosition} {c : β},
      mapGet m k = some c → (k, c) ∈ m := by
  intro m
  induction m with
  | nil => intro k c h; cases h
  | cons a m ih =>
    intro k c h
    by_cases ha : a.1 = k
    · have hc : a.2 = c := by simpa [mapGet, List.find?, ha] using h
      have hkc : (k, c) = a := by rw [← ha, ← hc]
      rw [hkc]
      exact List.mem_cons_self a m
    · have h' : mapGet m k = some c := by
        simpa [mapGet, List.find?, decide_eq_false ha] using h
      exact List.mem_cons_of_mem a (ih h')

/-- A key of the map has a value. -/
lemma mapGet_mem_keys_exists {β : Type} {m : List (CubePosition × β)}
    {k : CubePosition} (h : k ∈ mapKeys m) : ∃ c, mapGet m k = some c :=
  Option.isSome_iff_exists.1 ((mapGet_isSome_iff_mem_keys m k).2 h)

/-- Every collected neighbor is a candidate value of one of the deltas. -/
lemma foldl_addNeighbor_subset (p : CubePosition) (g : Int) :
    ∀ (ds : List Delta) (acc : List CubePosition) (q : CubePosition),
      q ∈ ds.foldl (addNeighbor p g) acc →
      q ∈ acc ∨ ∃ d ∈ ds, neighborCand p g d = some q := by
  intro ds
  induction ds with
  | nil => intro acc q h; exact Or.inl h
  | cons d ds ih =>
    intro acc q h
    rcases ih (addNeighbor p g acc d) q h with hacc | ⟨d', hd', hc⟩
    · cases hc2 : neighborCand p g d with
      | none => simp only [addNeighbor, hc2] at hacc; exact Or.inl hacc
      | some n =>
        simp only [addNeighbor, hc2] at hacc
        by_cases hany : (acc.any fun q' => positionsEqual q' n) = true
        · rw [if_pos hany] at hacc
          exact Or.inl hacc
        · rw [if_neg hany] at hacc
          rcases List.mem_append.1 hacc with h1 | h2
          · exact Or.inl h1
          · have hqn : q = n := by simpa using h2
            exact Or.inr ⟨d, List.mem_cons_self d ds, hqn ▸ hc2⟩
    · exact Or.inr ⟨d', List.mem_cons_of_mem d hd', hc⟩

/-- The accumulator grows by at most one per delta. -/
lemma foldl_addNeighbor_length_le (p : CubePosition) (g : Int) :
    ∀ (ds : List Delta) (acc : List CubePosition),
      (ds.foldl (addNeighbor p g) acc).length ≤ acc.length + ds.length := by
  intro ds
  induction ds with
  | nil => intro acc; simp
  | cons d ds ih =>
    intro acc
    rw [List.foldl_cons]
    have hstep : (addNeighbor p g acc d).length ≤ acc.length + 1 := by
      unfold addNeighbor
      split
      · omega
      · split_ifs
        · omega
        · simp
    have := ih (addNeighbor p g acc d)
    simp only [List.length_cons]
    omega

/-- At most 8 neighbors are ever returned. -/
lemma getAllNeighbors_length_le (p : CubePosition) (g : Int) :
    (getAllNeighbors p g).length ≤ 8 := by
  have := foldl_addNeighbor_length_le p g NEIGHBOR_DELTAS []
  simpa [getAllNeighbors] using this

/-- Any diagonal neighbor the wrapper returns is in range. -/
lemma getDiagonalNeighbor_valid {p : CubePosition} {g : Int} {d : Delta}
    {q : CubePosition}
    (hp : 0 ≤ p.x ∧ p.x < g ∧ 0 ≤ p.y ∧ p.y < g)
    (hdx : d.dx = 1 ∨ d.dx = -1) (hdy : d.dy = 1 ∨ d.dy = -1)
    (hc : getDiagonalNeighbor p d g = some q) :
    0 ≤ q.x ∧ q.x < g ∧ 0 ≤ q.y ∧ q.y < g := by
  simp only [getDiagonalNeighbor] at hc
  split_ifs at hc
  all_goals
    first
    | exact Option.noConfusion hc
    | (cases hc
       dsimp only
       omega)
    | (split at hc
       · split_ifs at hc with hr
         cases hc
         dsimp only
         omega
       · exact Option.noConfusion hc)
    | (cases hc
       have hv1 := movePosition_total g p ⟨d.dx, 0⟩ hp (by
         rcases hdx with h | h
         · exact Or.inr (Or.inr (Or.inl (by rw [h])))
         · exact Or.inr (Or.inr (Or.inr (by rw [h]))))
       exact movePosition_total g (movePosition p ⟨d.dx, 0⟩ g) ⟨0, d.dy⟩ hv1 (by
         rcases hdy with h | h
         · exact Or.inl (by rw [h])
         · exact Or.inr (Or.inl (by rw [h]))))

/-- Any candidate neighbor of an in-range position is in range. -/
lemma neighborCand_valid {p : CubePosition} {g : Int} {d : Delta}
    {q : CubePosition}
    (hp : 0 ≤ p.x ∧ p.x < g ∧ 0 ≤ p.y ∧ p.y < g)
    (hd : d ∈ NEIGHBOR_DELTAS) (hc : neighborCand p g d = some q) :
    0 ≤ q.x ∧ q.x < g ∧ 0 ≤ q.y ∧ q.y < g := by
  unfold neighborCand at hc
  have hd8 : d = ⟨0, 1⟩ ∨ d = ⟨0, -1⟩ ∨ d = ⟨-1, 0⟩ ∨ d = ⟨1, 0⟩ ∨
      d = ⟨-1, 1⟩ ∨ d = ⟨1, 1⟩ ∨ d = ⟨-1, -1⟩ ∨ d = ⟨1, -1⟩ := by
    simpa [NEIGHBOR_DELTAS] using hd
  rcases hd8 with rfl | rfl | rfl | rfl | rfl | rfl | rfl | rfl
  · rw [if_pos (by decide)] at hc
    injection hc with hq
    exact hq ▸ movePosition_total g p _ hp (Or.inl rfl)
  · rw [if_pos (by decide)] at hc
    injection hc with hq
    exact hq ▸ movePosition_total g p _ hp (Or.inr (Or.inl rfl))
  · rw [if_pos (by decide)] at hc
    injection hc with hq
    exact hq ▸ movePosition_total g p _ hp (Or.inr (Or.inr (Or.inr rfl)))
  · rw [if_pos (by decide)] at hc
    injection hc with hq
    exact hq ▸ movePosition_total g p _ hp (Or.inr (Or.inr (Or.inl rfl)))
  · rw [if_neg (by decide)] at hc
    exact getDiagonalNeighbor_valid hp (Or.inr rfl) (Or.inl rfl) hc
  · rw [if_neg (by decide)] at hc
    exact getDiagonalNeighbor_valid hp (Or.inl rfl) (Or.inl rfl) hc
  · rw [if_neg (by decide)] at hc
    exact getDiagonalNeighbor_valid hp (Or.inr rfl) (Or.inr rfl) hc
  · rw [if_neg (by decide)] at hc
    exact getDiagonalNeighbor_valid hp (Or.inl rfl) (Or.inr rfl) hc

/-- Every neighbor of an in-range position is in range. -/
lemma getAllNeighbors_valid {p : CubePosition} {g : Int}
    (hp : 0 ≤ p.x ∧ p.x < g ∧ 0 ≤ p.y ∧ p.y < g) :
    ∀ q ∈ getAllNeighbors p g, 0 ≤ q.x ∧ q.x < g ∧ 0 ≤ q.y ∧ q.y < g := by
  intro q hq
  rcases foldl_addNeighbor_subset p g NEIGHBOR_DELTAS [] q hq with h | ⟨d, hd, hc⟩
  · cases h
  · exact neighborCand_valid hp hd hc

/-- The `init` key set is exactly the in-range positions. -/
lemma mem_minesweeperInitKeys {g : Int} {q : CubePosition} :
    q ∈ mapKeys (minesweeperInitCells g) ↔
      0 ≤ q.x ∧ q.x < g ∧ 0 ≤ q.y ∧ q.y < g := by
  simp only [mapKeys, minesweeperInitCells, List.mem_map, List.mem_flatMap,
    List.mem_range]
  constructor
  · rintro ⟨e, ⟨f, hf, x, hx, y, hy, rfl⟩, rfl⟩
    dsimp only
    simp only [Int.ofNat_eq_coe]
    omega
  · rintro ⟨h0, h1, h2, h3⟩
    refine ⟨(⟨q.face, q.x, q.y⟩, ⟨false, false, false, 0⟩),
      ⟨q.face, ?_, q.x.toNat, ?_, q.y.toNat, ?_, ?_⟩, rfl⟩
    · cases hq : q.face <;> simp [ALL_FACES]
    · omega
    · omega
    · simp only [Int.ofNat_eq_coe, Int.toNat_of_nonneg h0,
        Int.toNat_of_nonneg h2]

/-- The per-face key block of the `init` cell map. -/
def minesweeperFaceKeys (g : Int) (f : CubeFace) : List CubePosition :=
  (List.range g.toNat).flatMap fun x =>
    (List.range g.toNat).map fun y => ⟨f, Int.ofNat x, Int.ofNat y⟩

/-- The `init` keys are the six face blocks in `ALL_FACES` order. -/
lemma minesweeperInitKeys_eq (g : Int) :
    mapKeys (minesweeperInitCells g) =
      ALL_FACES.flatMap (minesweeperFaceKeys g) := by
  simp only [mapKeys, minesweeperInitCells, minesweeperFaceKeys,
    List.map_flatMap, List.map_map, Function.comp_def]
  rfl

/-- Everything in a face block lives on that face. -/
lemma faceKeys_face {g : Int} {f : CubeFace} {q : CubePosition}
    (h : q ∈ minesweeperFaceKeys g f) : q.face = f := by
  simp only [minesweeperFaceKeys, List.mem_flatMap, List.mem_map,
    List.mem_range] at h
  obtain ⟨x, hx, y, hy, rfl⟩ := h
  rfl

/-- Each face block is duplicate-free. -/
lemma nodup_faceKeys (g : Int) (f : CubeFace) :
    (minesweeperFaceKeys g f).Nodup := by
  rw [minesweeperFaceKeys, List.nodup_flatMap]
  constructor
  · intro x hx
    refine List.Nodup.map ?_ (List.nodup_range _)
    intro y1 y2 he
    have := congrArg CubePosition.y he
    simpa [Int.ofNat_eq_coe, Nat.cast_inj] using this
  · refine (List.pairwise_lt_range _).imp ?_
    intro x1 x2 hlt a ha1 ha2
    simp only [List.mem_map, List.mem_range] at ha1 ha2
    obtain ⟨y1, hy1, rfl⟩ := ha1
    obtain ⟨y2, hy2, he⟩ := ha2
    have := congrArg CubePosition.x he
    simp only [Int.ofNat_eq_coe, Nat.cast_inj] at this
    omega

/-- The `init` key list is duplicate-free. -/
lemma nodup_minesweeperInitKeys (g : Int) :
    (mapKeys (minesweeperInitCells g)).Nodup := by
  rw [minesweeperInitKeys_eq, List.nodup_flatMap]
  refine ⟨fun f _ => nodup_faceKeys g f, ?_⟩
  have hne : ALL_FACES.Pairwise (· ≠ ·) := by decide
  refine hne.imp ?_
  intro f1 f2 hne12 a ha1 ha2
  exact hne12 ((faceKeys_face ha1).symm.trans (faceKeys_face ha2))

/-- Mining a list of distinct, present, unmined keys: the mine count
grows by exactly the list length, other keys are untouched, and the key
list is unchanged. -/
lemma foldl_mineStep_spec :
    ∀ (ks : List CubePosition) (m : MinesweeperCells),
      (mapKeys m).Nodup → ks.Nodup →
      (∀ k ∈ ks, ∃ c, mapGet m k = some c ∧ c.isMine = false) →
      countValP (fun c => c.isMine) (ks.foldl mineStep m) =
        countValP (fun c => c.isMine) m + ks.length ∧
      (∀ q, q ∉ ks → mapGet (ks.foldl mineStep m) q = mapGet m q) ∧
      mapKeys (ks.foldl mineStep m) = mapKeys m := by
  intro ks
  induction ks with
  | nil => intro m _ _ _; exact ⟨by simp, fun q _ => rfl, rfl⟩
  | cons k ks ih =>
    intro m hnd hksnd hpre
    obtain ⟨c, hc, hcm⟩ := hpre k (List.mem_cons_self k ks)
    obtain ⟨g1, g2, g3, g4⟩ := mapSet_present_spec (fun c => c.isMine) k
      { c with isMine := true } m c hnd hc
    have hm1 : mineStep m k = mapSet m k { c with isMine := true } := by
      unfold mineStep
      rw [hc]
    have hnd1 : (mapKeys (mineStep m k)).Nodup := by
      rw [hm1, g3]; exact hnd
    have hk_notin : k ∉ ks := (List.nodup_cons.1 hksnd).1
    have hpre1 : ∀ k' ∈ ks, ∃ c', mapGet (mineStep m k) k' = some c' ∧
        c'.isMine = false := by
      intro k' hk'
      obtain ⟨c', hc', hcm'⟩ := hpre k' (List.mem_cons_of_mem k hk')
      have hne : k' ≠ k := fun he => hk_notin (he ▸ hk')
      exact ⟨c', by rw [hm1, g2 k' hne]; exact hc', hcm'⟩
    obtain ⟨i1, i2, i3⟩ := ih (mineStep m k) hnd1 (List.nodup_cons.1 hksnd).2 hpre1
    have hcnt1 : countValP (fun c => c.isMine) (mineStep m k) =
        countValP (fun c => c.isMine) m + 1 := by
      rw [hm1]
      dsimp only at g4
      rw [hcm] at g4
      simp only [Bool.false_eq_true, if_false, if_true] at g4
      omega
    refine ⟨?_, ?_, ?_⟩
    · rw [List.foldl_cons, i1, hcnt1, List.length_cons]
      omega
    · intro q hq
      have hq1 : q ∉ ks := fun h => hq (List.mem_cons_of_mem k h)
      have hq2 : q ≠ k := fun h => hq (h ▸ List.mem_cons_self k ks)
      rw [List.foldl_cons, i2 q hq1, hm1, g2 q hq2]
    · rw [List.foldl_cons, i3, hm1, g3]

/-- Replacing a present value by one with the same mine flag keeps the
mine count. -/
lemma mapSet_same_isMine_count (k : CubePosition) (v : MinesweeperCell)
    (m : MinesweeperCells) (c : MinesweeperCell)
    (hnd : (mapKeys m).Nodup) (hc : mapGet m k = some c)
    (hv : v.isMine = c.isMine) :
    countValP (fun x => x.isMine) (mapSet m k v) =
      countValP (fun x => x.isMine) m := by
  obtain ⟨-, -, -, g4⟩ := mapSet_present_spec (fun x => x.isMine) k v m c hnd hc
  rw [hv] at g4
  split_ifs at g4 <;> omega

/-- The adjacent-count pass never changes mine flags, keys, or the mine
count. -/
lemma foldl_adjacentStep_spec (g : Int) :
    ∀ (ks : List CubePosition) (m : MinesweeperCells), (mapKeys m).Nodup →
      (∀ q, (mapGet (ks.foldl (adjacentStep g) m) q).map (·.isMine) =
        (mapGet m q).map (·.isMine)) ∧
      mapKeys (ks.foldl (adjacentStep g) m) = mapKeys m ∧
      countValP (fun c => c.isMine) (ks.foldl (adjacentStep g) m) =
        countValP (fun c => c.isMine) m := by
  intro ks
  induction ks with
  | nil => intro m _; exact ⟨fun q => rfl, rfl, rfl⟩
  | cons k ks ih =>
    intro m hnd
    have hstep : (∀ q, (mapGet (adjacentStep g m k) q).map (·.isMine) =
          (mapGet m q).map (·.isMine)) ∧
        mapKeys (adjacentStep g m k) = mapKeys m ∧
        countValP (fun c => c.isMine) (adjacentStep g m k) =
          countValP (fun c => c.isMine) m := by
      unfold adjacentStep
      split
      next cell hget =>
        split_ifs with hm
        · exact ⟨fun q => rfl, rfl, rfl⟩
        · obtain ⟨g1, g2, g3, g4⟩ := mapSet_present_spec (fun c => c.isMine) k
            { cell with
              adjacentMines := Int.ofNat ((getAllNeighbors k g).countP
                fun nb => ((mapGet m nb).map (·.isMine)).getD false) }
            m cell hnd hget
          refine ⟨?_, g3, mapSet_same_isMine_count k _ m cell hnd hget rfl⟩
          intro q
          rcases eq_or_ne q k with rfl | hq
          · rw [g1, hget]
            rfl
          · rw [g2 q hq]
      next hget => exact ⟨fun q => rfl, rfl, rfl⟩
    obtain ⟨s1, s2, s3⟩ := hstep
    have hnd1 : (mapKeys (adjacentStep g m k)).Nodup := by
      rw [s2]; exact hnd
    obtain ⟨i1, i2, i3⟩ := ih (adjacentStep g m k) hnd1
    rw [List.foldl_cons]
    exact ⟨fun q => (i1 q).trans (s1 q), i2.trans s2, i3.trans s3⟩

/-- The flood-fill loop only flips `isRevealed` flags: mine flags, keys
and the mine count are preserved. -/
lemma floodRevealLoop_preserves (g : Int) :
    ∀ (fuel : Nat) (stack visited : List CubePosition)
      (m : MinesweeperCells) (n : Nat), (mapKeys m).Nodup →
      (∀ q, (mapGet (floodRevealLoop g fuel stack visited m n).1 q).map
          (·.isMine) = (mapGet m q).map (·.isMine)) ∧
      mapKeys (floodRevealLoop g fuel stack visited m n).1 = mapKeys m ∧
      countValP (fun c => c.isMine)
          (floodRevealLoop g fuel stack visited m n).1 =
        countValP (fun c => c.isMine) m := by
  intro fuel
  induction fuel with
  | zero => intro stack visited m n hnd; exact ⟨fun q => rfl, rfl, rfl⟩
  | succ fuel ih =>
    intro stack visited m n hnd
    cases stack with
    | nil => exact ⟨fun q => rfl, rfl, rfl⟩
    | cons p rest0 =>
      simp only [floodRevealLoop]
      split
      · exact ih _ _ m n hnd
      · split
        next hget => exact ih _ _ m n hnd
        next cell hget =>
          split_ifs with hskip hadj
          · exact ih _ _ m n hnd
          · obtain ⟨g1, g2, g3, g4⟩ := mapSet_present_spec (fun c => c.isMine)
              ((p :: rest0).getLast (List.cons_ne_nil p rest0))
              { cell with isRevealed := true } m cell hnd hget
            have hnd2 : (mapKeys (mapSet m
                ((p :: rest0).getLast (List.cons_ne_nil p rest0))
                { cell with isRevealed := true })).Nodup := by
              rw [g3]; exact hnd
            have hpt : ∀ q, (mapGet (mapSet m
                ((p :: rest0).getLast (List.cons_ne_nil p rest0))
                { cell with isRevealed := true }) q).map (·.isMine) =
                (mapGet m q).map (·.isMine) := by
              intro q
              rcases eq_or_ne q
                  ((p :: rest0).getLast (List.cons_ne_nil p rest0)) with rfl | hq
              · rw [g1, hget]
                rfl
              · rw [g2 q hq]
            have hcnt := mapSet_same_isMine_count
              ((p :: rest0).getLast (List.cons_ne_nil p rest0))
              { cell with isRevealed := true } m cell hnd hget rfl
            obtain ⟨i1, i2, i3⟩ := ih _ _ _ _ hnd2
            exact ⟨fun q => (i1 q).trans (hpt q), i2.trans g3, i3.trans hcnt⟩
          · obtain ⟨g1, g2, g3, g4⟩ := mapSet_present_spec (fun c => c.isMine)
              ((p :: rest0).getLast (List.cons_ne_nil p rest0))
              { cell with isRevealed := true } m cell hnd hget
            have hnd2 : (mapKeys (mapSet m
                ((p :: rest0).getLast (List.cons_ne_nil p rest0))
                { cell with isRevealed := true })).Nodup := by
              rw [g3]; exact hnd
            have hpt : ∀ q, (mapGet (mapSet m
                ((p :: rest0).getLast (List.cons_ne_nil p rest0))
                { cell with isRevealed := true }) q).map (·.isMine) =
                (mapGet m q).map (·.isMine) := by
              intro q
              rcases eq_or_ne q
                  ((p :: rest0).getLast (List.cons_ne_nil p rest0)) with rfl | hq
              · rw [g1, hget]
                rfl
              · rw [g2 q hq]
            have hcnt := mapSet_same_isMine_count
              ((p :: rest0).getLast (List.cons_ne_nil p rest0))
              { cell with isRevealed := true } m cell hnd hget rfl
            obtain ⟨i1, i2, i3⟩ := ih _ _ _ _ hnd2
            exact ⟨fun q => (i1 q).trans (hpt q), i2.trans g3, i3.trans hcnt⟩

/-- `revealCell` only flips `isRevealed`: mine flags, keys and the mine
count are preserved. -/
lemma revealCell_preserves (cells : MinesweeperCells) (P : CubePosition)
    (g : Int) (hnd : (mapKeys cells).Nodup) :
    (∀ q, (mapGet (revealCell cells P g).1 q).map (·.isMine) =
      (mapGet cells q).map (·.isMine)) ∧
    mapKeys (revealCell cells P g).1 = mapKeys cells ∧
    countValP (fun c => c.isMine) (revealCell cells P g).1 =
      countValP (fun c => c.isMine) cells := by
  unfold revealCell
  split
  · exact ⟨fun q => rfl, rfl, rfl⟩
  next cell hget =>
    split_ifs with h1 h2
    · exact ⟨fun q => rfl, rfl, rfl⟩
    · dsimp only
      obtain ⟨g1, g2, g3, g4⟩ := mapSet_present_spec (fun c => c.isMine) P
        { cell with isRevealed := true } cells cell hnd hget
      refine ⟨?_, g3, mapSet_same_isMine_count P _ cells cell hnd hget rfl⟩
      intro q
      rcases eq_or_ne q P with rfl | hq
      · rw [g1, hget]
        rfl
      · rw [g2 q hq]
    · exact floodRevealLoop_preserves g (9 * (cells.length + 1) + 1)
        [P] [] cells 0 hnd

/-- `placeMines` on an unmined map with distinct keys and enough room:
the safe zone keeps its (unmined) flags, the key list is unchanged, and
exactly `totalMines` cells end up mined. -/
lemma placeMines_spec (r : Nat → Nat) (cells : MinesweeperCells)
    (P : CubePosition) (g M : Int)
    (hnd : (mapKeys cells).Nodup)
    (hmine : ∀ e ∈ cells, e.2.isMine = false)
    (havail : M.toNat ≤ ((mapKeys cells).filter fun k =>
      !(decide (k ∈ P :: getAllNeighbors P g))).length) :
    (∀ q ∈ P :: getAllNeighbors P g,
      (mapGet (placeMines r cells P g M) q).map (·.isMine) =
        (mapGet cells q).map (·.isMine)) ∧
    mapKeys (placeMines r cells P g M) = mapKeys cells ∧
    countValP (fun c => c.isMine) (placeMines r cells P g M) = M.toNat := by
  set safeZone := P :: getAllNeighbors P g with hsz
  set available := (mapKeys cells).filter
    (fun k => !(decide (k ∈ safeZone))) with hav
  set shuffled := fyShuffle r available with hshuf
  set minePositions := shuffled.take M.toNat with hmp
  set withMines := minePositions.foldl mineStep cells with hwm
  have hpm : placeMines r cells P g M =
      (mapKeys withMines).foldl (adjacentStep g) withMines := rfl
  have hperm : shuffled.Perm available := fyShuffle_perm r available
  have hnd_av : available.Nodup := hnd.filter _
  have hnd_sh : shuffled.Nodup := hperm.nodup_iff.2 hnd_av
  have hnd_mp : minePositions.Nodup :=
    (List.take_sublist M.toNat shuffled).nodup hnd_sh
  have hmp_sub : ∀ k ∈ minePositions, k ∈ available := fun k hk =>
    hperm.mem_iff.1 (List.mem_of_mem_take hk)
  have hmp_safe : ∀ k ∈ minePositions, k ∉ safeZone := by
    intro k hk
    have hmem := hmp_sub k hk
    rw [hav, List.mem_filter] at hmem
    simpa using hmem.2
  have hmp_keys : ∀ k ∈ minePositions, k ∈ mapKeys cells := by
    intro k hk
    have hmem := hmp_sub k hk
    rw [hav, List.mem_filter] at hmem
    exact hmem.1
  have hmp_len : minePositions.length = M.toNat := by
    rw [hmp, List.length_take, hperm.length_eq]
    omega
  have hpre : ∀ k ∈ minePositions,
      ∃ c, mapGet cells k = some c ∧ c.isMine = false := by
    intro k hk
    obtain ⟨c, hc⟩ := mapGet_mem_keys_exists (hmp_keys k hk)
    exact ⟨c, hc, hmine _ (mapGet_entry_mem hc)⟩
  obtain ⟨f1, f2, f3⟩ := foldl_mineStep_spec minePositions cells hnd hnd_mp hpre
  have hnd_wm : (mapKeys withMines).Nodup := by
    rw [hwm, f3]; exact hnd
  obtain ⟨a1, a2, a3⟩ :=
    foldl_adjacentStep_spec g (mapKeys withMines) withMines hnd_wm
  have hcnt0 : countValP (fun c => c.isMine) cells = 0 :=
    List.countP_eq_zero.2 fun e he => by simp [hmine e he]
  refine ⟨?_, ?_, ?_⟩
  · intro q hq
    rw [hpm, a1 q, hwm, f2 q fun hmem => hmp_safe q hmem hq]
  · rw [hpm, a2, hwm, f3]
  · rw [hpm, a3, hwm, f1, hcnt0, hmp_len]
    omega

/-- C7.  Safe first click: on a fresh Minesweeper board (distinct keys
covering every in-range position, no mines yet, first click pending,
and enough cells to host all mines outside the 9-cell safe zone),
applying the first `reveal` at any in-range position `P` leaves `P` and
every position of `getAllNeighbors P` unmined, and exactly `totalMines`
cells of the resulting map are mined. -/
theorem minesweeper_safe_first_click (r : Nat → Nat)
    (s : MinesweeperGameState) (P : CubePosition)
    (hnd : (mapKeys s.cells).Nodup)
    (hmine : ∀ e ∈ s.cells, e.2.isMine = false)
    (hcover : ∀ q : CubePosition, 0 ≤ q.x ∧ q.x < s.gridSize ∧
      0 ≤ q.y ∧ q.y < s.gridSize → q ∈ mapKeys s.cells)
    (hfc : s.isFirstClick = true) (hgo : s.isGameOver = false)
    (hP : 0 ≤ P.x ∧ P.x < s.gridSize ∧ 0 ≤ P.y ∧ P.y < s.gridSize)
    (hroom : s.totalMines.toNat + 9 ≤ (mapKeys s.cells).length) :
    (∀ q ∈ P :: getAllNeighbors P s.gridSize,
      ∃ c, mapGet (minesweeperApplyAction r s (.reveal P)).cells q = some c ∧
        c.isMine = false) ∧
    countValP (fun c => c.isMine)
        (minesweeperApplyAction r s (.reveal P)).cells =
      s.totalMines.toNat := by
  have hle9 : ((mapKeys s.cells).filter
      (fun k => decide (k ∈ P :: getAllNeighbors P s.gridSize))).length ≤ 9 := by
    have hnd_f := hnd.filter
      (fun k => decide (k ∈ P :: getAllNeighbors P s.gridSize))
    have hsub : ∀ x ∈ (mapKeys s.cells).filter
        (fun k => decide (k ∈ P :: getAllNeighbors P s.gridSize)),
        x ∈ P :: getAllNeighbors P s.gridSize := fun x hx =>
      of_decide_eq_true (List.mem_filter.1 hx).2
    have hlen := nodup_subset_length _ _ hnd_f hsub
    have hnb := getAllNeighbors_length_le P s.gridSize
    simp only [List.length_cons] at hlen
    omega
  have havail : s.totalMines.toNat ≤ ((mapKeys s.cells).filter
      fun k => !(decide (k ∈ P :: getAllNeighbors P s.gridSize))).length := by
    have hsplit := length_filter_add_not
      (fun k => decide (k ∈ P :: getAllNeighbors P s.gridSize)) (mapKeys s.cells)
    omega
  obtain ⟨p1, p2, p3⟩ := placeMines_spec r s.cells P s.gridSize s.totalMines
    hnd hmine havail
  have happ : (minesweeperApplyAction r s (.reveal P)).cells =
      (revealCell (placeMines r s.cells P s.gridSize s.totalMines) P
        s.gridSize).1 := by
    unfold minesweeperApplyAction
    rw [if_neg (by simp [hgo])]
    dsimp only
    rw [if_pos hfc]
  have hnd_m : (mapKeys
      (placeMines r s.cells P s.gridSize s.totalMines)).Nodup := by
    rw [p2]; exact hnd
  obtain ⟨r1, r2, r3⟩ := revealCell_preserves
    (placeMines r s.cells P s.gridSize s.totalMines) P s.gridSize hnd_m
  constructor
  · intro q hq
    have hqv : 0 ≤ q.x ∧ q.x < s.gridSize ∧ 0 ≤ q.y ∧ q.y < s.gridSize := by
      rcases List.mem_cons.1 hq with rfl | hmem
      · exact hP
      · exact getAllNeighbors_valid hP q hmem
    obtain ⟨c, hc⟩ := mapGet_mem_keys_exists (hcover q hqv)
    have hcm : c.isMine = false := hmine _ (mapGet_entry_mem hc)
    have hmap : (mapGet (minesweeperApplyAction r s (.reveal P)).cells q).map
        (·.isMine) = some false := by
      rw [happ, r1 q, p1 q hq, hc]
      simp [hcm]
    obtain ⟨c', hc', hcm'⟩ := Option.map_eq_some'.1 hmap
    exact ⟨c', hc', hcm'⟩
  · rw [happ, r3, p3]

/-- The fresh 8×8×6-cell, 60-mine board produced by `init` (C7 witness
state). -/
def minesweeperFreshState : MinesweeperGameState :=
  { cells := minesweeperInitCells 8,
    mineCount := 0, flagCount := 0, revealedCount := 0,
    isFirstClick := true, isGameOver := false, isWon := false,
    gridSize := 8, totalMines := 60, explodedMine := none }

set_option maxRecDepth 8000 in
/-- Witness for C7 on the fresh board, clicking `(FRONT, 3, 3)`. -/
theorem minesweeper_safe_first_click_witness :
    (∀ q ∈ (⟨FRONT, 3, 3⟩ : CubePosition) ::
        getAllNeighbors ⟨FRONT, 3, 3⟩ minesweeperFreshState.gridSize,
      ∃ c, mapGet (minesweeperApplyAction (fun _ => 0) minesweeperFreshState
          (.reveal ⟨FRONT, 3, 3⟩)).cells q = some c ∧ c.isMine = false) ∧
    countValP (fun c => c.isMine)
        (minesweeperApplyAction (fun _ => 0) minesweeperFreshState
          (.reveal ⟨FRONT, 3, 3⟩)).cells =
      minesweeperFreshState.totalMines.toNat :=
  minesweeper_safe_first_click (fun _ => 0) minesweeperFreshState
    ⟨FRONT, 3, 3⟩
    (nodup_minesweeperInitKeys 8)
    (by decide)
    (fun q hq => mem_minesweeperInitKeys.2 hq)
    rfl rfl (by decide) (by decide)

/-! ## Nonogram (`NonogramGame.ts`) -/

/-- Cell states of the Nonogram. -/
inductive NonogramCellState where
  | UNKNOWN
  | FILLED
  | EMPTY
deriving DecidableEq, Repr

/-- One Nonogram cell. -/
structure NonogramCell where
  solution : Bool
  state : NonogramCellState
deriving DecidableEq, Repr

/-- The cell map (`Map<string, NonogramCell>`). -/
abbrev NonogramCells := List (CubePosition × NonogramCell)

/-- Nonogram game state; the constant `clues` map, the derived `winner`
field and the inherited constant `pieces` are omitted. -/
structure NonogramGameState where
  cells : NonogramCells
  gridSize : Int
  isGameOver : Bool
  isWon : Bool
  mistakes : Int
  maxMistakes : Int
  revealedHint : Option CubePosition
  completedFaces : List CubeFace
deriving DecidableEq, Repr

/-- Nonogram actions. -/
inductive NonogramAction where
  | fill (payload : CubePosition)
  | markEmpty (payload : CubePosition)
  | clear (payload : CubePosition)
  | hint (payload : CubePosition)
deriving DecidableEq, Repr

/-- `Set.add` of the completed-face set (adds at the end if absent). -/
def setAddFace (l : List CubeFace) (f : CubeFace) : List CubeFace :=
  if decide (f ∈ l) then l else l ++ [f]

/-- `isFaceComplete`: every solution-true cell of the face is FILLED
(missing cells fail); solution-false cells are unconstrained. -/
def isFaceComplete (cells : NonogramCells) (face : CubeFace)
    (gridSize : Int) : Bool :=
  (List.range gridSize.toNat).all fun y =>
    (List.range gridSize.toNat).all fun x =>
      match mapGet cells ⟨face, Int.ofNat x, Int.ofNat y⟩ with
      | none => false
      | some cell =>
        !(cell.solution && !(decide (cell.state = NonogramCellState.FILLED)))

/-- `checkWinCondition`: every solution-true cell of the whole map is
FILLED; solution-false cells may be anything (lenient). -/
def checkWinCondition (cells : NonogramCells) : Bool :=
  cells.all fun e =>
    !(e.2.solution && !(decide (e.2.state = NonogramCellState.FILLED)))

/-- `NonogramGame.applyAction`; `gridSize`/`maxMistakes` are the class
fields of the game instance.  The source reads `newCells.get(key)!`,
which throws when the payload is not a key of the map: the model
returns `none` there. -/
def nonogramApplyAction (gridSize maxMistakes : Int)
    (state : NonogramGameState) (action : NonogramAction) :
    Option NonogramGameState :=
  let payload := match action with
    | .fill p => p
    | .markEmpty p => p
    | .clear p => p
    | .hint p => p
  match mapGet state.cells payload with
  | none => none
  | some cell =>
    let mistakes := match action with
      | .fill _ =>
        if cell.solution then state.mistakes else state.mistakes + 1
      | _ => state.mistakes
    let revealedHint : Option CubePosition := match action with
      | .hint p => some p
      | _ => none
    let newState : NonogramCellState := match action with
      | .fill _ =>
        if cell.solution then NonogramCellState.FILLED
        else NonogramCellState.EMPTY
      | .markEmpty _ => NonogramCellState.EMPTY
      | .clear _ => NonogramCellState.UNKNOWN
      | .hint _ =>
        if cell.solution then NonogramCellState.FILLED
        else NonogramCellState.EMPTY
    let newCells := mapSet state.cells payload { cell with state := newState }
    let completedFaces := ALL_FACES.foldl (fun cf face =>
      if isFaceComplete newCells face gridSize then setAddFace cf face
      else cf.erase face) state.completedFaces
    let isWon := checkWinCondition newCells
    let isGameOver := isWon || decide (mistakes ≥ maxMistakes)
    some { state with
      cells := newCells,
      mistakes := mistakes,
      isWon := isWon,
      isGameOver := isGameOver,
      revealedHint := revealedHint,
      completedFaces := completedFaces }

/-- Driver folding a `fill` action over a list of positions, stopping on
a crash. -/
def nonogramApplyFills (gridSize maxMistakes : Int) :
    List CubePosition → NonogramGameState → Option NonogramGameState
  | [], s => some s
  | k :: ks, s =>
    match nonogramApplyAction gridSize maxMistakes s (.fill k) with
    | none => none
    | some s' => nonogramApplyFills gridSize maxMistakes ks s'

/-! ## C9: lenient win condition -/

/-- Entries of `mapSet` on a present key: the new entry, or an old entry
with a different key. -/
lemma mapSet_present_mem {β : Type} {m : List (CubePosition × β)}
    {k : CubePosition} {v : β}
    (hmem : (m.any fun e => decide (e.1 = k)) = true) :
    ∀ e ∈ mapSet m k v, e = (k, v) ∨ (e ∈ m ∧ e.1 ≠ k) := by
  intro e he
  unfold mapSet at he
  rw [if_pos hmem] at he
  obtain ⟨e0, he0, heq⟩ := List.mem_map.1 he
  by_cases h : e0.1 = k
  · rw [if_pos h] at heq
    exact Or.inl heq.symm
  · rw [if_neg h] at heq
    exact Or.inr (heq ▸ ⟨he0, h⟩)

/-- Closed form of a correct `fill` (payload present, solution true). -/
lemma nonogramApplyAction_fill_sol (g mm : Int) (s : NonogramGameState)
    (k : CubePosition) (cell : NonogramCell)
    (hget : mapGet s.cells k = some cell) (hsol : cell.solution = true) :
    nonogramApplyAction g mm s (.fill k) = some
      { s with
        cells := mapSet s.cells k
          { cell with state := NonogramCellState.FILLED },
        mistakes := s.mistakes,
        isWon := checkWinCondition (mapSet s.cells k
          { cell with state := NonogramCellState.FILLED }),
        isGameOver := checkWinCondition (mapSet s.cells k
            { cell with state := NonogramCellState.FILLED }) ||
          decide (s.mistakes ≥ mm),
        revealedHint := none,
        completedFaces := ALL_FACES.foldl (fun cf face =>
          if isFaceComplete (mapSet s.cells k
              { cell with state := NonogramCellState.FILLED }) face g then
            setAddFace cf face
          else cf.erase face) s.completedFaces } := by
  unfold nonogramApplyAction
  dsimp only
  rw [hget]
  dsimp only
  rw [hsol]
  rfl

/-- Filling every remaining solution-true cell of a board whose
solution-true cells are otherwise already FILLED wins the game. -/
lemma nonogram_fill_all (g mm : Int) :
    ∀ (R : List CubePosition) (s : NonogramGameState), R ≠ [] →
      (mapKeys s.cells).Nodup → R.Nodup →
      (∀ e ∈ s.cells, e.2.solution = true →
        e.2.state = NonogramCellState.FILLED ∨ e.1 ∈ R) →
      (∀ k ∈ R, ∃ cell, mapGet s.cells k = some cell ∧
        cell.solution = true) →
      ∃ s', nonogramApplyFills g mm R s = some s' ∧
        s'.isWon = true ∧ s'.isGameOver = true := by
  intro R
  induction R with
  | nil => intro s hne; exact absurd rfl hne
  | cons k ks ih =>
    intro s _ hnd hRnd hsol hmem
    obtain ⟨cell, hget, hsolk⟩ := hmem k (List.mem_cons_self k ks)
    have happ := nonogramApplyAction_fill_sol g mm s k cell hget hsolk
    obtain ⟨g1, g2, g3, -⟩ := mapSet_present_spec (fun _ => true) k
      { cell with state := NonogramCellState.FILLED } s.cells cell hnd hget
    have hstepmem := mapSet_present_mem (m := s.cells) (k := k)
      (v := { cell with state := NonogramCellState.FILLED })
      (mapGet_some_mem_keys hget)
    have hk_notin : k ∉ ks := (List.nodup_cons.1 hRnd).1
    have hsol' : ∀ e ∈ mapSet s.cells k
        { cell with state := NonogramCellState.FILLED },
        e.2.solution = true →
        e.2.state = NonogramCellState.FILLED ∨ e.1 ∈ ks := by
      intro e he hes
      rcases hstepmem e he with rfl | ⟨hmem2, hne2⟩
      · exact Or.inl rfl
      · rcases hsol e hmem2 hes with hf | hin
        · exact Or.inl hf
        · rcases List.mem_cons.1 hin with he1 | he1
          · exact absurd he1 hne2
          · exact Or.inr he1
    have hmem' : ∀ k' ∈ ks, ∃ cell', mapGet (mapSet s.cells k
        { cell with state := NonogramCellState.FILLED }) k' = some cell' ∧
        cell'.solution = true := by
      intro k' hk'
      obtain ⟨cell', hc', hs'⟩ := hmem k' (List.mem_cons_of_mem k hk')
      have hne : k' ≠ k := fun he => hk_notin (he ▸ hk')
      exact ⟨cell', (g2 k' hne).trans hc', hs'⟩
    have hnd' : (mapKeys (mapSet s.cells k
        { cell with state := NonogramCellState.FILLED })).Nodup := by
      rw [g3]; exact hnd
    cases ks with
    | nil =>
      have hwin : checkWinCondition (mapSet s.cells k
          { cell with state := NonogramCellState.FILLED }) = true := by
        rw [checkWinCondition, List.all_eq_true]
        intro e he
        by_cases hes : e.2.solution = true
        · rcases hsol' e he hes with hf | hf
          · simp [hf]
          · cases hf
        · simp only [Bool.not_eq_true] at hes
          simp [hes]
      unfold nonogramApplyFills
      rw [happ]
      refine ⟨_, rfl, ?_, ?_⟩
      · dsimp only
        exact hwin
      · dsimp only
        simp [hwin]
    | cons k2 ks2 =>
      obtain ⟨s', hfold, hw, hgo⟩ := ih
        { s with
          cells := mapSet s.cells k
            { cell with state := NonogramCellState.FILLED },
          mistakes := s.mistakes,
          isWon := checkWinCondition (mapSet s.cells k
            { cell with state := NonogramCellState.FILLED }),
          isGameOver := checkWinCondition (mapSet s.cells k
              { cell with state := NonogramCellState.FILLED }) ||
            decide (s.mistakes ≥ mm),
          revealedHint := none,
          completedFaces := ALL_FACES.foldl (fun cf face =>
            if isFaceComplete (mapSet s.cells k
                { cell with state := NonogramCellState.FILLED }) face g then
              setAddFace cf face
            else cf.erase face) s.completedFaces }
        (List.cons_ne_nil k2 ks2) hnd' (List.nodup_cons.1 hRnd).2 hsol' hmem'
      refine ⟨s', ?_, hw, hgo⟩
      show nonogramApplyFills g mm (k :: k2 :: ks2) s = some s'
      unfold nonogramApplyFills
      rw [happ]
      exact hfold

/-- C9.  Lenient win: `checkWinCondition` holds exactly when every
solution-true cell is FILLED (solution-false cells may be UNKNOWN or
EMPTY), and filling every solution-true cell of an all-UNKNOWN board
with distinct keys — leaving all other cells UNKNOWN — ends in a state
with `isWon = true` and `isGameOver = true`. -/
theorem nonogram_lenient_win (g mm : Int) (s : NonogramGameState)
    (R : List CubePosition)
    (hne : R ≠ [])
    (hnd : (mapKeys s.cells).Nodup) (hRnd : R.Nodup)
    (hunk : ∀ e ∈ s.cells, e.2.state = NonogramCellState.UNKNOWN)
    (hsol : ∀ e ∈ s.cells, e.2.solution = true → e.1 ∈ R)
    (hmem : ∀ k ∈ R, ∃ cell, mapGet s.cells k = some cell ∧
      cell.solution = true) :
    (∀ cells : NonogramCells, checkWinCondition cells = true ↔
      ∀ e ∈ cells, e.2.solution = true →
        e.2.state = NonogramCellState.FILLED) ∧
    ∃ s', nonogramApplyFills g mm R s = some s' ∧
      s'.isWon = true ∧ s'.isGameOver = true := by
  constructor
  · intro cells
    rw [checkWinCondition, List.all_eq_true]
    constructor
    · intro h e he hes
      have h2 := h e he
      simpa [hes] using h2
    · intro h e he
      by_cases hes : e.2.solution = true
      · simp [h e he hes]
      · simp only [Bool.not_eq_true] at hes
        simp [hes]
  · exact nonogram_fill_all g mm R s hne hnd hRnd
      (fun e he hes => Or.inr (hsol e he hes)) hmem

/-- A small all-UNKNOWN board (C9 witness state). -/
def nonogramInitLikeState : NonogramGameState :=
  { cells := [
      (⟨FRONT, 0, 0⟩, ⟨true, NonogramCellState.UNKNOWN⟩),
      (⟨FRONT, 1, 0⟩, ⟨false, NonogramCellState.UNKNOWN⟩),
      (⟨FRONT, 0, 1⟩, ⟨true, NonogramCellState.UNKNOWN⟩),
      (⟨FRONT, 1, 1⟩, ⟨false, NonogramCellState.UNKNOWN⟩)],
    gridSize := 2, isGameOver := false, isWon := false,
    mistakes := 0, maxMistakes := 3, revealedHint := none,
    completedFaces := [] }

/-- Witness for C9: filling the two solution-true cells wins. -/
theorem nonogram_lenient_win_witness :
    (∀ cells : NonogramCells, checkWinCondition cells = true ↔
      ∀ e ∈ cells, e.2.solution = true →
        e.2.state = NonogramCellState.FILLED) ∧
    ∃ s', nonogramApplyFills 2 3
        [⟨FRONT, 0, 0⟩, ⟨FRONT, 0, 1⟩] nonogramInitLikeState = some s' ∧
      s'.isWon = true ∧ s'.isGameOver = true :=
  nonogram_lenient_win 2 3 nonogramInitLikeState
    [⟨FRONT, 0, 0⟩, ⟨FRONT, 0, 1⟩]
    (by decide) (by decide) (by decide) (by decide) (by decide)
    (by
      intro k hk
      rcases List.mem_cons.1 hk with rfl | hk2
      · exact ⟨⟨true, NonogramCellState.UNKNOWN⟩, rfl, rfl⟩
      · rcases List.mem_cons.1 hk2 with rfl | hk3
        · exact ⟨⟨true, NonogramCellState.UNKNOWN⟩, rfl, rfl⟩
        · cases hk3)
